import Mathlib

/-!
# solarium-nightlight: a verification development of `main.c`

The firmware drives eight RGB lights through a chain of 12-bit PWM drivers.
This file embeds the parts of `main.c` that the specification talks about and
proves (or refutes) the specification's claims on them.

Conventions of the embedding.

* The target is an AVR (`<avr/io.h>`): `int` has 16 bits and `uint16_t` is an
  `unsigned int`.  Unsigned words are natural numbers reduced modulo `2 ^ 16`
  wherever the C arithmetic can wrap; the 8-bit port register is reduced modulo
  `2 ^ 8`.
* `float` arithmetic is exact rational arithmetic (`ℚ`).  A conversion of a
  float to an integer type truncates toward zero, as in C.
* The frame buffer `uint16_t data[NUM_BITS]` is a map from cell index to word.
  The C code also touches the cell at index `NUM_BITS`, one past the end of the
  array; that cell is kept as a cell of its own (the word that follows the array
  in memory) and no other variable of the program is assumed to live there.
* Everything the program does to the outside world is appended to a log, oldest
  entry first.
-/

namespace Solarium

/-! ## Constants and the hardware model -/

/-- The C macro `NUM_BITS`: the number of words in `data`. -/
def NUM_BITS : Nat := 24

/-- The C macro `NUM_PROGRAMS`. -/
def NUM_PROGRAMS : Nat := 8

/-- One externally visible action of the firmware. -/
inductive Event where
  /-- `write_data` was entered; the payload is the content of `data[0..23]` at
  that moment (a ghost record, the hardware does not see it). -/
  | frame (words : List Nat)
  /-- a value was stored into the output register `PORTD`. -/
  | port (v : Nat)
  /-- `delay_ms` was called with this argument. -/
  | wait_ms (x : Nat)
  deriving DecidableEq, Repr

/-- The frame buffer together with the log of actions. -/
structure Hw where
  /-- The cells `data[x]`; the array proper is `x < NUM_BITS`. -/
  data : Nat → Nat
  /-- The actions so far, oldest first. -/
  log : List Event

/-- The content of the array `data[0..23]` as a list. -/
def snapshot (data : Nat → Nat) : List Nat :=
  (List.range NUM_BITS).map data

/-- Conversion of a float to a C integer: truncation toward zero. -/
def truncQ (x : ℚ) : Int :=
  if 0 ≤ x then ⌊x⌋ else ⌈x⌉

/-- Conversion of a float to `uint16_t`: truncation, reduced modulo `2 ^ 16`
(a negative float, for which C leaves the result open, is taken to `0`). -/
def toU16 (x : ℚ) : Nat :=
  (truncQ x).toNat % 65536

/-! ## `write_data`: the output protocol -/

/-- The body of the inner loop of `write_data` for one `mask`: put the masked bit
of `val` on the data line (`PORTD = 0x02` or `PORTD = 0x00`), then `PORTD++` and
`PORTD--` on the 8-bit register.  The result is the list of the three values
stored into `PORTD`. -/
def write_bit (val mask : Nat) : List Nat :=
  let p0 : Nat := if val &&& mask ≠ 0 then 0x02 else 0x00
  let p1 : Nat := (p0 + 1) % 256
  let p2 : Nat := (p1 + 255) % 256
  [p0, p1, p2]

/-- The inner loop `for (mask = 0x0800; mask > 0; mask = mask >> 1)` of
`write_data`, started at an arbitrary `mask`. -/
def write_word (val : Nat) (mask : Nat) : List Nat :=
  if 0 < mask then write_bit val mask ++ write_word val (mask >>> 1) else []
termination_by mask
decreasing_by
  simp_wf
  exact Nat.div_lt_self (by assumption) (by decide)

/-- The outer loop `for (x = NUM_BITS; x >= 0; x--)` of `write_data`, started at
an arbitrary `x`: cell `x` first, cell `0` last. -/
def write_words (data : Nat → Nat) : Nat → List Nat
  | 0 => write_word (data 0) 0x0800
  | x + 1 => write_word (data (x + 1)) 0x0800 ++ write_words data x

/-- All values that one call of `write_data` stores into `PORTD`, in order:
`PORTD = 0`, the two loops, then `PORTD = 0x04|0x08` and `PORTD = 0x00`. -/
def write_data_port (data : Nat → Nat) : List Nat :=
  [0] ++ write_words data NUM_BITS ++ [0x04 ||| 0x08, 0x00]

/-- The C function `write_data`. -/
def write_data (hw : Hw) : Hw :=
  { hw with
    log := hw.log ++ Event.frame (snapshot hw.data)
      :: (write_data_port hw.data).map Event.port }

/-- The C function `clear_lights`: `for (x = 0; x <= NUM_BITS; x++) data[x] = 0;`
followed by `write_data()`.  The last store, `data[NUM_BITS]`, is one past the
end of the array; which variable it overwrites in the program is decided by the
linker, and here the cell after the array is a cell of its own. -/
def clear_lights (hw : Hw) : Hw :=
  write_data
    { hw with
      data := (List.range (NUM_BITS + 1)).foldl (fun d x => Function.update d x 0) hw.data }

/-- What the driver chain shifts in from a sequence of port values: at every
rising edge of the clock line (bit 0 of the port) it samples the data line
(bit 1).  `clk` is the clock level before the first value. -/
def shifted_in : Bool → List Nat → List Bool
  | _, [] => []
  | clk, v :: vs =>
    if clk = false ∧ v % 2 = 1 then (v / 2 % 2 = 1) :: shifted_in true vs
    else shifted_in (v % 2 = 1) vs

/-- The 12 low bits of a word, bit 11 first. -/
def bits12 (val : Nat) : List Bool :=
  (List.range 12).reverse.map (fun k => val.testBit k)

/-! ## The colour model: `hsv2rgb`, `rgb2hsv`, `max3`, `min3` -/

/-- The C function `hsv2rgb`; the result is `(*r, *g, *b)`.  `i % 6` is C's
remainder (`Int.tmod`); the `switch` has no `default`, so outside the six cases
`fr`, `fg`, `fb` keep their initial `0`. -/
def hsv2rgb (h s v : ℚ) : Nat × Nat × Nat :=
  let i : Int := truncQ (h * 6)
  let f : ℚ := h * 6 - i
  let p : ℚ := v * (1 - s)
  let q : ℚ := v * (1 - f * s)
  let t : ℚ := v * (1 - (1 - f) * s)
  let k : Int := i.tmod 6
  let frgb : ℚ × ℚ × ℚ :=
    if k = 0 then (v, t, p)
    else if k = 1 then (q, v, p)
    else if k = 2 then (p, v, t)
    else if k = 3 then (p, q, v)
    else if k = 4 then (t, p, v)
    else if k = 5 then (v, p, q)
    else (0, 0, 0)
  (toU16 (frgb.1 * 0x0FFF), toU16 (frgb.2.1 * 0x0FFF), toU16 (frgb.2.2 * 0x0FFF))

/-- The C function `max3`. -/
def max3 (a b c : Nat) : Nat :=
  let max := a
  let max := if max < b then b else max
  let max := if max < c then c else max
  max

/-- The C function `min3`. -/
def min3 (a b c : Nat) : Nat :=
  let min := a
  let min := if min > b then b else min
  let min := if min > c then c else min
  min

/-- Subtraction of two `uint16_t` values.  On the AVR both operands are promoted
to `unsigned int`, which has 16 bits, so the difference wraps modulo `2 ^ 16`. -/
def sub16 (a b : Nat) : Nat :=
  (a % 65536 + 65536 - b % 65536) % 65536

/-- The C function `rgb2hsv`; the result is `(*h, *s, *v)`. -/
def rgb2hsv (r g b : Nat) : ℚ × ℚ × ℚ :=
  let max := max3 r g b
  let min := min3 r g b
  let v : ℚ := (max : ℚ) / 0x0FFF
  let delta : ℚ := (sub16 max min : ℚ) / 0x0FFF
  let s : ℚ := if max = 0 then 0 else delta / ((max : ℚ) / 0x0FFF)
  let h : ℚ :=
    if max = min then 0
    else
      let h : ℚ :=
        if max = r then
          let h : ℚ := ((sub16 g b : ℚ) / 0x0FFF) / delta
          if g < b then h + 6 else h
        else if max = g then ((sub16 b r : ℚ) / 0x0FFF) / delta + 2
        else ((sub16 r g : ℚ) / 0x0FFF) / delta + 4
      h / 6
  (h, s, v)

/-- The C macro `SET_IDX(idx,r,g,b)`: `data[idx]=b; data[idx+1]=r; data[idx+2]=g;`. -/
def SET_IDX (data : Nat → Nat) (idx r g b : Nat) : Nat → Nat :=
  Function.update (Function.update (Function.update data idx b) (idx + 1) r) (idx + 2) g

/-- The C macro `SET_LED(led,r,g,b)`. -/
def SET_LED (data : Nat → Nat) (led r g b : Nat) : Nat → Nat :=
  Function.update (Function.update (Function.update data (led * 3) b) (led * 3 + 1) r)
    (led * 3 + 2) g

/-- A call `hsv2rgb(h, s, v, &data[idx], &data[idx+1], &data[idx+2])`: the
function stores `*r`, `*g`, `*b` in this order. -/
def hsv2rgb_into (data : Nat → Nat) (idx : Nat) (h s v : ℚ) : Nat → Nat :=
  let rgb := hsv2rgb h s v
  Function.update (Function.update (Function.update data idx rgb.1) (idx + 1) rgb.2.1)
    (idx + 2) rgb.2.2

/-- The argument of `delay_ms(uint16_t)` when an `int` is passed. -/
def u16_of_int (i : Int) : Nat :=
  (i % 65536).toNat

/-- The C function `delay_ms`, as an entry of the log. -/
def delay_ms (x : Nat) (hw : Hw) : Hw :=
  { hw with log := hw.log ++ [Event.wait_ms x] }

/-! ## The ornament generator: `xmas_ball_prog` -/

/-- The C macro `XBALL_LIGHT_LIMIT`. -/
def XBALL_LIGHT_LIMIT : Nat := 0xFFF

/-- The C macro `XBALL_DELAY_LIMIT`. -/
def XBALL_DELAY_LIMIT : Nat := 5

/-- The private variables of `xmas_ball_prog`. -/
structure XBall where
  xball_delay : Int
  /-- The array `uint16_t xball_light_level[3]`. -/
  xball_light_level : Nat → Nat
  xball_light_color : Nat
  xball_light_step : Nat
  xball_light_max : Nat
  xball_light_set : Nat
  xball_phase : Nat
  xball_white_level : Nat

/-- The initial values of the `xball_*` variables. -/
def xball_start : XBall where
  xball_delay := XBALL_DELAY_LIMIT
  xball_light_level := fun _ => 0x000
  xball_light_color := 0
  xball_light_step := 0x001
  xball_light_max := XBALL_LIGHT_LIMIT
  xball_light_set := 0
  xball_phase := 0
  xball_white_level := 0x000

/-- The table `xmas_ball_sets[2][4]`. -/
def xmas_ball_sets (set x : Nat) : Nat :=
  ([[1*3, 3*3, 4*3, 6*3], [0*3, 2*3, 5*3, 7*3]].getD set []).getD x 0

/-- The loop `for (x=0; x <= 3; x++) SET_IDX(xmas_ball_sets[set][x], r, g, b)`. -/
def xball_paint (data : Nat → Nat) (set r g b : Nat) : Nat → Nat :=
  (List.range 4).foldl (fun d x => SET_IDX d (xmas_ball_sets set x) r g b) data

/-- The loop of the third phase, which paints both sets in each round. -/
def xball_paint_both (data : Nat → Nat) (s : XBall) : Nat → Nat :=
  (List.range 4).foldl
    (fun d x =>
      SET_IDX
        (SET_IDX d (xmas_ball_sets s.xball_light_set x)
          (s.xball_light_level 0) (s.xball_light_level 1) (s.xball_light_level 2))
        (xmas_ball_sets ((s.xball_light_set + 1) % 2) x)
        s.xball_white_level s.xball_white_level s.xball_white_level)
    data

/-- The three-way branch on `xball_phase` in `xmas_ball_prog` (everything between
the `init` block and the final `delay_ms`), on the private state and `data`. -/
def xball_step (s : XBall) (data : Nat → Nat) : XBall × (Nat → Nat) :=
  if s.xball_phase = 0 then
    let data := xball_paint data s.xball_light_set
      (s.xball_light_level 0) (s.xball_light_level 1) (s.xball_light_level 2)
    let level := Function.update s.xball_light_level s.xball_light_color
      ((s.xball_light_level s.xball_light_color + s.xball_light_step) % 65536)
    let s := { s with xball_light_level := level }
    let s := if s.xball_light_level s.xball_light_color > s.xball_light_max
      then { s with xball_phase := 1 } else s
    (s, data)
  else if s.xball_phase = 1 then
    let data := xball_paint data ((s.xball_light_set + 1) % 2)
      s.xball_white_level s.xball_white_level s.xball_white_level
    let s := { s with
      xball_white_level := (s.xball_white_level + s.xball_light_step) % 65536 }
    let s := if s.xball_white_level > s.xball_light_max
      then { s with xball_phase := 2 } else s
    (s, data)
  else
    let data := xball_paint_both data s
    let dec := (s.xball_light_step * 4) % 65536
    let s := { s with
      xball_light_level := Function.update s.xball_light_level s.xball_light_color
        (sub16 (s.xball_light_level s.xball_light_color) dec)
      xball_white_level := sub16 s.xball_white_level dec }
    let s := if ((s.xball_light_level s.xball_light_color : Nat) : ℚ) < 0
      then { s with
        xball_light_level := Function.update s.xball_light_level s.xball_light_color 0 }
      else s
    let s := if ((s.xball_white_level : Nat) : ℚ) < 0
      then { s with xball_white_level := 0 } else s
    if s.xball_light_level s.xball_light_color = 0 ∧ s.xball_white_level = 0 then
      let data := xball_paint data s.xball_light_set 0x000 0x000 0x000
      let s := { s with
        xball_light_level := fun _ => 0
        xball_light_set := (s.xball_light_set + 1) % 2
        xball_light_color := (s.xball_light_color + 1) % 3
        xball_white_level := 0
        xball_phase := 0 }
      (s, data)
    else (s, data)

/-- The C function `xmas_ball_prog`. -/
def xmas_ball_prog (init : Bool) (level : ℚ) (s : XBall) (hw : Hw) : XBall × Hw :=
  let hw := if init then clear_lights hw else hw
  let s := if init then
      { s with
        xball_light_max := toU16 (XBALL_LIGHT_LIMIT * level)
        xball_delay := truncQ (XBALL_DELAY_LIMIT / level) }
    else s
  let sd := xball_step s hw.data
  let hw := delay_ms (u16_of_int sd.1.xball_delay) { hw with data := sd.2 }
  (sd.1, write_data hw)

/-- The state after `xmas_ball_prog` has been called `n` times with `init = 0`. -/
def xmas_ball_run (level : ℚ) : Nat → XBall × Hw → XBall × Hw
  | 0, st => st
  | n + 1, st =>
    let st := xmas_ball_run level n st
    xmas_ball_prog false level st.1 st.2

/-- The frames on which `write_data` was called, oldest first. -/
def frames_of : List Event → List (List Nat)
  | [] => []
  | Event.frame ws :: es => ws :: frames_of es
  | _ :: es => frames_of es

/-- The machine when `main` enters its loop: `data` is all zero (static storage),
`io_init` has stored `PORTD = 0` and `clear_lights` has run once. -/
def hw_start : Hw :=
  clear_lights { data := fun _ => 0, log := [Event.port 0] }

/-! ## The sun generator: `sun_show_prog` -/

/-- The C macro `DAY_SEGMENTS`. -/
def DAY_SEGMENTS : Nat := 10

/-- The C macro `DAY_FRAMES`. -/
def DAY_FRAMES : Nat := 5000

/-- The C macro `HOUR_INTERVAL`, `(float) DAY_FRAMES/DAY_SEGMENTS`. -/
def HOUR_INTERVAL : ℚ := (DAY_FRAMES : ℚ) / DAY_SEGMENTS

/-- The table `sun_rings[4][2]`. -/
def sun_rings (band k : Nat) : Nat :=
  ([[4*3, 1*3], [7*3, 2*3], [5*3, 0*3], [3*3, 6*3]].getD band []).getD k 0

/-- The rows of the table `sun_bands[4][10][3]`. -/
def sun_bands_rows : List (List (List ℚ)) :=
  [[[294/360, 0.980, 0.200], [250/360, 0.980, 0.100], [250/360, 0.980, 0.150],
    [357/360, 1.000, 0.540], [358/360, 1.000, 1.000], [11/360, 0.800, 1.000],
    [21/360, 0.450, 1.000], [24/360, 0.140, 1.000], [256/360, 0.190, 0.300],
    [268/360, 0.530, 0.150]],
   [[258/360, 0.900, 0.170], [250/360, 0.980, 0.100], [250/360, 0.980, 0.150],
    [20/360, 0.960, 0.240], [29/360, 0.830, 1.000], [54/360, 0.980, 1.000],
    [24/360, 0.110, 1.000], [256/360, 0.140, 1.000], [245/360, 0.710, 0.460],
    [283/360, 0.940, 0.200]],
   [[12/360, 1.000, 0.170], [250/360, 0.980, 0.100], [250/360, 0.980, 0.150],
    [310/360, 1.000, 0.160], [246/360, 0.480, 0.570], [250/360, 0.400, 0.710],
    [255/360, 0.120, 1.000], [288/360, 0.040, 1.000], [48/360, 1.000, 1.000],
    [10/360, 1.000, 0.720]],
   [[333/360, 0.990, 0.110], [250/360, 0.980, 0.100], [250/360, 0.980, 0.150],
    [269/360, 1.000, 0.390], [232/360, 1.000, 0.410], [239/360, 0.620, 0.490],
    [241/360, 0.150, 1.000], [310/360, 0.070, 1.000], [20/360, 0.970, 1.000],
    [15/360, 1.000, 0.440]]]

/-- The table `sun_bands[band][hour][k]`. -/
def sun_bands (band hour k : Nat) : ℚ :=
  (((sun_bands_rows.getD band []).getD hour []).getD k 0)

/-- The hue interpolation of `sun_show_prog`: the `if / else if / else` that
computes `h` from the anchors `h1`, `h2` and `progress`. -/
def sun_hue (h1 h2 progress : ℚ) : ℚ :=
  if h2 < h1 ∧ h2 < 0.16 ∧ h1 > 0.5 then
    let h := h1 + ((h2 + 1) - h1) * progress
    if h > 1.0 then h - 1.0 else h
  else if h1 < h2 ∧ h2 > 0.5 ∧ h1 < 0.16 then
    let h := h1 + (h2 - (h1 + 1)) * progress
    if h < 0.0 then h + 1.0 else h
  else
    h1 + (h2 - h1) * progress

/-- The local `start_hour` of `sun_show_prog`. -/
def sun_start_hour (day_counter : Nat) : Int :=
  truncQ ((day_counter : ℚ) / HOUR_INTERVAL)

/-- The local `start_count` of `sun_show_prog`. -/
def sun_start_count (day_counter : Nat) : Int :=
  truncQ (HOUR_INTERVAL * (sun_start_hour day_counter : ℚ))

/-- The local `end_hour` of `sun_show_prog`. -/
def sun_end_hour (day_counter : Nat) : Int :=
  (sun_start_hour day_counter + 1).tmod DAY_SEGMENTS

/-- The local `progress` of `sun_show_prog`. -/
def sun_progress (day_counter : Nat) : ℚ :=
  ((((day_counter : Int) - sun_start_count day_counter : Int) : ℚ)) / HOUR_INTERVAL

/-- The body of the loop over `band` in `sun_show_prog`. -/
def sun_band (day_counter : Nat) (data : Nat → Nat) (band : Nat) : Nat → Nat :=
  let start_hour := (sun_start_hour day_counter).toNat
  let end_hour := (sun_end_hour day_counter).toNat
  let progress := sun_progress day_counter
  let h1 := sun_bands band start_hour 0
  let h2 := sun_bands band end_hour 0
  let s1 := sun_bands band start_hour 1
  let s2 := sun_bands band end_hour 1
  let v1 := sun_bands band start_hour 2
  let v2 := sun_bands band end_hour 2
  let h := sun_hue h1 h2 progress
  let s := s1 + ((s2 - s1) * progress)
  let v := v1 + ((v2 - v1) * progress)
  let rgb := hsv2rgb h s v
  let r := rgb.1
  let g := rgb.2.1
  let b := rgb.2.2
  let data := Function.update data (sun_rings band 0 + 0) b
  let data := Function.update data (sun_rings band 1 + 0) b
  let data := Function.update data (sun_rings band 0 + 1) r
  let data := Function.update data (sun_rings band 1 + 1) r
  let data := Function.update data (sun_rings band 0 + 2) g
  let data := Function.update data (sun_rings band 1 + 2) g
  data

/-- The C function `sun_show_prog`; its private state is `day_counter`. -/
def sun_show_prog (init : Bool) (_level : ℚ) (day_counter : Nat) (hw : Hw) : Nat × Hw :=
  let hw := if init then clear_lights hw else hw
  let data := (List.range 4).foldl (sun_band day_counter) hw.data
  let hw := write_data { hw with data := data }
  let day_counter := (day_counter + 1) % DAY_FRAMES
  (day_counter, delay_ms 20 hw)

/-- The state after `n` calls of `sun_show_prog` with `init = 0`. -/
def sun_show_run (level : ℚ) : Nat → Nat × Hw → Nat × Hw
  | 0, st => st
  | n + 1, st =>
    let st := sun_show_run level n st
    sun_show_prog false level st.1 st.2

/-! ## The spaceship generator: `spaceship_prog` -/

/-- The C macro `HUE`. -/
def HUE : Nat := 0

/-- The C macro `SAT`. -/
def SAT : Nat := 1

/-- The C macro `VAL`. -/
def VAL : Nat := 2

/-- The C macro `SS_VAL_MAX`. -/
def SS_VAL_MAX : ℚ := 1.0

/-- The C macro `SS_DELAY_MAX`. -/
def SS_DELAY_MAX : Nat := 10

/-- The table `spaceship_cycles[2][4]`. -/
def spaceship_cycles (ring pos : Nat) : Nat :=
  ([[5*3, 6*3, 0*3, 3*3], [1*3, 7*3, 4*3, 2*3]].getD ring []).getD pos 0

/-- The private variables of `spaceship_prog` (`num_steps` and `ss_step` are
never read and are left out). -/
structure Ss where
  ss_delay : Int
  top_cycle : Nat
  bot_cycle : Nat
  top_cycle_incr : Nat
  bot_cycle_incr : Nat
  /-- The array `float ss_color[2][4][3]`. -/
  ss_color : Nat → Nat → Nat → ℚ
  ss_hue : ℚ
  ss_hue_bot : ℚ
  ss_val : ℚ
  ss_val_bot : ℚ
  ss_val_step : ℚ

/-- An assignment `ss_color[ring][pos][k] = x`. -/
def set_color (c : Nat → Nat → Nat → ℚ) (ring pos k : Nat) (x : ℚ) : Nat → Nat → Nat → ℚ :=
  fun a b d => if a = ring ∧ b = pos ∧ d = k then x else c a b d

/-- The initial values of the spaceship variables. -/
def ss_start : Ss where
  ss_delay := SS_DELAY_MAX
  top_cycle := 0
  bot_cycle := 2
  top_cycle_incr := 0
  bot_cycle_incr := 0
  ss_color := fun ring _ k =>
    (([[1.0, 1.0, 0], [0.5, 1.0, 0]] : List (List ℚ)).getD ring []).getD k 0
  ss_hue := SS_VAL_MAX
  ss_hue_bot := 0.5
  ss_val := 1.0
  ss_val_bot := 0
  ss_val_step := 0.0004

/-- The `if (init)` block of `spaceship_prog`, on the private state. -/
def ss_init (init : Bool) (level : ℚ) (s : Ss) : Ss :=
  if init then
    { s with ss_val := SS_VAL_MAX * level, ss_delay := truncQ (SS_DELAY_MAX / level) }
  else s

/-- The block `// TOP CYCLE` of `spaceship_prog` up to the `hsv2rgb` calls. -/
def ss_top (s : Ss) : Ss :=
  if s.ss_color 0 s.top_cycle VAL ≥ s.ss_val then
    { s with
      ss_color := set_color s.ss_color 0 ((s.top_cycle + 3) % 4) VAL 0.0
      top_cycle_incr := 1 }
  else
    let c := set_color s.ss_color 0 s.top_cycle VAL (s.ss_color 0 s.top_cycle VAL + 0.004)
    let c := if c 0 s.top_cycle VAL > 0xFFF then set_color c 0 s.top_cycle VAL 0xFFF else c
    let c :=
      if c 0 ((s.top_cycle + 3) % 4) VAL - 0.004 > 0 then
        set_color c 0 ((s.top_cycle + 3) % 4) VAL (c 0 ((s.top_cycle + 3) % 4) VAL - 0.004)
      else set_color c 0 ((s.top_cycle + 3) % 4) VAL 0.0
    { s with ss_color := c }

/-- The block `// BOTTOM CYCLE` of `spaceship_prog` up to the `hsv2rgb` calls.
The clamp inside tests and sets `ss_color[0][top_cycle][VAL]`, as the source. -/
def ss_bot (s : Ss) : Ss :=
  if s.ss_color 1 s.bot_cycle VAL ≥ s.ss_val_bot then
    { s with
      ss_color := set_color s.ss_color 1 ((s.bot_cycle + 3) % 4) VAL 0.0
      bot_cycle_incr := 1 }
  else
    let c := set_color s.ss_color 1 s.bot_cycle VAL (s.ss_color 1 s.bot_cycle VAL + 0.004)
    let c := if c 0 s.top_cycle VAL > 0xFFF then set_color c 0 s.top_cycle VAL 0xFFF else c
    let c :=
      if c 1 ((s.bot_cycle + 3) % 4) VAL - 0.004 > 0 then
        set_color c 1 ((s.bot_cycle + 3) % 4) VAL (c 1 ((s.bot_cycle + 3) % 4) VAL - 0.004)
      else set_color c 1 ((s.bot_cycle + 3) % 4) VAL 0.0
    { s with ss_color := c }

/-- The two `hsv2rgb` calls that follow the top cycle: lead light, then trailing
light. -/
def ss_paint_top (s : Ss) (data : Nat → Nat) : Nat → Nat :=
  let data := hsv2rgb_into data (spaceship_cycles 0 s.top_cycle) s.ss_hue
    (s.ss_color 0 s.top_cycle SAT) (s.ss_color 0 s.top_cycle VAL)
  hsv2rgb_into data (spaceship_cycles 0 ((s.top_cycle + 3) % 4)) s.ss_hue
    (s.ss_color 0 ((s.top_cycle + 3) % 4) SAT) (s.ss_color 0 ((s.top_cycle + 3) % 4) VAL)

/-- The two `hsv2rgb` calls that follow the bottom cycle. -/
def ss_paint_bot (s : Ss) (data : Nat → Nat) : Nat → Nat :=
  let data := hsv2rgb_into data (spaceship_cycles 1 s.bot_cycle) s.ss_hue_bot
    (s.ss_color 1 s.bot_cycle SAT) (s.ss_color 1 s.bot_cycle VAL)
  hsv2rgb_into data (spaceship_cycles 1 ((s.bot_cycle + 3) % 4)) s.ss_hue_bot
    (s.ss_color 1 ((s.bot_cycle + 3) % 4) SAT) (s.ss_color 1 ((s.bot_cycle + 3) % 4) VAL)

/-- The update of `ss_hue` and `ss_hue_bot`. -/
def ss_hues (s : Ss) : Ss :=
  let hue := if s.ss_hue + 0.0004 > 1.0 then 0.0 else s.ss_hue + 0.0004
  let hue_bot := hue + 0.5
  let hue_bot := if hue_bot > 1 then hue_bot - 1 else hue_bot
  { s with ss_hue := hue, ss_hue_bot := hue_bot }

/-- The update of the ceilings `ss_val` and `ss_val_bot`. -/
def ss_vals (s : Ss) : Ss :=
  let s :=
    if s.ss_val + s.ss_val_step > 1.0 then
      { s with ss_val := 1.0, ss_val_step := s.ss_val_step * -1 }
    else if s.ss_val + s.ss_val_step < 0 then
      { s with ss_val := 0.0, ss_val_step := s.ss_val_step * -1 }
    else { s with ss_val := s.ss_val + s.ss_val_step }
  { s with ss_val_bot := 1 - s.ss_val }

/-- The two blocks `// Move to the next top light` and `// Move to the next
bottom light`. -/
def ss_advance (s : Ss) : Ss :=
  let s := if s.top_cycle_incr ≠ 0 then
      { s with top_cycle := (s.top_cycle + 1) % 4, top_cycle_incr := 0 }
    else s
  if s.bot_cycle_incr ≠ 0 then
    { s with bot_cycle := (s.bot_cycle + 1) % 4, bot_cycle_incr := 0 }
  else s

/-- The effect of one call of `spaceship_prog` on its private variables. -/
def ss_next (init : Bool) (level : ℚ) (s : Ss) : Ss :=
  ss_advance (ss_vals (ss_hues (ss_bot (ss_top (ss_init init level s)))))

/-- The C function `spaceship_prog`. -/
def spaceship_prog (init : Bool) (level : ℚ) (s : Ss) (hw : Hw) : Ss × Hw :=
  let hw := if init then clear_lights hw else hw
  let s := ss_init init level s
  let s := ss_top s
  let data := ss_paint_top s hw.data
  let s := ss_bot s
  let data := ss_paint_bot s data
  let s := ss_advance (ss_vals (ss_hues s))
  let hw := write_data { hw with data := data }
  (s, delay_ms (u16_of_int s.ss_delay) hw)

/-- The private state after a sequence of calls of `spaceship_prog`, each given
by its arguments `(init, level)`, oldest call first. -/
def ss_run (s : Ss) : List (Bool × ℚ) → Ss
  | [] => s
  | c :: cs => ss_run (ss_next c.1 c.2 s) cs

/-- The private states reachable from program start by calls of `spaceship_prog`
with any `init` and any `level`. -/
inductive SsReach : Ss → Prop where
  | start : SsReach ss_start
  | call (init : Bool) (level : ℚ) (s : Ss) : SsReach s → SsReach (ss_next init level s)

/-- A description of the private state of `xmas_ball_prog` during its first cycle
at full level: the phase, the red level and the white level are as given and
every other variable still has its value from the first call. -/
def XFirst (s : XBall) (phase red white : Nat) : Prop :=
  s.xball_phase = phase ∧ s.xball_light_level 0 = red ∧ s.xball_light_level 1 = 0
    ∧ s.xball_light_level 2 = 0 ∧ s.xball_white_level = white ∧ s.xball_light_color = 0
    ∧ s.xball_light_set = 0 ∧ s.xball_light_step = 1 ∧ s.xball_light_max = 4095

/-! ## The colour conversion as the specification words it -/

/-- The standard six-sector HSV to RGB conversion, following the words of the
specification: `i = floor(6h) mod 6`, `f = 6h - floor(6h)`, `p = v(1-s)`,
`q = v(1-f*s)`, `t = v(1-(1-f)s)`, and `(R,G,B)` is `(v,t,p)`, `(q,v,p)`,
`(p,v,t)`, `(p,q,v)`, `(t,p,v)`, `(v,p,q)` for `i = 0..5`. -/
def hsv_six_sector (h s v : ℚ) : ℚ × ℚ × ℚ :=
  let i : Int := ⌊6 * h⌋ % 6
  let f : ℚ := 6 * h - ⌊6 * h⌋
  let p : ℚ := v * (1 - s)
  let q : ℚ := v * (1 - f * s)
  let t : ℚ := v * (1 - (1 - f) * s)
  if i = 0 then (v, t, p)
  else if i = 1 then (q, v, p)
  else if i = 2 then (p, v, t)
  else if i = 3 then (p, q, v)
  else if i = 4 then (t, p, v)
  else (v, p, q)

/-- The chroma form of the same conversion, following the words of the
specification: `C = v*s`, `X = C(1-|(6h mod 2)-1|)`, `m = v-C`, and `(R,G,B)` is
`(C,X,0)`, `(X,C,0)`, `(0,C,X)`, `(0,X,C)`, `(X,0,C)`, `(C,0,X)` plus `m` for the
sectors `0..5`. -/
def hsv_chroma (h s v : ℚ) : ℚ × ℚ × ℚ :=
  let i : Int := ⌊6 * h⌋ % 6
  let C : ℚ := v * s
  let X : ℚ := C * (1 - |(6 * h - 2 * ⌊6 * h / 2⌋) - 1|)
  let m : ℚ := v - C
  if i = 0 then (C + m, X + m, m)
  else if i = 1 then (X + m, C + m, m)
  else if i = 2 then (m, C + m, X + m)
  else if i = 3 then (m, X + m, C + m)
  else if i = 4 then (X + m, m, C + m)
  else (C + m, m, X + m)

/-- Whether the outer ring's lead value is at or above the ceiling that the
test of the `// TOP CYCLE` block sees in a call with the arguments `init`,
`level`: `ss_val`, which a call with `init` has just set to
`SS_VAL_MAX * level`. -/
def ss_top_hit (init : Bool) (level : ℚ) (s : Ss) : Bool :=
  decide (s.ss_color 0 s.top_cycle VAL ≥ (if init then SS_VAL_MAX * level else s.ss_val))

/-- Whether the inner ring's lead value is at or above its ceiling `ss_val_bot`
at the start of a call. -/
def ss_bot_hit (s : Ss) : Bool :=
  decide (s.ss_color 1 s.bot_cycle VAL ≥ s.ss_val_bot)

/-- The lead positions of the outer ring at those calls of a sequence in which
its lead value was at or above the ceiling, in order. -/
def ss_top_leads (s : Ss) : List (Bool × ℚ) → List Nat
  | [] => []
  | c :: cs =>
    (if ss_top_hit c.1 c.2 s then [s.top_cycle] else []) ++ ss_top_leads (ss_next c.1 c.2 s) cs

/-- The lead positions of the inner ring at those calls of a sequence in which
its lead value was at or above the ceiling, in order. -/
def ss_bot_leads (s : Ss) : List (Bool × ℚ) → List Nat
  | [] => []
  | c :: cs =>
    (if ss_bot_hit s then [s.bot_cycle] else []) ++ ss_bot_leads (ss_next c.1 c.2 s) cs

/-- The invariant of the spaceship generator behind its lead-value bound: the
indices are below 4 and the advance flags clear, `ss_val` is in `[0,1]` with
`ss_val_bot = 1 - ss_val`, the ceiling step is `±0.0004`, the two positions after
the lead hold the value 0 in each ring, and each lead value is below its
ceiling plus `0.0044`. -/
def SsInv (s : Ss) : Prop :=
  (s.top_cycle < 4 ∧ s.bot_cycle < 4 ∧ s.top_cycle_incr = 0 ∧ s.bot_cycle_incr = 0)
    ∧ (0 ≤ s.ss_val ∧ s.ss_val ≤ 1 ∧ s.ss_val_bot = 1 - s.ss_val)
    ∧ (s.ss_val_step = 0.0004 ∨ s.ss_val_step = -0.0004)
    ∧ (s.ss_color 0 ((s.top_cycle + 1) % 4) VAL = 0
        ∧ s.ss_color 0 ((s.top_cycle + 2) % 4) VAL = 0)
    ∧ (s.ss_color 1 ((s.bot_cycle + 1) % 4) VAL = 0
        ∧ s.ss_color 1 ((s.bot_cycle + 2) % 4) VAL = 0)
    ∧ s.ss_color 0 s.top_cycle VAL < s.ss_val + 0.0044
    ∧ s.ss_color 1 s.bot_cycle VAL < s.ss_val_bot + 0.0044

/-- A description of the private state of `xmas_ball_prog` inside one cycle: the
phase, the active set, the colour index, the maximum, the level of the active
colour and the white level are as given, the other two colour levels are 0 and
the step is 1. -/
def XAt (s : XBall) (phase set colour M lvl white : Nat) : Prop :=
  s.xball_phase = phase ∧ s.xball_light_set = set ∧ s.xball_light_color = colour
    ∧ s.xball_light_max = M ∧ s.xball_light_level colour = lvl
    ∧ (∀ i : Nat, i < 3 → i ≠ colour → s.xball_light_level i = 0)
    ∧ s.xball_white_level = white ∧ s.xball_light_step = 1

/-! ## The colour-cycle generator: `color_cycle_prog` -/

/-- The C macro `COLOR_CYCLE_VAL_MAX`. -/
def COLOR_CYCLE_VAL_MAX : ℚ := 1.0

/-- The private variables of `color_cycle_prog`. -/
structure Cc where
  hue : ℚ
  sat : ℚ
  val : ℚ
  hue_step : ℚ

/-- The initial values of the colour-cycle variables. -/
def cc_start : Cc where
  hue := 0.00
  sat := 1.00
  val := 1.00
  hue_step := 0.001

/-- The `if (init)` block of `color_cycle_prog`, on the private state. -/
def cc_init (init : Bool) (level : ℚ) (c : Cc) : Cc :=
  if init then { c with val := COLOR_CYCLE_VAL_MAX * level } else c

/-- The loop `for (x=0; x <= 7; x++) SET_LED(x, r, g, b)`. -/
def cc_paint (data : Nat → Nat) (r g b : Nat) : Nat → Nat :=
  (List.range 8).foldl (fun d x => SET_LED d x r g b) data

/-- The update `hue += hue_step; if (hue > 1.0) hue -= 1.0;`. -/
def cc_advance (c : Cc) : Cc :=
  let hue := c.hue + c.hue_step
  let hue := if hue > 1.0 then hue - 1.0 else hue
  { c with hue := hue }

/-- The effect of one call of `color_cycle_prog` on its private variables. -/
def cc_next (init : Bool) (level : ℚ) (c : Cc) : Cc :=
  cc_advance (cc_init init level c)

/-- The C function `color_cycle_prog`. -/
def color_cycle_prog (init : Bool) (level : ℚ) (c : Cc) (hw : Hw) : Cc × Hw :=
  let hw := if init then clear_lights hw else hw
  let c := cc_init init level c
  let rgb := hsv2rgb c.hue c.sat c.val
  let data := cc_paint hw.data rgb.1 rgb.2.1 rgb.2.2
  let c := cc_advance c
  let hw := write_data { hw with data := data }
  (c, delay_ms 50 hw)

/-! ## The main loop and the pin-change handler -/

/-- A record of one generator invocation (ghost state): which generator
(`0` sun, `1` spaceship, `2` ornament, `3` colour cycle), the value of
`init_prog` passed as `init`, the level passed, and the content of `data[0..23]`
at the moment of the call. -/
structure Call where
  prog : Nat
  init : Nat
  level : ℚ
  frame : List Nat

/-- The variables of the program: the hardware model, the globals of `main`
(`waiting_on_adc` and `sense_on` are never used and are left out), the enable
bit `PCINT23` of `PCMSK2`, the private state of the four generators, and the
ghost list of generator invocations, oldest first. -/
structure World where
  hw : Hw
  cur_program : Nat
  prog_change : Nat
  last_state : Nat
  init_prog : Nat
  adc_num : Nat
  pcint23 : Bool
  day_counter : Nat
  ss : Ss
  xb : XBall
  cc : Cc
  calls : List Call

/-- What the main loop reads from the outside during one iteration: the levels
of the two switch pins `SWITCH_SENSE()` and `SWITCH_ON()` (taken to hold during
the iteration), whether the conversion-complete flag `ADIF` is set when it is
polled, and the content of the `ADC` register. -/
structure Pins where
  sw_sense : Bool
  sw_on : Bool
  adc_done : Bool
  adc : Nat

/-- The state when `main` enters its loop: the initial values of the globals,
after `io_init`, `clear_lights` and `interrupt_init` (which sets `PCINT23`). -/
def world_start : World where
  hw := hw_start
  cur_program := 0
  prog_change := 1
  last_state := 0
  init_prog := 0
  adc_num := 0
  pcint23 := true
  day_counter := 0
  ss := ss_start
  xb := xball_start
  cc := cc_start
  calls := []

/-- The handler `ISR(PCINT2_vect)`; `pind7` is the level of the companion pin. -/
def isr (pind7 : Bool) (w : World) : World :=
  let w := { w with pcint23 := false }
  if pind7 then
    { w with prog_change := 1, cur_program := (w.cur_program + 1) % NUM_PROGRAMS }
  else w

/-- An edge on the program-advance pin: the hardware runs the handler only while
its enable bit `PCINT23` is set. -/
def edge (pind7 : Bool) (w : World) : World :=
  if w.pcint23 then isr pind7 w else w

/-- A call `sun_show_prog(init_prog, level)` from `main`. -/
def run_sun (level : ℚ) (w : World) : World :=
  let r := sun_show_prog (decide (w.init_prog ≠ 0)) level w.day_counter w.hw
  { w with
    day_counter := r.1
    hw := r.2
    calls := w.calls ++ [⟨0, w.init_prog, level, snapshot w.hw.data⟩] }

/-- A call `spaceship_prog(init_prog, level)` from `main`. -/
def run_spaceship (level : ℚ) (w : World) : World :=
  let r := spaceship_prog (decide (w.init_prog ≠ 0)) level w.ss w.hw
  { w with
    ss := r.1
    hw := r.2
    calls := w.calls ++ [⟨1, w.init_prog, level, snapshot w.hw.data⟩] }

/-- A call `xmas_ball_prog(init_prog, level)` from `main`. -/
def run_xmas_ball (level : ℚ) (w : World) : World :=
  let r := xmas_ball_prog (decide (w.init_prog ≠ 0)) level w.xb w.hw
  { w with
    xb := r.1
    hw := r.2
    calls := w.calls ++ [⟨2, w.init_prog, level, snapshot w.hw.data⟩] }

/-- A call `color_cycle_prog(init_prog, level)` from `main`. -/
def run_color_cycle (level : ℚ) (w : World) : World :=
  let r := color_cycle_prog (decide (w.init_prog ≠ 0)) level w.cc w.hw
  { w with
    cc := r.1
    hw := r.2
    calls := w.calls ++ [⟨3, w.init_prog, level, snapshot w.hw.data⟩] }

/-- The statement `switch (cur_program)` of `main`; it has no `default`. -/
def dispatch (w : World) : World :=
  if w.cur_program = 0 then run_sun 1.0 w
  else if w.cur_program = 1 then run_spaceship 1.0 w
  else if w.cur_program = 2 then run_xmas_ball 1.0 w
  else if w.cur_program = 3 then run_color_cycle 1.0 w
  else if w.cur_program = 4 then run_sun 0.5 w
  else if w.cur_program = 5 then run_spaceship 0.5 w
  else if w.cur_program = 6 then run_xmas_ball 0.5 w
  else if w.cur_program = 7 then run_color_cycle 0.5 w
  else w

/-- The block `if (prog_change) { ... }` at the top of the loop of `main`. -/
def main_change (w : World) : World :=
  if w.prog_change ≠ 0 then
    let w := { w with prog_change := 0 }
    let w := { w with hw := clear_lights w.hw }
    let w := { w with init_prog := 1 }
    let hw := delay_ms 500 w.hw
    let hw :=
      if w.cur_program > 3 then
        let hw := write_data { hw with data := Function.update hw.data 0 0xFFF }
        let hw := delay_ms 400 hw
        write_data { hw with data := Function.update hw.data 0 0x000 }
      else
        let hw := write_data { hw with data := Function.update hw.data 1 0xFFF }
        let hw := delay_ms 400 hw
        write_data { hw with data := Function.update hw.data 1 0x000 }
    { w with hw := hw }
  else w

/-- The statement `PCMSK2 |= (1 << PCINT23);` of `main`. -/
def main_rearm (w : World) : World :=
  { w with pcint23 := true }

/-- The tail of the switch branch of `main`: `switch (cur_program)`,
`write_data()`, and the `init_prog = 0` after the `if`. -/
def main_show (w : World) : World :=
  let w := dispatch w
  { w with hw := write_data w.hw, init_prog := 0 }

/-- The rest of an iteration of `main`, from `if (SWITCH_SENSE() || SWITCH_ON())`
to the end of the loop body.  In the too-bright case the `continue` skips
`init_prog = 0`. -/
def main_body (p : Pins) (w : World) : World :=
  if p.sw_sense ∨ p.sw_on then
    let w := if w.last_state = 0 then { w with hw := clear_lights w.hw } else w
    let w := if p.sw_on then { w with last_state := 2 } else w
    if p.sw_sense then
      let w := if w.last_state ≠ 1 then { w with hw := write_data (clear_lights w.hw) } else w
      let w := { w with last_state := 1 }
      let w := if p.adc_done then { w with adc_num := p.adc } else w
      if w.adc_num > 260 then
        { w with hw := write_data (clear_lights w.hw) }
      else main_show w
    else main_show w
  else
    { w with last_state := 0, init_prog := 0 }

/-- One iteration of the loop of `main`. -/
def main_iter (p : Pins) (w : World) : World :=
  main_body p (main_rearm (main_change w))

/-- The animation state: the private variables of the four generators. -/
def anim (w : World) : Nat × Ss × XBall × Cc :=
  (w.day_counter, w.ss, w.xb, w.cc)

/-- What a generator invocation was given: the generator, the `init` argument and
the level (the record without the frame). -/
def call_sig (c : Call) : Nat × Nat × ℚ :=
  (c.prog, c.init, c.level)

/-! ## The timing primitives in counter ticks: `delay_us`, `delay_ms` -/

/-- The C function `delay_us`, as the sequence of values it stores into the
8-bit counter `TCNT2`, each followed by a wait for the overflow flag: `y` times
`0`, then `256 - z`, which the 8-bit register holds modulo 256.  The C division
`x / 256` truncates toward zero. -/
def delay_us (x : Int) : List Nat :=
  let y := x.tdiv 256
  let z := x - y * 256
  List.replicate y.toNat 0 ++ [((256 - z) % 256).toNat]

/-- Modelled from the counter's data sheet: the number of ticks from a preload
until the 8-bit counter overflows (it counts up and sets the flag when it wraps
from 255 to 0). -/
def ticks_to_overflow (preload : Nat) : Nat :=
  256 - preload

/-- The number of counter ticks that a call `delay_us(x)` waits for. -/
def delay_us_ticks (x : Int) : Nat :=
  ((delay_us x).map ticks_to_overflow).sum

/-- The C function `delay_ms`, as the sequence of the arguments of its calls of
`delay_us`. -/
def delay_ms_calls : Nat → List Int
  | 0 => []
  | x + 1 => [250, 250, 250, 250] ++ delay_ms_calls x

/-- The number of counter ticks that a call `delay_ms(x)` waits for. -/
def delay_ms_ticks (x : Nat) : Nat :=
  ((delay_ms_calls x).map delay_us_ticks).sum

/-- The states of the program: those reached from the state at loop entry by the
parts of an iteration of `main` (the change block, the re-arm, the rest of the
body under any pin readings), with an edge on the program-advance pin possible
between any two of them. -/
inductive WorldReach : World → Prop where
  | start : WorldReach world_start
  | change (w : World) : WorldReach w → WorldReach (main_change w)
  | rearm (w : World) : WorldReach w → WorldReach (main_rearm w)
  | body (p : Pins) (w : World) : WorldReach w → WorldReach (main_body p w)
  | edge (pind7 : Bool) (w : World) : WorldReach w → WorldReach (edge pind7 w)

/-! ## The frame buffer with checked indices -/

/-- A read `data[x]` that checks the index against the declaration
`uint16_t data[NUM_BITS]`. -/
def data_get (data : Nat → Nat) (x : Nat) : Option Nat :=
  if x < NUM_BITS then some (data x) else none

/-- A store `data[x] = v` that checks the index against the declaration
`uint16_t data[NUM_BITS]`. -/
def data_set (data : Nat → Nat) (x v : Nat) : Option (Nat → Nat) :=
  if x < NUM_BITS then some (Function.update data x v) else none

/-- The outer loop of `write_data` as `write_words`, with every read `data[x]`
checked. -/
def write_words_checked (data : Nat → Nat) : Nat → Option (List Nat)
  | 0 => (data_get data 0).map (fun val => write_word val 0x0800)
  | x + 1 =>
    (data_get data (x + 1)).bind (fun val =>
      (write_words_checked data x).map (fun rest => write_word val 0x0800 ++ rest))

/-- The loop `for (x = 0; x <= bound; x++) data[x] = 0;` with every store
checked; `clear_lights` runs it with `bound = NUM_BITS`. -/
def clear_loop_checked (data : Nat → Nat) (bound : Nat) : Option (Nat → Nat) :=
  (List.range (bound + 1)).foldlM (fun d x => data_set d x 0) data

/-- A scenario: the program starts with both switches off and runs one
iteration of `main`; then, `n` times, an edge arrives with the companion pin
high and one more iteration runs, the switches still off. -/
def off_presses : Nat → World
  | 0 => main_iter ⟨false, false, false, 0⟩ world_start
  | n + 1 => main_iter ⟨false, false, false, 0⟩ (edge true (off_presses n))

/-- The value entries of a table `ss_color` are multiples of 0.004 between 0 and
1, and the saturation entries of the two rings are 1. -/
def ValGrid (c : Nat → Nat → Nat → ℚ) : Prop :=
  (∀ ring pos : Nat, ∃ k : Nat, k ≤ 250 ∧ c ring pos VAL = (k : ℚ) * 0.004)
    ∧ (∀ ring pos : Nat, ring < 2 → c ring pos SAT = 1)

/-- The ranges of the spaceship variables: the values of `ss_color` are
multiples of 0.004 in `[0,1]`, `ss_val` is in `[0,1]` with
`ss_val_bot = 1 - ss_val`, and the two hues are in `[0,1]` with `ss_hue_bot`
equal to `ss_hue + 0.5` up to a whole turn. -/
def SsRange (s : Ss) : Prop :=
  ValGrid s.ss_color
    ∧ (0 ≤ s.ss_val ∧ s.ss_val ≤ 1) ∧ s.ss_val_bot = 1 - s.ss_val
    ∧ (0 ≤ s.ss_hue ∧ s.ss_hue ≤ 1) ∧ (0 ≤ s.ss_hue_bot ∧ s.ss_hue_bot ≤ 1)
    ∧ (s.ss_hue_bot = s.ss_hue + 0.5 ∨ s.ss_hue_bot = s.ss_hue + 0.5 - 1)

/-- The arguments `(h, s, v)` of the four `hsv2rgb` calls of one call of
`spaceship_prog`, in the order of the calls. -/
def ss_hsv_calls (init : Bool) (level : ℚ) (s : Ss) : List (ℚ × ℚ × ℚ) :=
  let s1 := ss_top (ss_init init level s)
  let s2 := ss_bot s1
  [(s1.ss_hue, s1.ss_color 0 s1.top_cycle SAT, s1.ss_color 0 s1.top_cycle VAL),
   (s1.ss_hue, s1.ss_color 0 ((s1.top_cycle + 3) % 4) SAT,
     s1.ss_color 0 ((s1.top_cycle + 3) % 4) VAL),
   (s2.ss_hue_bot, s2.ss_color 1 s2.bot_cycle SAT, s2.ss_color 1 s2.bot_cycle VAL),
   (s2.ss_hue_bot, s2.ss_color 1 ((s2.bot_cycle + 3) % 4) SAT,
     s2.ss_color 1 ((s2.bot_cycle + 3) % 4) VAL)]

/-- The cells `&data[...]` that the four `hsv2rgb` calls of one call of
`spaceship_prog` are given, in the order of the calls. -/
def ss_hsv_cells (init : Bool) (level : ℚ) (s : Ss) : List Nat :=
  let s1 := ss_top (ss_init init level s)
  let s2 := ss_bot s1
  [spaceship_cycles 0 s1.top_cycle, spaceship_cycles 0 ((s1.top_cycle + 3) % 4),
   spaceship_cycles 1 s2.bot_cycle, spaceship_cycles 1 ((s2.bot_cycle + 3) % 4)]

/-! # Theorems -/

/-! ## Facts about `write_data` -/

theorem land_two_pow_ne_zero (val k : Nat) : val &&& 2 ^ k ≠ 0 ↔ val.testBit k = true := by
  rw [Nat.and_two_pow]
  cases h : val.testBit k <;> simp

/-- The inner loop started at `mask = 2 ^ k` handles the bits `k, k-1, ..., 0`
and then stops. -/
theorem write_word_two_pow (val : Nat) :
    ∀ k : Nat, write_word val (2 ^ k)
      = (List.range (k + 1)).reverse.flatMap (fun j => write_bit val (2 ^ j)) := by
  intro k
  induction k with
  | zero =>
    rw [write_word]; simp
    rw [write_word]; simp [List.range_succ]
  | succ k ih =>
    rw [write_word]
    have h1 : 0 < 2 ^ (k + 1) := Nat.pow_pos (by decide)
    have h2 : 2 ^ (k + 1) >>> 1 = 2 ^ k := by
      rw [Nat.shiftRight_eq_div_pow, pow_succ]; simp
    rw [if_pos h1, h2, ih, List.range_succ (n := k + 1)]
    simp

theorem write_word_0x0800 (val : Nat) :
    write_word val 0x0800 = (List.range 12).reverse.flatMap (fun j => write_bit val (2 ^ j)) :=
  write_word_two_pow val 11

theorem write_bit_eq (val k : Nat) :
    write_bit val (2 ^ k) = if val.testBit k then [2, 3, 2] else [0, 1, 0] := by
  unfold write_bit
  by_cases h : val.testBit k = true
  · have := (land_two_pow_ne_zero val k).mpr h
    simp [h, this]
  · have : ¬ (val &&& 2 ^ k ≠ 0) := fun c => h ((land_two_pow_ne_zero val k).mp c)
    simp [h, this]

theorem shifted_in_write_bit (val k : Nat) (rest : List Nat) :
    shifted_in false (write_bit val (2 ^ k) ++ rest)
      = val.testBit k :: shifted_in false rest := by
  rw [write_bit_eq]
  cases h : val.testBit k <;> simp [shifted_in]

theorem shifted_in_bits (val : Nat) (ks : List Nat) (rest : List Nat) :
    shifted_in false (ks.flatMap (fun j => write_bit val (2 ^ j)) ++ rest)
      = ks.map (fun k => val.testBit k) ++ shifted_in false rest := by
  induction ks with
  | nil => simp
  | cons k ks ih =>
    simp only [List.flatMap_cons, List.append_assoc, List.map_cons, List.cons_append]
    rw [shifted_in_write_bit, ih]

theorem shifted_in_write_word (val : Nat) (rest : List Nat) :
    shifted_in false (write_word val 0x0800 ++ rest) = bits12 val ++ shifted_in false rest := by
  rw [write_word_0x0800, shifted_in_bits]; rfl

theorem shifted_in_write_words (data : Nat → Nat) (rest : List Nat) :
    ∀ x : Nat, shifted_in false (write_words data x ++ rest)
      = (List.range (x + 1)).reverse.flatMap (fun i => bits12 (data i))
          ++ shifted_in false rest := by
  intro x
  induction x with
  | zero => simp [write_words, shifted_in_write_word, List.range_succ]
  | succ x ih =>
    rw [write_words, List.append_assoc, shifted_in_write_word, ih,
      List.range_succ (n := x + 1)]
    simp

/-- The bit stream that one call of `write_data` clocks into the driver chain:
the 12 low bits of each of the cells `NUM_BITS, NUM_BITS - 1, ..., 0`. -/
theorem shifted_in_write_data_port (data : Nat → Nat) :
    shifted_in false (write_data_port data)
      = (List.range (NUM_BITS + 1)).reverse.flatMap (fun i => bits12 (data i)) := by
  unfold write_data_port
  rw [List.append_assoc]
  show shifted_in false (0 :: (write_words data NUM_BITS ++ [0x04 ||| 0x08, 0x00])) = _
  rw [shifted_in]
  simp only [show ¬ (false = false ∧ 0 % 2 = 1) by decide, if_false]
  rw [show (decide (0 % 2 = 1)) = false by decide, shifted_in_write_words]
  simp [shifted_in]

theorem length_bits12 (val : Nat) : (bits12 val).length = 12 := by
  simp [bits12]

theorem length_flatMap_bits12 (data : Nat → Nat) (xs : List Nat) :
    (xs.flatMap (fun i => bits12 (data i))).length = 12 * xs.length := by
  induction xs with
  | nil => simp
  | cons x xs ih => simp [List.flatMap_cons, length_bits12, ih]; ring

theorem flatMap_bits12_zero (data : Nat → Nat) (xs : List Nat) (h : ∀ i ∈ xs, data i = 0) :
    xs.flatMap (fun i => bits12 (data i)) = List.replicate (12 * xs.length) false := by
  induction xs with
  | nil => simp
  | cons x xs ih =>
    have hx : data x = 0 := h x (List.mem_cons_self _ _)
    have hb : bits12 0 = List.replicate 12 false := by decide
    rw [List.flatMap_cons, hx, hb, ih (fun i hi => h i (List.mem_cons_of_mem _ hi)),
      List.length_cons, ← List.replicate_add]
    congr 1
    ring

/-- Every value stored into `PORTD` by the data phase is one of `0, 1, 2, 3`. -/
theorem write_word_lt_four (val : Nat) : ∀ v ∈ write_word val 0x0800, v < 4 := by
  intro v hv
  rw [write_word_0x0800, List.mem_flatMap] at hv
  obtain ⟨k, _, hk⟩ := hv
  rw [write_bit_eq] at hk
  split at hk <;> simp at hk <;> omega

theorem write_words_lt_four (data : Nat → Nat) :
    ∀ x : Nat, ∀ v ∈ write_words data x, v < 4 := by
  intro x
  induction x with
  | zero => exact write_word_lt_four _
  | succ x ih =>
    intro v hv
    rw [write_words, List.mem_append] at hv
    rcases hv with hv | hv
    · exact write_word_lt_four _ v hv
    · exact ih v hv

/-- C1 (the code departs from the claim).  For every content of the frame memory,
`write_data` clocks out 25 words, not 24: the stream starts with the 12 bits
of the cell `data[24]`, which lies one past the end of the array, and only then
come the 24 components, index 23 first down to index 0, each with bit 11 first.
The stream has 300 bits, not 288.  With an all-zero frame buffer and `0x0FFF` in
the word after it, the first 12 bits sent are ones. -/
theorem write_data_shifts_out_25_words :
    (∀ data : Nat → Nat,
      shifted_in false (write_data_port data)
          = bits12 (data 24) ++ (List.range 24).reverse.flatMap (fun i => bits12 (data i))
        ∧ (shifted_in false (write_data_port data)).length = 300)
    ∧ shifted_in false (write_data_port (fun i => if i = 24 then 0x0FFF else 0))
        = List.replicate 12 true ++ List.replicate 288 false := by
  have key : ∀ data : Nat → Nat, shifted_in false (write_data_port data)
      = bits12 (data 24) ++ (List.range 24).reverse.flatMap (fun i => bits12 (data i)) := by
    intro data
    rw [shifted_in_write_data_port]
    simp [NUM_BITS, List.range_succ]
  refine ⟨fun data => ⟨key data, ?_⟩, ?_⟩
  · rw [key, List.length_append, length_bits12, length_flatMap_bits12]
    simp
  · rw [key, flatMap_bits12_zero]
    · rw [if_pos rfl, show bits12 0x0FFF = List.replicate 12 true by decide,
        List.length_reverse, List.length_range]
    · intro i hi
      have : i < 24 := by simpa using hi
      rw [if_neg (by omega)]

/-- C2.  In every call of `write_data` the values stored into `PORTD` are some
values that carry neither the latch bit `0x04` nor the blank bit `0x08`,
followed by one value with both bits set and a final `0x00`. -/
theorem write_data_latches_last (hw : Hw) :
    ∃ pre : List Nat,
      (write_data hw).log
          = hw.log ++ Event.frame (snapshot hw.data)
              :: (pre ++ [0x0C, 0x00]).map Event.port
      ∧ (∀ v ∈ pre, v &&& 0x04 = 0 ∧ v &&& 0x08 = 0)
      ∧ (0x0C &&& 0x04 ≠ 0 ∧ 0x0C &&& 0x08 ≠ 0)
      ∧ (0x00 &&& 0x04 = 0 ∧ 0x00 &&& 0x08 = 0) := by
  refine ⟨[0] ++ write_words hw.data NUM_BITS, rfl, ?_, by decide, by decide⟩
  intro v hv
  have hlt : v < 4 := by
    rw [List.mem_append] at hv
    rcases hv with hv | hv
    · simp at hv; omega
    · exact write_words_lt_four _ _ v hv
  interval_cases v <;> decide

/-! ## The ornament generator leaves the 12-bit range -/

theorem xball_step_ramp_red (s : XBall) (d : Nat → Nat) (k : Nat) (hk : k ≤ 4095)
    (h : XFirst s 0 k 0) :
    XFirst (xball_step s d).1 (if k + 1 ≤ 4095 then 0 else 1) (k + 1) 0 := by
  obtain ⟨h1, h2, h3, h4, h5, h6, h7, h8, h9⟩ := h
  have hm : (k + 1) % 65536 = k + 1 := by omega
  by_cases hc : k + 1 ≤ 4095
  · have : ¬ (4095 < k + 1) := by omega
    simp [XFirst, xball_step, h1, h2, h3, h4, h5, h6, h7, h8, h9, hm, hc, this]
  · have : 4095 < k + 1 := by omega
    simp [XFirst, xball_step, h1, h2, h3, h4, h5, h6, h7, h8, h9, hm, hc, this]

theorem xball_step_ramp_white (s : XBall) (d : Nat → Nat) (w : Nat) (hw : w ≤ 4095)
    (h : XFirst s 1 4096 w) :
    XFirst (xball_step s d).1 (if w + 1 ≤ 4095 then 1 else 2) 4096 (w + 1) := by
  obtain ⟨h1, h2, h3, h4, h5, h6, h7, h8, h9⟩ := h
  have hm : (w + 1) % 65536 = w + 1 := by omega
  by_cases hc : w + 1 ≤ 4095
  · have : ¬ (4095 < w + 1) := by omega
    simp [XFirst, xball_step, h1, h2, h3, h4, h5, h6, h7, h8, h9, hm, hc, this]
  · have : 4095 < w + 1 := by omega
    simp [XFirst, xball_step, h1, h2, h3, h4, h5, h6, h7, h8, h9, hm, hc, this]


theorem frames_of_append (l1 l2 : List Event) :
    frames_of (l1 ++ l2) = frames_of l1 ++ frames_of l2 := by
  induction l1 with
  | nil => simp [frames_of]
  | cons e l1 ih => cases e <;> simp [frames_of, ih]

theorem frames_of_ports (vs : List Nat) : frames_of (vs.map Event.port) = [] := by
  induction vs with
  | nil => simp [frames_of]
  | cons v vs ih => simp [frames_of, ih]

/-- The last frame handed to `write_data` by a call of `xmas_ball_prog` without
`init` is the frame buffer as `xball_step` leaves it. -/
theorem xmas_ball_prog_last_frame (level : ℚ) (s : XBall) (hw : Hw) :
    (frames_of (xmas_ball_prog false level s hw).2.log).getLast?
      = some (snapshot (xball_step s hw.data).2) := by
  have hlog : (xmas_ball_prog false level s hw).2.log
      = (hw.log ++ [Event.wait_ms (u16_of_int (xball_step s hw.data).1.xball_delay)])
        ++ Event.frame (snapshot (xball_step s hw.data).2)
          :: (write_data_port (xball_step s hw.data).2).map Event.port := rfl
  rw [hlog, frames_of_append, frames_of, frames_of_ports, List.getLast?_append]
  rfl

/-- The state after the first call (with `init`) at full level. -/
theorem xmas_ball_first_call :
    XFirst (xmas_ball_prog true 1 xball_start hw_start).1 0 1 0 := by
  have h0 : XFirst { xball_start with
      xball_light_max := toU16 (XBALL_LIGHT_LIMIT * 1)
      xball_delay := truncQ (XBALL_DELAY_LIMIT / 1) } 0 0 0 := by
    refine ⟨rfl, rfl, rfl, rfl, rfl, rfl, rfl, rfl, ?_⟩
    show toU16 (XBALL_LIGHT_LIMIT * 1) = 4095
    norm_num [toU16, truncQ, XBALL_LIGHT_LIMIT]
    rfl
  exact xball_step_ramp_red _ _ 0 (by decide) h0

theorem xmas_ball_run_succ (level : ℚ) (n : Nat) (st : XBall × Hw) :
    (xmas_ball_run level (n + 1) st).1
      = (xball_step (xmas_ball_run level n st).1 (xmas_ball_run level n st).2.data).1 := rfl

theorem xmas_ball_red_phase (n : Nat) (hn : n ≤ 4094) :
    XFirst (xmas_ball_run 1 n (xmas_ball_prog true 1 xball_start hw_start)).1 0 (n + 1) 0 := by
  induction n with
  | zero => exact xmas_ball_first_call
  | succ n ih =>
    rw [xmas_ball_run_succ]
    have := xball_step_ramp_red _ (xmas_ball_run 1 n
      (xmas_ball_prog true 1 xball_start hw_start)).2.data (n + 1) (by omega) (ih (by omega))
    rwa [if_pos (by omega)] at this

theorem xmas_ball_white_phase (m : Nat) (hm : m ≤ 4095) :
    XFirst (xmas_ball_run 1 (4095 + m) (xmas_ball_prog true 1 xball_start hw_start)).1
      1 4096 m := by
  induction m with
  | zero =>
    show XFirst (xmas_ball_run 1 (4094 + 1) _).1 1 4096 0
    rw [xmas_ball_run_succ]
    have := xball_step_ramp_red _ (xmas_ball_run 1 4094
      (xmas_ball_prog true 1 xball_start hw_start)).2.data 4095 (by omega)
      (xmas_ball_red_phase 4094 (by omega))
    rwa [if_neg (by omega)] at this
  | succ m ih =>
    show XFirst (xmas_ball_run 1 ((4095 + m) + 1) _).1 1 4096 (m + 1)
    rw [xmas_ball_run_succ]
    have := xball_step_ramp_white _ (xmas_ball_run 1 (4095 + m)
      (xmas_ball_prog true 1 xball_start hw_start)).2.data m (by omega) (ih (by omega))
    rwa [if_pos (by omega)] at this

theorem xmas_ball_fade_start :
    XFirst (xmas_ball_run 1 8191 (xmas_ball_prog true 1 xball_start hw_start)).1
      2 4096 4096 := by
  show XFirst (xmas_ball_run 1 ((4095 + 4095) + 1) _).1 2 4096 4096
  rw [xmas_ball_run_succ]
  have := xball_step_ramp_white _ (xmas_ball_run 1 (4095 + 4095)
    (xmas_ball_prog true 1 xball_start hw_start)).2.data 4095 (by omega)
    (xmas_ball_white_phase 4095 (by omega))
  rwa [if_neg (by omega)] at this

/-- The frame that the first step of the third phase leaves in `data`. -/
theorem xball_step_fade_frame (s : XBall) (d : Nat → Nat) (h : XFirst s 2 4096 4096) :
    snapshot (xball_step s d).2
      = [4096, 4096, 4096, 0, 4096, 0, 4096, 4096, 4096, 0, 4096, 0,
         0, 4096, 0, 4096, 4096, 4096, 0, 4096, 0, 4096, 4096, 4096] := by
  obtain ⟨h1, h2, h3, h4, h5, h6, h7, h8, h9⟩ := h
  norm_num [xball_step, h1, h2, h3, h4, h5, h6, h7, h8, h9, sub16, snapshot, NUM_BITS,
    List.range_succ, xball_paint_both, xmas_ball_sets, SET_IDX, Function.update]

/-- C3 (the code departs from the claim).  Program slot 2 (`xmas_ball_prog` at
level 1.0): after the call with `init = 1` and 8192 further calls, the frame
on which the last call invokes `write_data` holds the value 4096 in 16 of its
24 components, which is outside `[0, 4095]`. -/
theorem xmas_ball_frame_exceeds_4095 :
    (frames_of (xmas_ball_run 1 8192
        (xmas_ball_prog true 1 xball_start hw_start)).2.log).getLast?
      = some [4096, 4096, 4096, 0, 4096, 0, 4096, 4096, 4096, 0, 4096, 0,
         0, 4096, 0, 4096, 4096, 4096, 0, 4096, 0, 4096, 4096, 4096]
    ∧ ∃ ws ∈ frames_of (xmas_ball_run 1 8192
        (xmas_ball_prog true 1 xball_start hw_start)).2.log, ∃ w ∈ ws, 4095 < w := by
  have h : (frames_of (xmas_ball_run 1 8192
        (xmas_ball_prog true 1 xball_start hw_start)).2.log).getLast?
      = some [4096, 4096, 4096, 0, 4096, 0, 4096, 4096, 4096, 0, 4096, 0,
         0, 4096, 0, 4096, 4096, 4096, 0, 4096, 0, 4096, 4096, 4096] := by
    show (frames_of (xmas_ball_prog false 1 _ _).2.log).getLast? = _
    rw [xmas_ball_prog_last_frame, xball_step_fade_frame _ _ xmas_ball_fade_start]
  exact ⟨h, _, List.mem_of_getLast?_eq_some h, 4096, by decide, by decide⟩

/-! ## `hsv2rgb` is the six-sector conversion -/

theorem truncQ_of_nonneg {x : ℚ} (h : 0 ≤ x) : truncQ x = ⌊x⌋ := by
  simp [truncQ, h]

theorem toU16_of_range {x : ℚ} (h0 : 0 ≤ x) (h1 : x ≤ 4095) :
    toU16 x = ⌊x⌋₊ ∧ ⌊x⌋₊ ≤ 4095 := by
  have hle : ⌊x⌋₊ ≤ 4095 := by
    have := Nat.floor_le_floor h1
    simpa using this
  refine ⟨?_, hle⟩
  unfold toU16
  rw [truncQ_of_nonneg h0, Int.floor_toNat]
  exact Nat.mod_eq_of_lt (by omega)

/-- On non-negative hues the code of `hsv2rgb` computes the six-sector colour and
converts each component times 4095 to `uint16_t`. -/
theorem hsv2rgb_eq_six_sector (h s v : ℚ) (hh : 0 ≤ h) :
    hsv2rgb h s v
      = (toU16 (4095 * (hsv_six_sector h s v).1), toU16 (4095 * (hsv_six_sector h s v).2.1),
         toU16 (4095 * (hsv_six_sector h s v).2.2)) := by
  have h6 : (0 : ℚ) ≤ h * 6 := by positivity
  have hi : 0 ≤ ⌊h * 6⌋ := Int.floor_nonneg.mpr h6
  have hm : (⌊h * 6⌋).tmod 6 = ⌊h * 6⌋ % 6 := Int.tmod_eq_emod hi (by decide)
  have hlt : ⌊h * 6⌋ % 6 < 6 := Int.emod_lt_of_pos _ (by decide)
  have hge : 0 ≤ ⌊h * 6⌋ % 6 := Int.emod_nonneg _ (by decide)
  unfold hsv2rgb hsv_six_sector
  simp only [truncQ_of_nonneg h6, hm, mul_comm 6 h]
  generalize ⌊h * 6⌋ % 6 = k at hlt hge
  interval_cases k <;> simp [mul_comm]

theorem hsv_sector_bounds (h s v : ℚ) (hs : 0 ≤ s ∧ s ≤ 1) (hv : 0 ≤ v ∧ v ≤ 1) :
    let f : ℚ := 6 * h - ⌊6 * h⌋
    let p : ℚ := v * (1 - s)
    let q : ℚ := v * (1 - f * s)
    let t : ℚ := v * (1 - (1 - f) * s)
    0 ≤ p ∧ p ≤ q ∧ p ≤ t ∧ q ≤ v ∧ t ≤ v := by
  intro f p q t
  obtain ⟨hs0, hs1⟩ := hs
  obtain ⟨hv0, hv1⟩ := hv
  have hf0 : 0 ≤ f := by
    have := Int.floor_le (6 * h)
    simp only [f]; linarith
  have hf1 : f ≤ 1 := by
    have := Int.lt_floor_add_one (6 * h)
    simp only [f]; linarith
  have hfs0 : 0 ≤ f * s := mul_nonneg hf0 hs0
  have hfs1 : f * s ≤ s := by nlinarith
  have hgs0 : 0 ≤ (1 - f) * s := mul_nonneg (by linarith) hs0
  have hgs1 : (1 - f) * s ≤ s := by nlinarith
  refine ⟨?_, ?_, ?_, ?_, ?_⟩
  · exact mul_nonneg hv0 (by linarith)
  · exact mul_le_mul_of_nonneg_left (by linarith) hv0
  · exact mul_le_mul_of_nonneg_left (by linarith) hv0
  · calc q ≤ v * 1 := mul_le_mul_of_nonneg_left (by linarith) hv0
      _ = v := mul_one v
  · calc t ≤ v * 1 := mul_le_mul_of_nonneg_left (by linarith) hv0
      _ = v := mul_one v

/-- The six-sector form and the chroma form are the same function. -/
theorem hsv_six_sector_eq_chroma (h s v : ℚ) : hsv_six_sector h s v = hsv_chroma h s v := by
  have hfl := Int.floor_le (6 * h)
  have hlt := Int.lt_floor_add_one (6 * h)
  have hk0 : 0 ≤ ⌊6 * h⌋ % 6 := Int.emod_nonneg _ (by decide)
  have hk6 : ⌊6 * h⌋ % 6 < 6 := Int.emod_lt_of_pos _ (by decide)
  rcases Int.even_or_odd' ⌊6 * h⌋ with ⟨j, hj | hj⟩
  · have hfloor : ⌊6 * h / 2⌋ = j := by
      rw [Int.floor_eq_iff]
      rw [hj] at hfl hlt
      push_cast at hfl hlt
      constructor <;> linarith
    have habs : |6 * h - 2 * (j : ℚ) - 1| = 1 - (6 * h - 2 * j) := by
      rw [hj] at hlt
      push_cast at hlt
      rw [abs_of_nonpos (by linarith)]
      ring
    unfold hsv_six_sector hsv_chroma
    simp only [hfloor, habs]
    rw [hj] at hk0 hk6 ⊢
    generalize hk : (2 * j) % 6 = k at hk0 hk6
    interval_cases k <;> first | omega | (simp; refine ⟨?_, ?_⟩ <;> ring)
  · have hfloor : ⌊6 * h / 2⌋ = j := by
      rw [Int.floor_eq_iff]
      rw [hj] at hfl hlt
      push_cast at hfl hlt
      constructor <;> linarith
    have habs : |6 * h - 2 * (j : ℚ) - 1| = 6 * h - 2 * j - 1 := by
      rw [hj] at hfl
      push_cast at hfl
      rw [abs_of_nonneg (by linarith)]
    unfold hsv_six_sector hsv_chroma
    simp only [hfloor, habs]
    rw [hj] at hk0 hk6 ⊢
    generalize hk : (2 * j + 1) % 6 = k at hk0 hk6
    interval_cases k <;> first | omega | (simp; refine ⟨?_, ?_⟩ <;> ring)


theorem hsv_six_sector_cases (h s v : ℚ) :
    let f : ℚ := 6 * h - ⌊6 * h⌋
    let p : ℚ := v * (1 - s)
    let q : ℚ := v * (1 - f * s)
    let t : ℚ := v * (1 - (1 - f) * s)
    hsv_six_sector h s v = (v, t, p) ∨ hsv_six_sector h s v = (q, v, p)
      ∨ hsv_six_sector h s v = (p, v, t) ∨ hsv_six_sector h s v = (p, q, v)
      ∨ hsv_six_sector h s v = (t, p, v) ∨ hsv_six_sector h s v = (v, p, q) := by
  intro f p q t
  simp only [hsv_six_sector]
  split_ifs <;> simp [f, p, q, t]

/-- C4.  For `h`, `s`, `v` in `[0,1]`, in exact arithmetic: `hsv2rgb` returns the
standard six-sector colour, each component multiplied by 4095 and truncated; the
six-sector form equals the chroma form; every output component is at most 4095;
the largest is `trunc(4095*v)` and the smallest is `trunc(4095*v*(1-s))`. -/
theorem hsv2rgb_standard (h s v : ℚ) (hh : 0 ≤ h ∧ h ≤ 1) (hs : 0 ≤ s ∧ s ≤ 1)
    (hv : 0 ≤ v ∧ v ≤ 1) :
    hsv2rgb h s v
        = (⌊4095 * (hsv_six_sector h s v).1⌋₊, ⌊4095 * (hsv_six_sector h s v).2.1⌋₊,
           ⌊4095 * (hsv_six_sector h s v).2.2⌋₊)
      ∧ hsv_six_sector h s v = hsv_chroma h s v
      ∧ (hsv2rgb h s v).1 ≤ 4095 ∧ (hsv2rgb h s v).2.1 ≤ 4095 ∧ (hsv2rgb h s v).2.2 ≤ 4095
      ∧ max3 (hsv2rgb h s v).1 (hsv2rgb h s v).2.1 (hsv2rgb h s v).2.2 = ⌊4095 * v⌋₊
      ∧ min3 (hsv2rgb h s v).1 (hsv2rgb h s v).2.1 (hsv2rgb h s v).2.2
          = ⌊4095 * v * (1 - s)⌋₊ := by
  obtain ⟨hp0, hpq, hpt, hqv, htv⟩ := hsv_sector_bounds h s v hs hv
  have hcases := hsv_six_sector_cases h s v
  simp only at hcases
  have F : ∀ x y : ℚ, x ≤ y → ⌊4095 * x⌋₊ ≤ ⌊4095 * y⌋₊ :=
    fun x y hxy => Nat.floor_le_floor (by linarith)
  have U : ∀ x : ℚ, 0 ≤ x → x ≤ 1 →
      toU16 (4095 * x) = ⌊4095 * x⌋₊ ∧ ⌊4095 * x⌋₊ ≤ 4095 :=
    fun x h0 h1 => toU16_of_range (by positivity) (by linarith)
  have hv1 := hv.2
  obtain ⟨Uv, Bv⟩ := U v hv.1 hv1
  obtain ⟨Up, -⟩ := U (v * (1 - s)) hp0 (by linarith)
  obtain ⟨Uq, -⟩ := U (v * (1 - (6 * h - ⌊6 * h⌋) * s)) (by linarith) (by linarith)
  obtain ⟨Ut, -⟩ := U (v * (1 - (1 - (6 * h - ⌊6 * h⌋)) * s)) (by linarith) (by linarith)
  have Fpq := F _ _ hpq
  have Fpt := F _ _ hpt
  have Fqv := F _ _ hqv
  have Ftv := F _ _ htv
  have hmin : (4095 : ℚ) * v * (1 - s) = 4095 * (v * (1 - s)) := by ring
  rw [hsv2rgb_eq_six_sector h s v hh.1, hmin]
  refine ⟨?_, hsv_six_sector_eq_chroma h s v, ?_⟩
  · rcases hcases with e | e | e | e | e | e <;> rw [e] <;> simp only [Uv, Up, Uq, Ut]
  · rcases hcases with e | e | e | e | e | e <;> rw [e] <;> simp only [Uv, Up, Uq, Ut] <;>
      refine ⟨by omega, by omega, by omega, ?_, ?_⟩ <;>
      simp only [max3, min3] <;> split_ifs <;> omega


theorem hsv2rgb_standard_witness :
    ((0 : ℚ) ≤ 1 / 3 ∧ (1 / 3 : ℚ) ≤ 1) ∧ ((0 : ℚ) ≤ 1 / 2 ∧ (1 / 2 : ℚ) ≤ 1)
      ∧ max3 (hsv2rgb (1 / 3) (1 / 2) (1 / 2)).1 (hsv2rgb (1 / 3) (1 / 2) (1 / 2)).2.1
          (hsv2rgb (1 / 3) (1 / 2) (1 / 2)).2.2 = ⌊4095 * (1 / 2 : ℚ)⌋₊
      ∧ min3 (hsv2rgb (1 / 3) (1 / 2) (1 / 2)).1 (hsv2rgb (1 / 3) (1 / 2) (1 / 2)).2.1
          (hsv2rgb (1 / 3) (1 / 2) (1 / 2)).2.2 = ⌊4095 * (1 / 2 : ℚ) * (1 - 1 / 2)⌋₊ :=
  ⟨by norm_num, by norm_num,
    (hsv2rgb_standard (1 / 3) (1 / 2) (1 / 2) (by norm_num) (by norm_num) (by norm_num)).2.2.2.2.2⟩

/-! ## `rgb2hsv` does not invert `hsv2rgb` -/

/-- C5 (the code departs from the claim).  At `h = 11/12`, `s = v = 1` the colour
is `hsv2rgb = (4095, 0, 2047)`, which is not grey, and `rgb2hsv` returns the hue
`29353/8190`, about `3.58`: the difference `g - b` of two `uint16_t` wraps to
`63489` instead of being `-2047`.  The hue is not in `[0,1]` and is not near
`11/12`. -/
theorem rgb2hsv_hue_wraps :
    hsv2rgb (11 / 12) 1 1 = (4095, 0, 2047)
      ∧ sub16 0 2047 = 63489
      ∧ (rgb2hsv 4095 0 2047).1 = 29353 / 8190
      ∧ (1 : ℚ) < (rgb2hsv 4095 0 2047).1 := by
  have h1 : hsv2rgb (11 / 12) 1 1 = (4095, 0, 2047) := by
    norm_num [hsv2rgb, truncQ, toU16, Int.tmod]
    exact ⟨rfl, rfl⟩
  have h2 : (rgb2hsv 4095 0 2047).1 = 29353 / 8190 := by
    norm_num [rgb2hsv, max3, min3, sub16]
  refine ⟨h1, by decide, h2, ?_⟩
  rw [h2]
  norm_num

/-! ## The hue interpolation of the sun generator -/

/-- C6, counterexample.  The anchors `0.165` and `0.6` are in `[0,1]` and outside
the band `(0.166, 0.5)`, yet at progress `1/2` the interpolated hue is `0.3825`,
inside the band: the wrap is only taken for an anchor below `0.16`. -/
theorem sun_hue_enters_band :
    ((0 : ℚ) ≤ 0.165 ∧ (0.165 : ℚ) ≤ 1 ∧ ¬ ((0.166 : ℚ) < 0.165 ∧ (0.165 : ℚ) < 0.5))
      ∧ ((0 : ℚ) ≤ 0.6 ∧ (0.6 : ℚ) ≤ 1 ∧ ¬ ((0.166 : ℚ) < 0.6 ∧ (0.6 : ℚ) < 0.5))
      ∧ ((0 : ℚ) ≤ 1 / 2 ∧ (1 / 2 : ℚ) ≤ 1)
      ∧ sun_hue 0.165 0.6 (1 / 2) = 0.3825
      ∧ (0.166 < sun_hue 0.165 0.6 (1 / 2) ∧ sun_hue 0.165 0.6 (1 / 2) < 0.5) := by
  have h : sun_hue 0.165 0.6 (1 / 2) = 0.3825 := by norm_num [sun_hue]
  rw [h]
  norm_num

/-- C6, amended.  For anchor hues in `[0,1]` that are each below `0.16` or above
`0.5` (the bounds the code tests) and every progress in `[0,1]`, the interpolated
hue is in `[0,1]` and is itself below `0.16` or above `0.5`; in particular it is
not in `(0.166, 0.5)`. -/
theorem sun_hue_avoids_band (h1 h2 p : ℚ) (hh1 : 0 ≤ h1 ∧ h1 ≤ 1) (hh2 : 0 ≤ h2 ∧ h2 ≤ 1)
    (ho1 : h1 < 0.16 ∨ 0.5 < h1) (ho2 : h2 < 0.16 ∨ 0.5 < h2) (hp : 0 ≤ p ∧ p ≤ 1) :
    (0 ≤ sun_hue h1 h2 p ∧ sun_hue h1 h2 p ≤ 1)
      ∧ (sun_hue h1 h2 p < 0.16 ∨ 0.5 < sun_hue h1 h2 p)
      ∧ ¬ (0.166 < sun_hue h1 h2 p ∧ sun_hue h1 h2 p < 0.5) := by
  obtain ⟨h1a, h1b⟩ := hh1
  obtain ⟨h2a, h2b⟩ := hh2
  obtain ⟨hp0, hp1⟩ := hp
  have key : (0 ≤ sun_hue h1 h2 p ∧ sun_hue h1 h2 p ≤ 1)
      ∧ (sun_hue h1 h2 p < 0.16 ∨ 0.5 < sun_hue h1 h2 p) := by
    unfold sun_hue
    by_cases c1 : h2 < h1 ∧ h2 < 0.16 ∧ h1 > 0.5
    · obtain ⟨c1a, c1b, c1c⟩ := c1
      rw [if_pos ⟨c1a, c1b, c1c⟩]
      have e1 : h1 ≤ h1 + (h2 + 1 - h1) * p := by nlinarith
      have e2 : h1 + (h2 + 1 - h1) * p ≤ h2 + 1 := by nlinarith
      simp only
      by_cases c : h1 + (h2 + 1 - h1) * p > 1.0
      · rw [if_pos c]
        norm_num at c c1b c1c ⊢
        exact ⟨⟨by linarith, by linarith⟩, Or.inl (by linarith)⟩
      · rw [if_neg c]
        norm_num at c c1b c1c ⊢
        exact ⟨⟨by linarith, by linarith⟩, Or.inr (by linarith)⟩
    · rw [if_neg c1]
      by_cases c2 : h1 < h2 ∧ h2 > 0.5 ∧ h1 < 0.16
      · obtain ⟨c2a, c2b, c2c⟩ := c2
        rw [if_pos ⟨c2a, c2b, c2c⟩]
        have e1 : h2 - 1 ≤ h1 + (h2 - (h1 + 1)) * p := by nlinarith
        have e2 : h1 + (h2 - (h1 + 1)) * p ≤ h1 := by nlinarith
        simp only
        by_cases c : h1 + (h2 - (h1 + 1)) * p < 0.0
        · rw [if_pos c]
          norm_num at c c2b c2c ⊢
          exact ⟨⟨by linarith, by linarith⟩, Or.inr (by linarith)⟩
        · rw [if_neg c]
          norm_num at c c2b c2c ⊢
          exact ⟨⟨by linarith, by linarith⟩, Or.inl (by linarith)⟩
      · rw [if_neg c2]
        have e1 : h1 + (h2 - h1) * p = (1 - p) * h1 + p * h2 := by ring
        rw [e1]
        norm_num at c1 c2 ho1 ho2 ⊢
        have up : (1 - p) * h1 + p * h2 ≤ max h1 h2 := by
          have := le_max_left h1 h2
          have := le_max_right h1 h2
          nlinarith
        have lo : min h1 h2 ≤ (1 - p) * h1 + p * h2 := by
          have := min_le_left h1 h2
          have := min_le_right h1 h2
          nlinarith
        have lo0 : 0 ≤ min h1 h2 := le_min h1a h2a
        have up1 : max h1 h2 ≤ 1 := max_le h1b h2b
        rcases ho1 with a | a <;> rcases ho2 with b | b
        · exact ⟨⟨by linarith, by linarith⟩, Or.inl (lt_of_le_of_lt up (max_lt a b))⟩
        · exfalso
          have := c2 (by linarith) b
          linarith
        · exfalso
          have := c1 (by linarith) b
          linarith
        · exact ⟨⟨by linarith, by linarith⟩, Or.inr (lt_of_lt_of_le (lt_min a b) lo)⟩
  refine ⟨key.1, key.2, ?_⟩
  rintro ⟨a, b⟩
  rcases key.2 with c | c
  · norm_num at a c; linarith
  · norm_num at b c; linarith

theorem sun_hue_avoids_band_witness :
    ((0 : ℚ) ≤ 0.95 ∧ (0.95 : ℚ) ≤ 1) ∧ ((0 : ℚ) ≤ 0.05 ∧ (0.05 : ℚ) ≤ 1)
      ∧ ((0.95 : ℚ) < 0.16 ∨ (0.5 : ℚ) < 0.95) ∧ ((0.05 : ℚ) < 0.16 ∨ (0.5 : ℚ) < 0.05)
      ∧ ((0 : ℚ) ≤ 1 / 2 ∧ (1 / 2 : ℚ) ≤ 1)
      ∧ ¬ (0.166 < sun_hue 0.95 0.05 (1 / 2) ∧ sun_hue 0.95 0.05 (1 / 2) < 0.5) :=
  ⟨by norm_num, by norm_num, by norm_num, by norm_num, by norm_num,
    (sun_hue_avoids_band 0.95 0.05 (1 / 2) (by norm_num) (by norm_num) (by norm_num)
      (by norm_num) (by norm_num)).2.2⟩

/-- C7, counterexample.  For the anchors `0.05` and `0.95` the hue at progress `0`
is `0.05` and at progress `1/4` it is `0.025`: it does not increase. -/
theorem sun_hue_not_monotone :
    (0 : ℚ) ≤ 1 / 4 ∧ sun_hue 0.05 0.95 0 = 0.05 ∧ sun_hue 0.05 0.95 (1 / 4) = 0.025
      ∧ ¬ (sun_hue 0.05 0.95 0 ≤ sun_hue 0.05 0.95 (1 / 4)) := by
  have h0 : sun_hue 0.05 0.95 0 = 0.05 := by norm_num [sun_hue]
  have h1 : sun_hue 0.05 0.95 (1 / 4) = 0.025 := by norm_num [sun_hue]
  rw [h0, h1]
  norm_num

/-- C7, amended.  For the anchors `0.05` and `0.95` the interpolation takes the
wrap through 0/1: the hue is `0.05 - 0.1 p` up to progress `1/2` and
`1.05 - 0.1 p` after it, so it decreases with progress on each side of the wrap.
The hue follows the direct path `h1 + (h2 - h1) p`, and increases with
progress (`p ≤ p'`, in particular within `[0,1]`), for anchors `h1 ≤ h2` that do not satisfy the wrap condition
`h2 > 0.5 ∧ h1 < 0.16`. -/
theorem sun_hue_paths (p p' : ℚ) (hpp : p ≤ p') :
    sun_hue 0.05 0.95 p = (if p ≤ 1 / 2 then 0.05 - 0.1 * p else 1.05 - 0.1 * p)
      ∧ ((p' ≤ 1 / 2 ∨ 1 / 2 < p) → sun_hue 0.05 0.95 p' ≤ sun_hue 0.05 0.95 p)
      ∧ (∀ h1 h2 : ℚ, h1 ≤ h2 → ¬ (h2 > 0.5 ∧ h1 < 0.16) →
          sun_hue h1 h2 p = h1 + (h2 - h1) * p ∧ sun_hue h1 h2 p ≤ sun_hue h1 h2 p') := by
  have wrap : ∀ x : ℚ,
      sun_hue 0.05 0.95 x = (if x ≤ 1 / 2 then 0.05 - 0.1 * x else 1.05 - 0.1 * x) := by
    intro x
    unfold sun_hue
    rw [if_neg (by norm_num), if_pos (by norm_num)]
    simp only
    by_cases c : x ≤ 1 / 2
    · rw [if_pos c, if_neg (by norm_num; linarith)]
      ring
    · rw [if_neg c, if_pos (by norm_num; linarith)]
      ring
  have direct : ∀ h1 h2 x : ℚ, h1 ≤ h2 → ¬ (h2 > 0.5 ∧ h1 < 0.16) →
      sun_hue h1 h2 x = h1 + (h2 - h1) * x := by
    intro h1 h2 x h12 hw
    unfold sun_hue
    rw [if_neg (fun c => absurd c.1 (not_lt.mpr h12)),
      if_neg (fun c => hw ⟨c.2.1, c.2.2⟩)]
  refine ⟨wrap p, ?_, ?_⟩
  · intro hside
    rw [wrap p, wrap p']
    rcases hside with c | c
    · rw [if_pos c, if_pos (le_trans hpp c)]
      linarith
    · rw [if_neg (not_le.mpr c), if_neg (not_le.mpr (lt_of_lt_of_le c hpp))]
      linarith
  · intro h1 h2 h12 hw
    rw [direct h1 h2 p h12 hw, direct h1 h2 p' h12 hw]
    refine ⟨rfl, ?_⟩
    nlinarith

theorem sun_hue_paths_witness :
    (1 / 4 : ℚ) ≤ 1 / 2
      ∧ sun_hue 0.05 0.95 (1 / 4)
        = (if (1 / 4 : ℚ) ≤ 1 / 2 then 0.05 - 0.1 * (1 / 4) else 1.05 - 0.1 * (1 / 4))
      ∧ ((1 / 2 : ℚ) ≤ 1 / 2 ∨ (1 / 2 : ℚ) < 1 / 4 →
          sun_hue 0.05 0.95 (1 / 2) ≤ sun_hue 0.05 0.95 (1 / 4)) :=
  ⟨by norm_num, (sun_hue_paths (1 / 4) (1 / 2) (by norm_num)).1,
    (sun_hue_paths (1 / 4) (1 / 2) (by norm_num)).2.1⟩

/-! ## The period of the sun cycle -/

theorem HOUR_INTERVAL_eq : HOUR_INTERVAL = 500 := by
  norm_num [HOUR_INTERVAL, DAY_FRAMES, DAY_SEGMENTS]

theorem sun_start_hour_eq (dc : Nat) : sun_start_hour dc = ((dc / 500 : Nat) : Int) := by
  unfold sun_start_hour
  rw [HOUR_INTERVAL_eq, truncQ_of_nonneg (by positivity)]
  have h : ⌊(dc : ℚ) / ((500 : Nat) : ℚ)⌋₊ = dc / 500 := Nat.floor_div_eq_div dc 500
  rw [← h, Int.natCast_floor_eq_floor (by positivity)]
  norm_num

theorem sun_start_count_eq (dc : Nat) :
    sun_start_count dc = ((500 * (dc / 500) : Nat) : Int) := by
  unfold sun_start_count
  rw [HOUR_INTERVAL_eq, sun_start_hour_eq, truncQ_of_nonneg (by positivity)]
  have e : (500 : ℚ) * (((dc / 500 : Nat) : Int) : ℚ) = (((500 * (dc / 500) : Nat) : Int) : ℚ) := by
    push_cast
    ring
  rw [e, Int.floor_intCast]

theorem sun_progress_eq (dc : Nat) :
    sun_progress dc = ((dc % 500 : Nat) : ℚ) / 500 := by
  unfold sun_progress
  rw [HOUR_INTERVAL_eq, sun_start_count_eq]
  have e : ((dc : Int) - ((500 * (dc / 500) : Nat) : Int)) = ((dc % 500 : Nat) : Int) := by
    omega
  rw [e, Int.cast_natCast]

theorem sun_show_run_counter (level : ℚ) (hw : Hw) :
    ∀ n : Nat, (sun_show_run level n (0, hw)).1 = n % 5000 := by
  intro n
  induction n with
  | zero => rfl
  | succ n ih =>
    show ((sun_show_run level n (0, hw)).1 + 1) % DAY_FRAMES = _
    rw [ih]
    unfold DAY_FRAMES
    omega

theorem sun_pair_zero : sun_start_hour 0 = 0 ∧ sun_progress 0 = 0 := by
  rw [sun_start_hour_eq, sun_progress_eq]
  norm_num

theorem sun_pair_ne_zero (n : Nat) (hn : 0 < n) :
    ¬ (sun_start_hour n = 0 ∧ sun_progress n = 0) := by
  rw [sun_start_hour_eq, sun_progress_eq]
  rintro ⟨a, b⟩
  have a' : n / 500 = 0 := by exact_mod_cast a
  have hlt : n < 500 := by omega
  have hmod : n % 500 = n := Nat.mod_eq_of_lt hlt
  rw [hmod] at b
  have hpos : (0 : ℚ) < n := by exact_mod_cast hn
  have : (0 : ℚ) < (n : ℚ) / 500 := by positivity
  linarith

theorem sun_hours (dc : Nat) (hdc : dc < 5000) :
    sun_start_hour dc = ((dc / 500 : Nat) : Int) ∧ dc / 500 < 10
      ∧ sun_end_hour dc = (((dc / 500 + 1) % 10 : Nat) : Int)
      ∧ sun_progress dc = ((dc : ℚ) - 500 * ((dc / 500 : Nat) : ℚ)) / 500
      ∧ 0 ≤ sun_progress dc ∧ sun_progress dc < 1 := by
  have hmodlt : dc % 500 < 500 := Nat.mod_lt _ (by decide)
  have hq : ((dc % 500 : Nat) : ℚ) < 500 := by exact_mod_cast hmodlt
  have hsplit : (dc : ℚ) = 500 * ((dc / 500 : Nat) : ℚ) + ((dc % 500 : Nat) : ℚ) := by
    have := Nat.div_add_mod dc 500
    exact_mod_cast this.symm
  refine ⟨sun_start_hour_eq dc, by omega, ?_, ?_, ?_, ?_⟩
  · unfold sun_end_hour
    rw [sun_start_hour_eq]
    have hnn : (0 : Int) ≤ ((dc / 500 : Nat) : Int) + 1 := by positivity
    have hten : (0 : Int) ≤ ((DAY_SEGMENTS : Nat) : Int) := by positivity
    rw [Int.tmod_eq_emod hnn hten]
    unfold DAY_SEGMENTS
    push_cast
    rfl
  · rw [sun_progress_eq, hsplit]
    ring
  · rw [sun_progress_eq]
    positivity
  · rw [sun_progress_eq, div_lt_one (by norm_num)]
    exact hq

/-- C8.  At `day_counter = 0` the pair `(start_hour, progress)` is `(0, 0)`; each
call of `sun_show_prog` replaces `day_counter` by `(day_counter + 1) mod 5000`;
after exactly 5000 calls from `day_counter = 0` the counter is `0` and the pair
is `(0, 0)` again; after `n` calls with `0 < n < 5000` the counter is `n` and the
pair is not `(0, 0)`; and for every `day_counter < 5000`,
`start_hour = floor(day_counter / 500) < 10`, `end_hour = (start_hour + 1) mod
10`, and `progress = (day_counter - 500 * start_hour) / 500` lies in `[0, 1)`. -/
theorem sun_cycle_period (level : ℚ) (hw : Hw) (n dc : Nat) (hn : 0 < n ∧ n < 5000)
    (hdc : dc < 5000) :
    (sun_start_hour 0 = 0 ∧ sun_progress 0 = 0)
      ∧ (∀ (init : Bool) (lv : ℚ) (hw' : Hw),
          (sun_show_prog init lv dc hw').1 = (dc + 1) % 5000)
      ∧ ((sun_show_run level 5000 (0, hw)).1 = 0
          ∧ sun_start_hour (sun_show_run level 5000 (0, hw)).1 = 0
          ∧ sun_progress (sun_show_run level 5000 (0, hw)).1 = 0)
      ∧ ((sun_show_run level n (0, hw)).1 = n
          ∧ ¬ (sun_start_hour (sun_show_run level n (0, hw)).1 = 0
                ∧ sun_progress (sun_show_run level n (0, hw)).1 = 0))
      ∧ (sun_start_hour dc = ((dc / 500 : Nat) : Int) ∧ dc / 500 < 10
          ∧ sun_end_hour dc = (((dc / 500 + 1) % 10 : Nat) : Int)
          ∧ sun_progress dc = ((dc : ℚ) - 500 * ((dc / 500 : Nat) : ℚ)) / 500
          ∧ 0 ≤ sun_progress dc ∧ sun_progress dc < 1) := by
  have hrun : (sun_show_run level n (0, hw)).1 = n := by
    rw [sun_show_run_counter]
    omega
  refine ⟨sun_pair_zero, fun _ _ _ => rfl, ?_, ⟨hrun, ?_⟩, sun_hours dc hdc⟩
  · rw [sun_show_run_counter level hw 5000]
    exact ⟨rfl, sun_pair_zero⟩
  · rw [hrun]
    exact sun_pair_ne_zero n hn.1

theorem sun_cycle_period_witness :
    ((0 : Nat) < 4999 ∧ 4999 < 5000) ∧ 1234 < 5000
      ∧ (sun_show_run 1 4999 (0, hw_start)).1 = 4999
      ∧ sun_start_hour 1234 = ((1234 / 500 : Nat) : Int) :=
  ⟨by decide, by decide,
    (sun_cycle_period 1 hw_start 4999 1234 (by decide) (by decide)).2.2.2.1.1,
    (sun_cycle_period 1 hw_start 4999 1234 (by decide) (by decide)).2.2.2.2.1⟩

/-! ## The spaceship generator: ring indices -/

theorem ss_init_fields (init : Bool) (level : ℚ) (s : Ss) :
    (ss_init init level s).top_cycle = s.top_cycle
      ∧ (ss_init init level s).bot_cycle = s.bot_cycle
      ∧ (ss_init init level s).top_cycle_incr = s.top_cycle_incr
      ∧ (ss_init init level s).bot_cycle_incr = s.bot_cycle_incr
      ∧ (ss_init init level s).ss_color = s.ss_color
      ∧ (ss_init init level s).ss_val_bot = s.ss_val_bot
      ∧ (ss_init init level s).ss_val_step = s.ss_val_step
      ∧ (ss_init init level s).ss_val = (if init then SS_VAL_MAX * level else s.ss_val) := by
  cases init <;> simp [ss_init]

theorem ss_top_fields (s : Ss) :
    (ss_top s).top_cycle = s.top_cycle ∧ (ss_top s).bot_cycle = s.bot_cycle
      ∧ (ss_top s).bot_cycle_incr = s.bot_cycle_incr
      ∧ (ss_top s).ss_val = s.ss_val ∧ (ss_top s).ss_val_bot = s.ss_val_bot
      ∧ (ss_top s).ss_val_step = s.ss_val_step
      ∧ (ss_top s).top_cycle_incr
          = (if s.ss_color 0 s.top_cycle VAL ≥ s.ss_val then 1 else s.top_cycle_incr)
      ∧ (∀ p k, (ss_top s).ss_color 1 p k = s.ss_color 1 p k) := by
  by_cases h : s.ss_color 0 s.top_cycle VAL ≥ s.ss_val
  · simp [ss_top, h, set_color]
  · simp only [ss_top, if_neg h, true_and]
    intro p k
    split_ifs <;> simp [set_color]

theorem ss_bot_fields (s : Ss) :
    (ss_bot s).top_cycle = s.top_cycle ∧ (ss_bot s).bot_cycle = s.bot_cycle
      ∧ (ss_bot s).top_cycle_incr = s.top_cycle_incr
      ∧ (ss_bot s).ss_val = s.ss_val ∧ (ss_bot s).ss_val_bot = s.ss_val_bot
      ∧ (ss_bot s).ss_val_step = s.ss_val_step
      ∧ (ss_bot s).bot_cycle_incr
          = (if s.ss_color 1 s.bot_cycle VAL ≥ s.ss_val_bot then 1 else s.bot_cycle_incr) := by
  by_cases h : s.ss_color 1 s.bot_cycle VAL ≥ s.ss_val_bot
  · simp [ss_bot, h]
  · simp [ss_bot, h]

theorem ss_hues_fields (s : Ss) :
    (ss_hues s).top_cycle = s.top_cycle ∧ (ss_hues s).bot_cycle = s.bot_cycle
      ∧ (ss_hues s).top_cycle_incr = s.top_cycle_incr
      ∧ (ss_hues s).bot_cycle_incr = s.bot_cycle_incr
      ∧ (ss_hues s).ss_color = s.ss_color
      ∧ (ss_hues s).ss_val = s.ss_val ∧ (ss_hues s).ss_val_bot = s.ss_val_bot
      ∧ (ss_hues s).ss_val_step = s.ss_val_step :=
  ⟨rfl, rfl, rfl, rfl, rfl, rfl, rfl, rfl⟩

theorem ss_vals_fields (s : Ss) :
    (ss_vals s).top_cycle = s.top_cycle ∧ (ss_vals s).bot_cycle = s.bot_cycle
      ∧ (ss_vals s).top_cycle_incr = s.top_cycle_incr
      ∧ (ss_vals s).bot_cycle_incr = s.bot_cycle_incr
      ∧ (ss_vals s).ss_color = s.ss_color := by
  simp only [ss_vals]
  split_ifs <;> simp

theorem ss_advance_fields (s : Ss) :
    (ss_advance s).top_cycle
        = (if s.top_cycle_incr ≠ 0 then (s.top_cycle + 1) % 4 else s.top_cycle)
      ∧ (ss_advance s).bot_cycle
        = (if s.bot_cycle_incr ≠ 0 then (s.bot_cycle + 1) % 4 else s.bot_cycle)
      ∧ (ss_advance s).top_cycle_incr = 0
      ∧ (ss_advance s).bot_cycle_incr = 0
      ∧ (ss_advance s).ss_color = s.ss_color
      ∧ (ss_advance s).ss_val = s.ss_val ∧ (ss_advance s).ss_val_bot = s.ss_val_bot
      ∧ (ss_advance s).ss_val_step = s.ss_val_step := by
  by_cases ht : s.top_cycle_incr = 0 <;> by_cases hb : s.bot_cycle_incr = 0 <;>
    simp [ss_advance, ht, hb]

/-- The outer ring's index after a call: it advances exactly when the lead value
was at or above the ceiling the call tested. -/
theorem ss_next_top_cycle (init : Bool) (level : ℚ) (s : Ss) (h : s.top_cycle_incr = 0) :
    (ss_next init level s).top_cycle
      = (if ss_top_hit init level s then (s.top_cycle + 1) % 4 else s.top_cycle) := by
  obtain ⟨i1, -, i3, -, i5, -, -, i8⟩ := ss_init_fields init level s
  obtain ⟨t1, -, -, -, -, -, t7, -⟩ := ss_top_fields (ss_init init level s)
  obtain ⟨b1, -, b3, -⟩ := ss_bot_fields (ss_top (ss_init init level s))
  obtain ⟨u1, -, u3, -⟩ := ss_hues_fields (ss_bot (ss_top (ss_init init level s)))
  obtain ⟨v1, -, v3, -⟩ := ss_vals_fields (ss_hues (ss_bot (ss_top (ss_init init level s))))
  obtain ⟨a1, -⟩ := ss_advance_fields
    (ss_vals (ss_hues (ss_bot (ss_top (ss_init init level s)))))
  unfold ss_next
  rw [a1, v1, v3, u1, u3, b1, b3, t1, t7, i1, i3, i5, i8, h]
  unfold ss_top_hit
  by_cases c : s.ss_color 0 s.top_cycle VAL ≥ (if init then SS_VAL_MAX * level else s.ss_val)
  · simp [c]
  · simp [c]

/-- The inner ring's index after a call. -/
theorem ss_next_bot_cycle (init : Bool) (level : ℚ) (s : Ss) (h : s.bot_cycle_incr = 0) :
    (ss_next init level s).bot_cycle
      = (if ss_bot_hit s then (s.bot_cycle + 1) % 4 else s.bot_cycle) := by
  obtain ⟨-, i2, -, i4, i5, i6, -, -⟩ := ss_init_fields init level s
  obtain ⟨-, t2, t3, -, t5, -, -, t8⟩ := ss_top_fields (ss_init init level s)
  obtain ⟨-, b2, -, -, -, -, b7⟩ := ss_bot_fields (ss_top (ss_init init level s))
  obtain ⟨-, u2, -, u4, -⟩ := ss_hues_fields (ss_bot (ss_top (ss_init init level s)))
  obtain ⟨-, v2, -, v4, -⟩ := ss_vals_fields (ss_hues (ss_bot (ss_top (ss_init init level s))))
  obtain ⟨-, a2, -⟩ := ss_advance_fields
    (ss_vals (ss_hues (ss_bot (ss_top (ss_init init level s)))))
  unfold ss_next
  rw [a2, v2, v4, u2, u4, b2, b7, t2, t3, t5, t8, i2, i4, i5, i6, h]
  unfold ss_bot_hit
  by_cases c : s.ss_color 1 s.bot_cycle VAL ≥ s.ss_val_bot
  · simp [c]
  · simp [c]

theorem ss_next_incr (init : Bool) (level : ℚ) (s : Ss) :
    (ss_next init level s).top_cycle_incr = 0 ∧ (ss_next init level s).bot_cycle_incr = 0 := by
  obtain ⟨-, -, a3, a4, -⟩ := ss_advance_fields
    (ss_vals (ss_hues (ss_bot (ss_top (ss_init init level s)))))
  exact ⟨a3, a4⟩

/-- In every reachable state both ring indices are below 4 and both advance
flags are clear. -/
theorem ss_reach_index (s : Ss) (hs : SsReach s) :
    s.top_cycle < 4 ∧ s.bot_cycle < 4 ∧ s.top_cycle_incr = 0 ∧ s.bot_cycle_incr = 0 := by
  induction hs with
  | start => exact ⟨by decide, by decide, rfl, rfl⟩
  | call init level s _ ih =>
    obtain ⟨h1, h2, h3, h4⟩ := ih
    obtain ⟨n1, n2⟩ := ss_next_incr init level s
    refine ⟨?_, ?_, n1, n2⟩
    · rw [ss_next_top_cycle init level s h3]
      split_ifs <;> omega
    · rw [ss_next_bot_cycle init level s h4]
      split_ifs <;> omega

theorem ss_top_leads_eq (s : Ss) (hs : SsReach s) (cs : List (Bool × ℚ)) :
    ss_top_leads s cs
      = (List.range (ss_top_leads s cs).length).map (fun k => (s.top_cycle + k) % 4) := by
  induction cs generalizing s with
  | nil => simp [ss_top_leads]
  | cons c cs ih =>
    obtain ⟨h1, -, h3, -⟩ := ss_reach_index s hs
    have hn := ih (ss_next c.1 c.2 s) (SsReach.call c.1 c.2 s hs)
    have ht := ss_next_top_cycle c.1 c.2 s h3
    rw [ss_top_leads]
    by_cases hit : ss_top_hit c.1 c.2 s = true
    · rw [if_pos hit] at ht ⊢
      rw [ht] at hn
      rw [List.singleton_append, List.length_cons, List.range_succ_eq_map, List.map_cons,
        List.map_map]
      congr 1
      · simp [Nat.mod_eq_of_lt h1]
      · rw [hn]
        simp only [List.length_map, List.length_range]
        apply List.map_congr_left
        intro k _
        simp only [Function.comp]
        omega
    · rw [if_neg hit] at ht ⊢
      rw [ht] at hn
      rw [List.nil_append]
      exact hn

theorem ss_bot_leads_eq (s : Ss) (hs : SsReach s) (cs : List (Bool × ℚ)) :
    ss_bot_leads s cs
      = (List.range (ss_bot_leads s cs).length).map (fun k => (s.bot_cycle + k) % 4) := by
  induction cs generalizing s with
  | nil => simp [ss_bot_leads]
  | cons c cs ih =>
    obtain ⟨-, h2, -, h4⟩ := ss_reach_index s hs
    have hn := ih (ss_next c.1 c.2 s) (SsReach.call c.1 c.2 s hs)
    have ht := ss_next_bot_cycle c.1 c.2 s h4
    rw [ss_bot_leads]
    by_cases hit : ss_bot_hit s = true
    · rw [if_pos hit] at ht ⊢
      rw [ht] at hn
      rw [List.singleton_append, List.length_cons, List.range_succ_eq_map, List.map_cons,
        List.map_map]
      congr 1
      · simp [Nat.mod_eq_of_lt h2]
      · rw [hn]
        simp only [List.length_map, List.length_range]
        apply List.map_congr_left
        intro k _
        simp only [Function.comp]
        omega
    · rw [if_neg hit] at ht ⊢
      rw [ht] at hn
      rw [List.nil_append]
      exact hn

/-- Four consecutive entries of a list that counts up modulo 4 are
`m, m+1, m+2, m+3` modulo 4 for some `m < 4`. -/
theorem lead_window (t n i : Nat) (hi : i + 4 ≤ n) :
    ∃ m : Nat, m < 4
      ∧ (((List.range n).map (fun k => (t + k) % 4)).drop i).take 4
          = [m, (m + 1) % 4, (m + 2) % 4, (m + 3) % 4] := by
  refine ⟨(t + i) % 4, Nat.mod_lt _ (by decide), ?_⟩
  have e1 : ((t + i) % 4 + 1) % 4 = (t + (i + 1)) % 4 := by omega
  have e2 : ((t + i) % 4 + 2) % 4 = (t + (i + 2)) % 4 := by omega
  have e3 : ((t + i) % 4 + 3) % 4 = (t + (i + 3)) % 4 := by omega
  rw [e1, e2, e3]
  apply List.ext_getElem?
  intro j
  rcases Nat.lt_or_ge j 4 with hj | hj
  · have hj' : i + j < n := by omega
    rw [List.getElem?_take_of_lt hj, List.getElem?_drop, List.getElem?_map,
      List.getElem?_range hj']
    interval_cases j <;> simp
  · rw [List.getElem?_take_eq_none hj]
    symm
    apply List.getElem?_eq_none
    simpa using hj

/-- In a window `m, m+1, m+2, m+3` modulo 4 every position occurs exactly once,
and the channels of either ring at these positions are the ring's four channels. -/
theorem lead_window_once (w : List Nat) (m : Nat) (hm : m < 4)
    (hw : w = [m, (m + 1) % 4, (m + 2) % 4, (m + 3) % 4]) :
    (∀ c : Nat, c < 4 → w.count c = 1)
      ∧ (w.map (spaceship_cycles 0)).Perm [5 * 3, 6 * 3, 0 * 3, 3 * 3]
      ∧ (w.map (spaceship_cycles 1)).Perm [1 * 3, 7 * 3, 4 * 3, 2 * 3] := by
  subst hw
  refine ⟨?_, ?_, ?_⟩
  · intro c hc
    interval_cases m <;> interval_cases c <;> decide
  · interval_cases m <;> decide
  · interval_cases m <;> decide

/-- C10.  In every state reachable from program start by calls of
`spaceship_prog` (with or without `init`, any level): `top_cycle` and
`bot_cycle` are below 4; a call advances a ring's index to `(index + 1) mod 4`
exactly when the ring's lead value is at or above the ceiling at the start of the
step (for the outer ring in a call with `init`, the ceiling `SS_VAL_MAX * level`
that `init` has just set) and otherwise leaves the index unchanged; and along any
further sequence of calls, any four consecutive ceiling-reaching steps of a ring
have each of the 4 positions, and so each of the ring's 4 channels, as lead
exactly once. -/
theorem spaceship_ring_index (s : Ss) (hs : SsReach s) (init : Bool) (level : ℚ)
    (cs : List (Bool × ℚ)) :
    (s.top_cycle < 4 ∧ s.bot_cycle < 4)
      ∧ (∀ hw : Hw, (spaceship_prog init level s hw).1 = ss_next init level s)
      ∧ (ss_next init level s).top_cycle
          = (if s.ss_color 0 s.top_cycle VAL ≥ (if init then SS_VAL_MAX * level else s.ss_val)
              then (s.top_cycle + 1) % 4 else s.top_cycle)
      ∧ (ss_next init level s).bot_cycle
          = (if s.ss_color 1 s.bot_cycle VAL ≥ s.ss_val_bot
              then (s.bot_cycle + 1) % 4 else s.bot_cycle)
      ∧ (∀ i : Nat, i + 4 ≤ (ss_top_leads s cs).length →
          (∀ c : Nat, c < 4 → (((ss_top_leads s cs).drop i).take 4).count c = 1)
            ∧ ((((ss_top_leads s cs).drop i).take 4).map (spaceship_cycles 0)).Perm
                [5 * 3, 6 * 3, 0 * 3, 3 * 3])
      ∧ (∀ i : Nat, i + 4 ≤ (ss_bot_leads s cs).length →
          (∀ c : Nat, c < 4 → (((ss_bot_leads s cs).drop i).take 4).count c = 1)
            ∧ ((((ss_bot_leads s cs).drop i).take 4).map (spaceship_cycles 1)).Perm
                [1 * 3, 7 * 3, 4 * 3, 2 * 3]) := by
  obtain ⟨h1, h2, h3, h4⟩ := ss_reach_index s hs
  refine ⟨⟨h1, h2⟩, fun _ => rfl, ?_, ?_, ?_, ?_⟩
  · rw [ss_next_top_cycle init level s h3]
    simp [ss_top_hit]
  · rw [ss_next_bot_cycle init level s h4]
    simp [ss_bot_hit]
  · intro i hi
    obtain ⟨m, hm, hw⟩ := lead_window s.top_cycle (ss_top_leads s cs).length i hi
    rw [← ss_top_leads_eq s hs cs] at hw
    obtain ⟨a, b, -⟩ := lead_window_once _ m hm hw
    exact ⟨a, b⟩
  · intro i hi
    obtain ⟨m, hm, hw⟩ := lead_window s.bot_cycle (ss_bot_leads s cs).length i hi
    rw [← ss_bot_leads_eq s hs cs] at hw
    obtain ⟨a, -, b⟩ := lead_window_once _ m hm hw
    exact ⟨a, b⟩

theorem spaceship_ring_index_witness :
    SsReach ss_start
      ∧ ss_bot_leads ss_start
          [(false, 1), (false, 1), (false, 1), (false, 1), (false, 1), (false, 1)]
        = [2, 3, 0, 1]
      ∧ (ss_start.top_cycle < 4 ∧ ss_start.bot_cycle < 4)
      ∧ (∀ i : Nat, i + 4 ≤ (ss_bot_leads ss_start
            [(false, 1), (false, 1), (false, 1), (false, 1), (false, 1), (false, 1)]).length →
          (∀ c : Nat, c < 4 → (((ss_bot_leads ss_start
            [(false, 1), (false, 1), (false, 1), (false, 1), (false, 1), (false, 1)]).drop
              i).take 4).count c = 1)
            ∧ ((((ss_bot_leads ss_start
              [(false, 1), (false, 1), (false, 1), (false, 1), (false, 1), (false, 1)]).drop
                i).take 4).map (spaceship_cycles 1)).Perm [1 * 3, 7 * 3, 4 * 3, 2 * 3]) :=
  ⟨SsReach.start,
    by norm_num [ss_bot_leads, ss_bot_hit, ss_next, ss_advance, ss_vals, ss_hues, ss_bot,
      ss_top, ss_init, ss_start, set_color, VAL, SS_VAL_MAX],
    (spaceship_ring_index ss_start SsReach.start false 1
      [(false, 1), (false, 1), (false, 1), (false, 1), (false, 1), (false, 1)]).1,
    (spaceship_ring_index ss_start SsReach.start false 1
      [(false, 1), (false, 1), (false, 1), (false, 1), (false, 1), (false, 1)]).2.2.2.2.2⟩

/-! ## The spaceship generator: lead value and ceiling -/

/-- The `VAL` entries of the outer ring after the `// TOP CYCLE` block. -/
theorem ss_top_val (s : Ss) (h4 : s.top_cycle < 4) (hL : s.ss_color 0 s.top_cycle VAL ≤ 4000) :
    (s.ss_color 0 s.top_cycle VAL ≥ s.ss_val →
        (ss_top s).ss_color 0 s.top_cycle VAL = s.ss_color 0 s.top_cycle VAL
          ∧ (ss_top s).ss_color 0 ((s.top_cycle + 1) % 4) VAL
              = s.ss_color 0 ((s.top_cycle + 1) % 4) VAL
          ∧ (ss_top s).ss_color 0 ((s.top_cycle + 2) % 4) VAL
              = s.ss_color 0 ((s.top_cycle + 2) % 4) VAL
          ∧ (ss_top s).ss_color 0 ((s.top_cycle + 3) % 4) VAL = 0)
      ∧ (¬ s.ss_color 0 s.top_cycle VAL ≥ s.ss_val →
        (ss_top s).ss_color 0 s.top_cycle VAL = s.ss_color 0 s.top_cycle VAL + 0.004
          ∧ (ss_top s).ss_color 0 ((s.top_cycle + 1) % 4) VAL
              = s.ss_color 0 ((s.top_cycle + 1) % 4) VAL
          ∧ (ss_top s).ss_color 0 ((s.top_cycle + 2) % 4) VAL
              = s.ss_color 0 ((s.top_cycle + 2) % 4) VAL) := by
  have hcases : s.top_cycle = 0 ∨ s.top_cycle = 1 ∨ s.top_cycle = 2 ∨ s.top_cycle = 3 := by
    omega
  have hc : ¬ (s.ss_color 0 s.top_cycle VAL + 0.004 > 4095) := by
    norm_num at hL ⊢
    linarith
  constructor
  · intro h
    rcases hcases with e | e | e | e <;> rw [e] at h hL ⊢ <;>
      norm_num [ss_top, e, h, set_color]
  · intro h
    rcases hcases with e | e | e | e <;> rw [e] at h hL hc ⊢ <;>
      simp only [ss_top, e, if_neg h] <;>
      split_ifs <;> norm_num [set_color, VAL] at * <;> linarith


/-- The `VAL` entries of the inner ring after the `// BOTTOM CYCLE` block (its
clamp looks at the outer ring's lead value, which must be at most `0xFFF`). -/
theorem ss_bot_val (s : Ss) (h4 : s.bot_cycle < 4) (hT : s.ss_color 0 s.top_cycle VAL ≤ 4095) :
    (s.ss_color 1 s.bot_cycle VAL ≥ s.ss_val_bot →
        (ss_bot s).ss_color 1 s.bot_cycle VAL = s.ss_color 1 s.bot_cycle VAL
          ∧ (ss_bot s).ss_color 1 ((s.bot_cycle + 1) % 4) VAL
              = s.ss_color 1 ((s.bot_cycle + 1) % 4) VAL
          ∧ (ss_bot s).ss_color 1 ((s.bot_cycle + 2) % 4) VAL
              = s.ss_color 1 ((s.bot_cycle + 2) % 4) VAL
          ∧ (ss_bot s).ss_color 1 ((s.bot_cycle + 3) % 4) VAL = 0)
      ∧ (¬ s.ss_color 1 s.bot_cycle VAL ≥ s.ss_val_bot →
        (ss_bot s).ss_color 1 s.bot_cycle VAL = s.ss_color 1 s.bot_cycle VAL + 0.004
          ∧ (ss_bot s).ss_color 1 ((s.bot_cycle + 1) % 4) VAL
              = s.ss_color 1 ((s.bot_cycle + 1) % 4) VAL
          ∧ (ss_bot s).ss_color 1 ((s.bot_cycle + 2) % 4) VAL
              = s.ss_color 1 ((s.bot_cycle + 2) % 4) VAL) := by
  have hcases : s.bot_cycle = 0 ∨ s.bot_cycle = 1 ∨ s.bot_cycle = 2 ∨ s.bot_cycle = 3 := by
    omega
  have hc : ¬ (set_color s.ss_color 1 s.bot_cycle VAL (s.ss_color 1 s.bot_cycle VAL + 0.004)
      0 s.top_cycle VAL > 0xFFF) := by
    norm_num [set_color] at hT ⊢
    linarith
  refine ⟨?_, ?_⟩
  · intro h
    rcases hcases with e | e | e | e <;> rw [e] at h ⊢ <;>
      norm_num [ss_bot, e, h, set_color]
  · intro h
    simp only [ss_bot, if_neg h, if_neg hc]
    rcases hcases with e | e | e | e <;> rw [e] <;>
      split_ifs <;> norm_num [set_color, VAL]

/-- The `// BOTTOM CYCLE` block leaves the outer ring alone as long as the outer
lead value is at most `0xFFF`. -/
theorem ss_bot_keeps_top (s : Ss) (hT : s.ss_color 0 s.top_cycle VAL ≤ 4095) (p k : Nat) :
    (ss_bot s).ss_color 0 p k = s.ss_color 0 p k := by
  have hc : ¬ (set_color s.ss_color 1 s.bot_cycle VAL (s.ss_color 1 s.bot_cycle VAL + 0.004)
      0 s.top_cycle VAL > 0xFFF) := by
    norm_num [set_color] at hT ⊢
    linarith
  by_cases h : s.ss_color 1 s.bot_cycle VAL ≥ s.ss_val_bot
  · simp [ss_bot, h, set_color]
  · simp only [ss_bot, if_neg h, if_neg hc]
    split_ifs <;> simp [set_color]

/-- The ceiling update keeps `ss_val` in `[0,1]`, moves it by at most `0.0004`
and sets `ss_val_bot = 1 - ss_val`. -/
theorem ss_vals_range (s : Ss) (h0 : 0 ≤ s.ss_val) (h1 : s.ss_val ≤ 1)
    (hstep : s.ss_val_step = 0.0004 ∨ s.ss_val_step = -0.0004) :
    (0 ≤ (ss_vals s).ss_val ∧ (ss_vals s).ss_val ≤ 1)
      ∧ (s.ss_val - 0.0004 ≤ (ss_vals s).ss_val ∧ (ss_vals s).ss_val ≤ s.ss_val + 0.0004)
      ∧ ((ss_vals s).ss_val_step = 0.0004 ∨ (ss_vals s).ss_val_step = -0.0004)
      ∧ (ss_vals s).ss_val_bot = 1 - (ss_vals s).ss_val := by
  simp only [ss_vals]
  generalize s.ss_val_step = st at hstep ⊢
  rcases hstep with rfl | rfl <;> split_ifs with c1 c2 <;> dsimp only <;>
    refine ⟨⟨?_, ?_⟩, ⟨?_, ?_⟩, ?_, ?_⟩ <;> norm_num at * <;> linarith


theorem ss_next_color (init : Bool) (level : ℚ) (s : Ss) :
    (ss_next init level s).ss_color = (ss_bot (ss_top (ss_init init level s))).ss_color := by
  obtain ⟨-, -, -, -, u5, -⟩ := ss_hues_fields (ss_bot (ss_top (ss_init init level s)))
  obtain ⟨-, -, -, -, v5⟩ := ss_vals_fields (ss_hues (ss_bot (ss_top (ss_init init level s))))
  obtain ⟨-, -, -, -, a5, -⟩ := ss_advance_fields
    (ss_vals (ss_hues (ss_bot (ss_top (ss_init init level s)))))
  unfold ss_next
  rw [a5, v5, u5]

/-- The ceilings after a call, in terms of the ceiling `c0` the call tested. -/
theorem ss_next_vals (init : Bool) (level : ℚ) (s : Ss)
    (hc : 0 ≤ (if init then SS_VAL_MAX * level else s.ss_val)
      ∧ (if init then SS_VAL_MAX * level else s.ss_val) ≤ 1)
    (hstep : s.ss_val_step = 0.0004 ∨ s.ss_val_step = -0.0004) :
    (0 ≤ (ss_next init level s).ss_val ∧ (ss_next init level s).ss_val ≤ 1)
      ∧ ((if init then SS_VAL_MAX * level else s.ss_val) - 0.0004 ≤ (ss_next init level s).ss_val
          ∧ (ss_next init level s).ss_val
              ≤ (if init then SS_VAL_MAX * level else s.ss_val) + 0.0004)
      ∧ ((ss_next init level s).ss_val_step = 0.0004
          ∨ (ss_next init level s).ss_val_step = -0.0004)
      ∧ (ss_next init level s).ss_val_bot = 1 - (ss_next init level s).ss_val := by
  obtain ⟨-, -, -, -, -, -, i7, i8⟩ := ss_init_fields init level s
  obtain ⟨-, -, -, t4, -, t6, -, -⟩ := ss_top_fields (ss_init init level s)
  obtain ⟨-, -, -, b4, -, b6, -⟩ := ss_bot_fields (ss_top (ss_init init level s))
  obtain ⟨-, -, -, -, -, u6, -, u8⟩ := ss_hues_fields (ss_bot (ss_top (ss_init init level s)))
  obtain ⟨-, -, -, -, -, a6, a7, a8⟩ := ss_advance_fields
    (ss_vals (ss_hues (ss_bot (ss_top (ss_init init level s)))))
  have hv : (ss_hues (ss_bot (ss_top (ss_init init level s)))).ss_val
      = (if init then SS_VAL_MAX * level else s.ss_val) := by
    rw [u6, b4, t4, i8]
  have hs : (ss_hues (ss_bot (ss_top (ss_init init level s)))).ss_val_step = s.ss_val_step := by
    rw [u8, b6, t6, i7]
  have h := ss_vals_range (ss_hues (ss_bot (ss_top (ss_init init level s))))
    (by rw [hv]; exact hc.1) (by rw [hv]; exact hc.2) (by rw [hs]; exact hstep)
  rw [hv] at h
  unfold ss_next
  rw [a6, a7, a8]
  exact h

/-- The outer ring after a call, by whether its lead value reached the ceiling
`c0` that the call tested. -/
theorem ss_next_top_ring (init : Bool) (level : ℚ) (s : Ss) (h4 : s.top_cycle < 4)
    (hflag : s.top_cycle_incr = 0) (hL : s.ss_color 0 s.top_cycle VAL ≤ 4000) :
    (s.ss_color 0 s.top_cycle VAL ≥ (if init then SS_VAL_MAX * level else s.ss_val) →
        (ss_next init level s).top_cycle = (s.top_cycle + 1) % 4
          ∧ (ss_next init level s).ss_color 0 ((s.top_cycle + 1) % 4) VAL
              = s.ss_color 0 ((s.top_cycle + 1) % 4) VAL
          ∧ (ss_next init level s).ss_color 0 ((s.top_cycle + 2) % 4) VAL
              = s.ss_color 0 ((s.top_cycle + 2) % 4) VAL
          ∧ (ss_next init level s).ss_color 0 ((s.top_cycle + 3) % 4) VAL = 0)
      ∧ (¬ s.ss_color 0 s.top_cycle VAL ≥ (if init then SS_VAL_MAX * level else s.ss_val) →
        (ss_next init level s).top_cycle = s.top_cycle
          ∧ (ss_next init level s).ss_color 0 s.top_cycle VAL
              = s.ss_color 0 s.top_cycle VAL + 0.004
          ∧ (ss_next init level s).ss_color 0 ((s.top_cycle + 1) % 4) VAL
              = s.ss_color 0 ((s.top_cycle + 1) % 4) VAL
          ∧ (ss_next init level s).ss_color 0 ((s.top_cycle + 2) % 4) VAL
              = s.ss_color 0 ((s.top_cycle + 2) % 4) VAL) := by
  obtain ⟨i1, -, -, -, i5, -, -, i8⟩ := ss_init_fields init level s
  obtain ⟨t1, -⟩ := ss_top_fields (ss_init init level s)
  have htop := ss_top_val (ss_init init level s) (by rw [i1]; exact h4)
    (by rw [i1, i5]; exact hL)
  rw [i1, i5, i8] at htop
  have hcyc := ss_next_top_cycle init level s hflag
  have hcol := ss_next_color init level s
  constructor
  · intro h
    obtain ⟨a0, a1, a2, a3⟩ := htop.1 h
    have hT : (ss_top (ss_init init level s)).ss_color 0
        (ss_top (ss_init init level s)).top_cycle VAL ≤ 4095 := by
      rw [t1, i1, a0]; linarith
    have keep := ss_bot_keeps_top (ss_top (ss_init init level s)) hT
    rw [hcol, keep, keep, keep, a1, a2, a3, hcyc]
    refine ⟨?_, rfl, rfl, rfl⟩
    simp [ss_top_hit, h]
  · intro h
    obtain ⟨a0, a1, a2⟩ := htop.2 h
    have hT : (ss_top (ss_init init level s)).ss_color 0
        (ss_top (ss_init init level s)).top_cycle VAL ≤ 4095 := by
      rw [t1, i1, a0]; norm_num at hL ⊢; linarith
    have keep := ss_bot_keeps_top (ss_top (ss_init init level s)) hT
    rw [hcol, keep, keep, keep, a0, a1, a2, hcyc]
    refine ⟨?_, rfl, rfl, rfl⟩
    simp [ss_top_hit, h]

/-- The inner ring after a call, by whether its lead value reached `ss_val_bot`. -/
theorem ss_next_bot_ring (init : Bool) (level : ℚ) (s : Ss) (h4 : s.top_cycle < 4)
    (hb4 : s.bot_cycle < 4) (hflag : s.bot_cycle_incr = 0)
    (hL : s.ss_color 0 s.top_cycle VAL ≤ 4000) :
    (s.ss_color 1 s.bot_cycle VAL ≥ s.ss_val_bot →
        (ss_next init level s).bot_cycle = (s.bot_cycle + 1) % 4
          ∧ (ss_next init level s).ss_color 1 ((s.bot_cycle + 1) % 4) VAL
              = s.ss_color 1 ((s.bot_cycle + 1) % 4) VAL
          ∧ (ss_next init level s).ss_color 1 ((s.bot_cycle + 2) % 4) VAL
              = s.ss_color 1 ((s.bot_cycle + 2) % 4) VAL
          ∧ (ss_next init level s).ss_color 1 ((s.bot_cycle + 3) % 4) VAL = 0)
      ∧ (¬ s.ss_color 1 s.bot_cycle VAL ≥ s.ss_val_bot →
        (ss_next init level s).bot_cycle = s.bot_cycle
          ∧ (ss_next init level s).ss_color 1 s.bot_cycle VAL
              = s.ss_color 1 s.bot_cycle VAL + 0.004
          ∧ (ss_next init level s).ss_color 1 ((s.bot_cycle + 1) % 4) VAL
              = s.ss_color 1 ((s.bot_cycle + 1) % 4) VAL
          ∧ (ss_next init level s).ss_color 1 ((s.bot_cycle + 2) % 4) VAL
              = s.ss_color 1 ((s.bot_cycle + 2) % 4) VAL) := by
  obtain ⟨i1, i2, -, -, i5, i6, -, i8⟩ := ss_init_fields init level s
  obtain ⟨t1, t2, -, -, t5, -, -, t8⟩ := ss_top_fields (ss_init init level s)
  have htop := ss_top_val (ss_init init level s) (by rw [i1]; exact h4)
    (by rw [i1, i5]; exact hL)
  rw [i1, i5, i8] at htop
  have hT : (ss_top (ss_init init level s)).ss_color 0
      (ss_top (ss_init init level s)).top_cycle VAL ≤ 4095 := by
    rw [t1, i1]
    by_cases h : s.ss_color 0 s.top_cycle VAL ≥ (if init then SS_VAL_MAX * level else s.ss_val)
    · rw [(htop.1 h).1]; linarith
    · rw [(htop.2 h).1]; norm_num at hL ⊢; linarith
  have hbot := ss_bot_val (ss_top (ss_init init level s)) (by rw [t2, i2]; exact hb4) hT
  simp only [t2, t5, t8, i2, i5, i6] at hbot
  have hcyc := ss_next_bot_cycle init level s hflag
  have hcol := ss_next_color init level s
  constructor
  · intro h
    obtain ⟨-, a1, a2, a3⟩ := hbot.1 h
    rw [hcol, a1, a2, a3, hcyc]
    refine ⟨?_, rfl, rfl, rfl⟩
    simp [ss_bot_hit, h]
  · intro h
    obtain ⟨a0, a1, a2⟩ := hbot.2 h
    rw [hcol, a0, a1, a2, hcyc]
    refine ⟨?_, rfl, rfl, rfl⟩
    simp [ss_bot_hit, h]

theorem ss_start_inv : SsInv ss_start := by
  norm_num [SsInv, ss_start, VAL]

/-- A call keeps the invariant; a call with `init` is required to have its
level in `[0,1]` and to find the inner lead value at its ceiling (as it is at
program start). -/
theorem ss_next_inv (init : Bool) (level : ℚ) (s : Ss) (hs : SsInv s)
    (hinit : init = true →
      (0 ≤ level ∧ level ≤ 1) ∧ s.ss_color 1 s.bot_cycle VAL ≥ s.ss_val_bot) :
    SsInv (ss_next init level s) := by
  obtain ⟨⟨h4, hb4, hf, hbf⟩, ⟨hv0, hv1, hvb⟩, hstep, ⟨z1, z2⟩, ⟨y1, y2⟩, hLt, hLb⟩ := hs
  have hL : s.ss_color 0 s.top_cycle VAL ≤ 4000 := by
    norm_num at hLt ⊢
    linarith
  have hc : 0 ≤ (if init then SS_VAL_MAX * level else s.ss_val)
      ∧ (if init then SS_VAL_MAX * level else s.ss_val) ≤ 1 := by
    cases init with
    | false => exact ⟨hv0, hv1⟩
    | true =>
      obtain ⟨⟨l0, l1⟩, -⟩ := hinit rfl
      norm_num [SS_VAL_MAX]
      exact ⟨l0, l1⟩
  obtain ⟨⟨n0, n1⟩, ⟨nlo, nhi⟩, nstep, nvb⟩ := ss_next_vals init level s hc hstep
  obtain ⟨fi1, fi2⟩ := ss_next_incr init level s
  have htop := ss_next_top_ring init level s h4 hf hL
  have hbot := ss_next_bot_ring init level s h4 hb4 hbf hL
  have e12 : ((s.top_cycle + 1) % 4 + 1) % 4 = (s.top_cycle + 2) % 4 := by omega
  have e13 : ((s.top_cycle + 1) % 4 + 2) % 4 = (s.top_cycle + 3) % 4 := by omega
  have b12 : ((s.bot_cycle + 1) % 4 + 1) % 4 = (s.bot_cycle + 2) % 4 := by omega
  have b13 : ((s.bot_cycle + 1) % 4 + 2) % 4 = (s.bot_cycle + 3) % 4 := by omega
  have topfacts : (ss_next init level s).top_cycle < 4
      ∧ (ss_next init level s).ss_color 0 (((ss_next init level s).top_cycle + 1) % 4) VAL = 0
      ∧ (ss_next init level s).ss_color 0 (((ss_next init level s).top_cycle + 2) % 4) VAL = 0
      ∧ (ss_next init level s).ss_color 0 (ss_next init level s).top_cycle VAL
          < (ss_next init level s).ss_val + 0.0044 := by
    by_cases h : s.ss_color 0 s.top_cycle VAL ≥ (if init then SS_VAL_MAX * level else s.ss_val)
    · obtain ⟨c, a1, a2, a3⟩ := htop.1 h
      rw [c, e12, e13, a1, a2, a3, z1, z2]
      refine ⟨by omega, rfl, rfl, ?_⟩
      norm_num
      linarith
    · obtain ⟨c, a0, a1, a2⟩ := htop.2 h
      rw [c, a0, a1, a2, z1, z2]
      refine ⟨h4, rfl, rfl, ?_⟩
      norm_num at h nlo ⊢
      linarith
  have botfacts : (ss_next init level s).bot_cycle < 4
      ∧ (ss_next init level s).ss_color 1 (((ss_next init level s).bot_cycle + 1) % 4) VAL = 0
      ∧ (ss_next init level s).ss_color 1 (((ss_next init level s).bot_cycle + 2) % 4) VAL = 0
      ∧ (ss_next init level s).ss_color 1 (ss_next init level s).bot_cycle VAL
          < (ss_next init level s).ss_val_bot + 0.0044 := by
    by_cases h : s.ss_color 1 s.bot_cycle VAL ≥ s.ss_val_bot
    · obtain ⟨c, a1, a2, a3⟩ := hbot.1 h
      rw [c, b12, b13, a1, a2, a3, y1, y2, nvb]
      refine ⟨by omega, rfl, rfl, ?_⟩
      norm_num
      linarith
    · obtain ⟨c, a0, a1, a2⟩ := hbot.2 h
      have hni : init = false := by
        cases init with
        | false => rfl
        | true => exact absurd (hinit rfl).2 h
      subst hni
      rw [c, a0, a1, a2, y1, y2, nvb]
      refine ⟨hb4, rfl, rfl, ?_⟩
      simp only [Bool.false_eq_true, if_false] at nhi
      norm_num at h nhi ⊢
      linarith
  obtain ⟨q1, q2, q3, q4⟩ := topfacts
  obtain ⟨r1, r2, r3, r4⟩ := botfacts
  exact ⟨⟨q1, r1, fi1, fi2⟩, ⟨n0, n1, nvb⟩, nstep, ⟨q2, q3⟩, ⟨r2, r3⟩, q4, r4⟩

theorem ss_run_steps_inv (ls : List ℚ) :
    ∀ s : Ss, SsInv s → SsInv (ss_run s (ls.map (fun l => (false, l)))) := by
  induction ls with
  | nil => intro s hs; exact hs
  | cons l ls ih =>
    intro s hs
    exact ih _ (ss_next_inv false l s hs (fun h => absurd h (by decide)))

/-- C9, counterexample.  From program start, after the call with `init = 1`
and level `1.0` and two further steps, the inner ring's lead channel holds the
value `0.004`, above the ring's ceiling `ss_val_bot = 0.0008`. -/
theorem spaceship_lead_exceeds_ceiling :
    ((0 : ℚ) < 1 ∧ (1 : ℚ) ≤ 1)
      ∧ (ss_run ss_start [(true, 1), (false, 1), (false, 1)]).bot_cycle = 0
      ∧ (ss_run ss_start [(true, 1), (false, 1), (false, 1)]).ss_color 1 0 VAL = 0.004
      ∧ (ss_run ss_start [(true, 1), (false, 1), (false, 1)]).ss_val_bot = 0.0008
      ∧ ¬ ((ss_run ss_start [(true, 1), (false, 1), (false, 1)]).ss_color 1
            (ss_run ss_start [(true, 1), (false, 1), (false, 1)]).bot_cycle VAL
          ≤ (ss_run ss_start [(true, 1), (false, 1), (false, 1)]).ss_val_bot) := by
  norm_num [ss_run, ss_next, ss_advance, ss_vals, ss_hues, ss_bot, ss_top, ss_init, ss_start,
    set_color, VAL, SS_VAL_MAX]

/-- C9, amended.  When `spaceship_prog` is initialised from the program-start
state with a level in `(0,1]` and then stepped any number of times, each ring's
lead value stays below the ring's ceiling plus `0.0044` (one value step `0.004`
and one ceiling step `0.0004`): `ss_val` for the outer ring and `ss_val_bot` for
the inner ring. -/
theorem spaceship_lead_near_ceiling (level : ℚ) (hl : 0 < level ∧ level ≤ 1) (ls : List ℚ) :
    (∀ (init : Bool) (lv : ℚ) (s : Ss) (hw : Hw),
        (spaceship_prog init lv s hw).1 = ss_next init lv s)
      ∧ (ss_run ss_start ((true, level) :: ls.map (fun l => (false, l)))).ss_color 0
            (ss_run ss_start ((true, level) :: ls.map (fun l => (false, l)))).top_cycle VAL
          < (ss_run ss_start ((true, level) :: ls.map (fun l => (false, l)))).ss_val + 0.0044
      ∧ (ss_run ss_start ((true, level) :: ls.map (fun l => (false, l)))).ss_color 1
            (ss_run ss_start ((true, level) :: ls.map (fun l => (false, l)))).bot_cycle VAL
          < (ss_run ss_start ((true, level) :: ls.map (fun l => (false, l)))).ss_val_bot
              + 0.0044 := by
  have h1 : SsInv (ss_next true level ss_start) :=
    ss_next_inv true level ss_start ss_start_inv
      (fun _ => ⟨⟨le_of_lt hl.1, hl.2⟩, by norm_num [ss_start, VAL]⟩)
  have h2 := ss_run_steps_inv ls _ h1
  exact ⟨fun _ _ _ _ => rfl, h2.2.2.2.2.2.1, h2.2.2.2.2.2.2⟩

theorem spaceship_lead_near_ceiling_witness :
    ((0 : ℚ) < 1 ∧ (1 : ℚ) ≤ 1)
      ∧ (ss_run ss_start ((true, 1) :: [1, 1].map (fun l => (false, l)))).ss_color 1
            (ss_run ss_start ((true, 1) :: [1, 1].map (fun l => (false, l)))).bot_cycle VAL
          < (ss_run ss_start ((true, 1) :: [1, 1].map (fun l => (false, l)))).ss_val_bot
              + 0.0044 :=
  ⟨by norm_num, (spaceship_lead_near_ceiling 1 (by norm_num) [1, 1]).2.2⟩

/-! ## The ornament generator: one breathing cycle -/

/-- What `xball_paint` leaves in the cells of the set it paints. -/
theorem xball_paint_at (d : Nat → Nat) (set r g b x : Nat) (hs : set < 2) (hx : x < 4) :
    xball_paint d set r g b (xmas_ball_sets set x) = b
      ∧ xball_paint d set r g b (xmas_ball_sets set x + 1) = r
      ∧ xball_paint d set r g b (xmas_ball_sets set x + 2) = g := by
  interval_cases set <;> interval_cases x <;>
    simp [xball_paint, xmas_ball_sets, SET_IDX, List.range_succ, Function.update]

/-- `xball_paint` leaves the cells of the other set alone. -/
theorem xball_paint_other (d : Nat → Nat) (set r g b x k : Nat) (hs : set < 2) (hx : x < 4)
    (hk : k < 3) :
    xball_paint d set r g b (xmas_ball_sets ((set + 1) % 2) x + k)
      = d (xmas_ball_sets ((set + 1) % 2) x + k) := by
  interval_cases set <;> interval_cases x <;> interval_cases k <;>
    simp [xball_paint, xmas_ball_sets, SET_IDX, List.range_succ, Function.update]

/-- What the loop of the third phase leaves in the cells of both sets. -/
theorem xball_paint_both_at (d : Nat → Nat) (s : XBall) (x : Nat) (hs : s.xball_light_set < 2)
    (hx : x < 4) :
    (xball_paint_both d s (xmas_ball_sets s.xball_light_set x) = s.xball_light_level 2
      ∧ xball_paint_both d s (xmas_ball_sets s.xball_light_set x + 1) = s.xball_light_level 0
      ∧ xball_paint_both d s (xmas_ball_sets s.xball_light_set x + 2) = s.xball_light_level 1)
      ∧ ∀ k : Nat, k < 3 →
          xball_paint_both d s (xmas_ball_sets ((s.xball_light_set + 1) % 2) x + k)
            = s.xball_white_level := by
  have hcases : s.xball_light_set = 0 ∨ s.xball_light_set = 1 := by omega
  rcases hcases with e | e <;> rw [e] <;> interval_cases x <;>
    refine ⟨?_, fun k hk => ?_⟩ <;> (try interval_cases k) <;>
    simp [xball_paint_both, e, xmas_ball_sets, SET_IDX, List.range_succ, Function.update]

/-- The two sets cover the whole frame buffer. -/
theorem xmas_ball_sets_cover (i : Nat) (hi : i < 24) :
    ∃ set x k : Nat, set < 2 ∧ x < 4 ∧ k < 3 ∧ i = xmas_ball_sets set x + k := by
  have h : ∀ j : Fin 24, ∃ set x k : Fin 4,
      set.val < 2 ∧ k.val < 3 ∧ j.val = xmas_ball_sets set.val x.val + k.val := by
    decide
  obtain ⟨set, x, k, h1, h2, h3⟩ := h ⟨i, hi⟩
  exact ⟨set.val, x.val, k.val, h1, x.isLt, h2, h3⟩
/-- A step of the first phase raises the level of the active colour by one and
moves on to the second phase once the level is above the maximum. -/
theorem xball_step_phase1 (s : XBall) (d : Nat → Nat) (set c M k : Nat) (hM : M < 65535)
    (hk : k ≤ M) (h : XAt s 0 set c M k 0) :
    XAt (xball_step s d).1 (if k + 1 ≤ M then 0 else 1) set c M (k + 1) 0 := by
  obtain ⟨h1, h2, h3, h4, h5, h6, h7, h8⟩ := h
  have hm : (k + 1) % 65536 = k + 1 := by omega
  have hrest : ∀ i : Nat, i < 3 → i ≠ c →
      Function.update s.xball_light_level c (k + 1) i = 0 := by
    intro i hi hne
    rw [Function.update_noteq hne]
    exact h6 i hi hne
  by_cases hc : k + 1 ≤ M
  · have : ¬ (M < k + 1) := by omega
    simp [XAt, xball_step, h1, h2, h3, h4, h5, h7, h8, hm, hc, this]
    exact hrest
  · have : M < k + 1 := by omega
    simp [XAt, xball_step, h1, h2, h3, h4, h5, h7, h8, hm, hc, this]
    exact hrest

/-- A step of the second phase raises the white level by one and moves on to the
third phase once it is above the maximum. -/
theorem xball_step_phase2 (s : XBall) (d : Nat → Nat) (set c M lvl w : Nat) (hM : M < 65535)
    (hw : w ≤ M) (h : XAt s 1 set c M lvl w) :
    XAt (xball_step s d).1 (if w + 1 ≤ M then 1 else 2) set c M lvl (w + 1) := by
  obtain ⟨h1, h2, h3, h4, h5, h6, h7, h8⟩ := h
  have hm : (w + 1) % 65536 = w + 1 := by omega
  by_cases hc : w + 1 ≤ M
  · have : ¬ (M < w + 1) := by omega
    simp [XAt, xball_step, h1, h2, h3, h4, h5, h7, h8, hm, hc, this]
    exact h6
  · have : M < w + 1 := by omega
    simp [XAt, xball_step, h1, h2, h3, h4, h5, h7, h8, hm, hc, this]
    exact h6

/-- The third phase without the two tests `< 0.0`, which an unsigned level
never passes. -/
theorem xball_step_phase3_eq (s : XBall) (d : Nat → Nat) (h0 : s.xball_phase ≠ 0)
    (h1 : s.xball_phase ≠ 1) :
    xball_step s d
      = (if sub16 (s.xball_light_level s.xball_light_color) ((s.xball_light_step * 4) % 65536) = 0
            ∧ sub16 s.xball_white_level ((s.xball_light_step * 4) % 65536) = 0 then
          ({ s with
              xball_light_level := fun _ => 0
              xball_light_set := (s.xball_light_set + 1) % 2
              xball_light_color := (s.xball_light_color + 1) % 3
              xball_white_level := 0
              xball_phase := 0 },
            xball_paint (xball_paint_both d s) s.xball_light_set 0x000 0x000 0x000)
        else
          ({ s with
              xball_light_level := Function.update s.xball_light_level s.xball_light_color
                (sub16 (s.xball_light_level s.xball_light_color)
                  ((s.xball_light_step * 4) % 65536))
              xball_white_level := sub16 s.xball_white_level
                ((s.xball_light_step * 4) % 65536) },
            xball_paint_both d s)) := by
  have hq : ∀ n : Nat, ¬ ((n : ℚ) < 0) := fun n => not_lt.mpr (Nat.cast_nonneg n)
  simp only [xball_step, if_neg h0, if_neg h1, Function.update_same, if_neg (hq _)]

/-- A step of the third phase that does not reach zero lowers both levels by 4. -/
theorem xball_step_phase3 (s : XBall) (d : Nat → Nat) (set c M j : Nat) (hj : 0 < j)
    (hj' : 4 * j + 4 < 65536) (h : XAt s 2 set c M (4 * j + 4) (4 * j + 4)) :
    XAt (xball_step s d).1 2 set c M (4 * j) (4 * j) := by
  obtain ⟨h1, rfl, rfl, rfl, h5, h6, h7, h8⟩ := h
  have hsub : sub16 (4 * j + 4) 4 = 4 * j := by
    unfold sub16
    omega
  have hcond : ¬ (sub16 (s.xball_light_level s.xball_light_color)
        ((s.xball_light_step * 4) % 65536) = 0
      ∧ sub16 s.xball_white_level ((s.xball_light_step * 4) % 65536) = 0) := by
    rw [h5, h8, hsub]
    omega
  rw [xball_step_phase3_eq s d (by omega) (by omega), if_neg hcond]
  refine ⟨h1, rfl, rfl, rfl, ?_, ?_, ?_, h8⟩
  · show Function.update s.xball_light_level s.xball_light_color _ s.xball_light_color = _
    rw [Function.update_same, h5, h8, hsub]
  · intro i hi hn
    show Function.update s.xball_light_level s.xball_light_color _ i = 0
    rw [Function.update_noteq hn]
    exact h6 i hi hn
  · show sub16 s.xball_white_level _ = _
    rw [h7, h8, hsub]

/-- The last step of the third phase: both levels fall from 4 to 0, the active
set is cleared in the frame buffer, and the set and the colour advance.  The
cells of the other set keep the white level 4 that the step has just written. -/
theorem xball_step_last (s : XBall) (d : Nat → Nat) (set c M : Nat) (hs : set < 2)
    (h : XAt s 2 set c M 4 4) :
    XAt (xball_step s d).1 0 ((set + 1) % 2) ((c + 1) % 3) M 0 0
      ∧ (∀ i : Nat, (xball_step s d).1.xball_light_level i = 0)
      ∧ (∀ x k : Nat, x < 4 → k < 3 →
          (xball_step s d).2 (xmas_ball_sets set x + k) = 0
            ∧ (xball_step s d).2 (xmas_ball_sets ((set + 1) % 2) x + k) = 4) := by
  obtain ⟨h1, rfl, rfl, rfl, h5, h6, h7, h8⟩ := h
  have hsub : sub16 4 4 = 0 := by decide
  have hcond : sub16 (s.xball_light_level s.xball_light_color)
        ((s.xball_light_step * 4) % 65536) = 0
      ∧ sub16 s.xball_white_level ((s.xball_light_step * 4) % 65536) = 0 := by
    rw [h5, h7, h8]
    exact ⟨hsub, hsub⟩
  rw [xball_step_phase3_eq s d (by omega) (by omega), if_pos hcond]
  refine ⟨⟨rfl, rfl, rfl, rfl, rfl, fun _ _ _ => rfl, rfl, h8⟩, fun _ => rfl, ?_⟩
  intro x k hx hk
  obtain ⟨a0, a1, a2⟩ := xball_paint_at (xball_paint_both d s) s.xball_light_set 0 0 0 x hs hx
  have b := xball_paint_other (xball_paint_both d s) s.xball_light_set 0 0 0 x k hs hx hk
  have c := (xball_paint_both_at d s x hs hx).2 k hk
  rw [h7] at c
  show xball_paint (xball_paint_both d s) s.xball_light_set 0 0 0 _ = 0
    ∧ xball_paint (xball_paint_both d s) s.xball_light_set 0 0 0 _ = 4
  rw [b, c]
  refine ⟨?_, rfl⟩
  interval_cases k
  · exact a0
  · exact a1
  · exact a2
theorem xmas_ball_run_add (level : ℚ) (a b : Nat) (st : XBall × Hw) :
    xmas_ball_run level (a + b) st = xmas_ball_run level b (xmas_ball_run level a st) := by
  induction b with
  | zero => rfl
  | succ b ih =>
    show xmas_ball_prog false level (xmas_ball_run level (a + b) st).1
        (xmas_ball_run level (a + b) st).2 = _
    rw [ih]
    rfl

theorem xmas_ball_run_data (level : ℚ) (n : Nat) (st : XBall × Hw) :
    (xmas_ball_run level (n + 1) st).2.data
      = (xball_step (xmas_ball_run level n st).1 (xmas_ball_run level n st).2.data).2 := rfl

/-- The first phase, `M + 1` steps: the level of the active colour climbs from 0
to `M + 1`. -/
theorem xmas_ball_phase1 (level : ℚ) (st : XBall × Hw) (set c M : Nat) (hM : M < 65535)
    (h : XAt st.1 0 set c M 0 0) :
    XAt (xmas_ball_run level (M + 1) st).1 1 set c M (M + 1) 0 := by
  have climb : ∀ k : Nat, k ≤ M → XAt (xmas_ball_run level k st).1 0 set c M k 0 := by
    intro k
    induction k with
    | zero => intro _; exact h
    | succ k ih =>
      intro hk
      rw [xmas_ball_run_succ]
      have := xball_step_phase1 _ (xmas_ball_run level k st).2.data set c M k hM (by omega)
        (ih (by omega))
      rwa [if_pos hk] at this
  rw [xmas_ball_run_succ]
  have := xball_step_phase1 _ (xmas_ball_run level M st).2.data set c M M hM (le_refl M)
    (climb M (le_refl M))
  rwa [if_neg (by omega)] at this

/-- The second phase, `M + 1` steps: the white level climbs from 0 to `M + 1`. -/
theorem xmas_ball_phase2 (level : ℚ) (st : XBall × Hw) (set c M lvl : Nat) (hM : M < 65535)
    (h : XAt st.1 1 set c M lvl 0) :
    XAt (xmas_ball_run level (M + 1) st).1 2 set c M lvl (M + 1) := by
  have climb : ∀ w : Nat, w ≤ M → XAt (xmas_ball_run level w st).1 1 set c M lvl w := by
    intro w
    induction w with
    | zero => intro _; exact h
    | succ w ih =>
      intro hw
      rw [xmas_ball_run_succ]
      have := xball_step_phase2 _ (xmas_ball_run level w st).2.data set c M lvl w hM
        (by omega) (ih (by omega))
      rwa [if_pos hw] at this
  rw [xmas_ball_run_succ]
  have := xball_step_phase2 _ (xmas_ball_run level M st).2.data set c M lvl M hM (le_refl M)
    (climb M (le_refl M))
  rwa [if_neg (by omega)] at this

/-- The third phase up to its last step: after `j < q` steps both levels are
`4 (q - j)`. -/
theorem xmas_ball_phase3 (level : ℚ) (st : XBall × Hw) (set c M q : Nat)
    (hq : 4 * q < 65536) (h : XAt st.1 2 set c M (4 * q) (4 * q)) :
    ∀ j : Nat, j < q →
      XAt (xmas_ball_run level j st).1 2 set c M (4 * (q - j)) (4 * (q - j)) := by
  intro j
  induction j with
  | zero => intro _; exact h
  | succ j ih =>
    intro hj
    rw [xmas_ball_run_succ]
    have hprev := ih (by omega)
    have e : 4 * (q - j) = 4 * (q - (j + 1)) + 4 := by omega
    rw [e] at hprev
    exact xball_step_phase3 _ _ set c M (q - (j + 1)) (by omega) (by omega) hprev

/-- One whole cycle from the start of the first phase, `9 q` steps for a maximum
`M = 4 q - 1`: the generator is at the start of the first phase again, with the
set and the colour advanced and all levels 0; in the frame buffer the cells of
the set that was active are 0 and the cells of the other set hold 4. -/
theorem xmas_ball_cycle_run (level : ℚ) (st : XBall × Hw) (set c M q N : Nat) (hs : set < 2)
    (hq : M + 1 = 4 * q) (hM : M < 65535) (hN : N = 9 * q)
    (h : XAt st.1 0 set c M 0 0) :
    XAt (xmas_ball_run level N st).1 0 ((set + 1) % 2) ((c + 1) % 3) M 0 0
      ∧ (∀ i : Nat, (xmas_ball_run level N st).1.xball_light_level i = 0)
      ∧ (∀ x k : Nat, x < 4 → k < 3 →
          (xmas_ball_run level N st).2.data (xmas_ball_sets set x + k) = 0
            ∧ (xmas_ball_run level N st).2.data (xmas_ball_sets ((set + 1) % 2) x + k) = 4) := by
  have e : N = (M + 1) + ((M + 1) + ((q - 1) + 1)) := by omega
  rw [e, xmas_ball_run_add, xmas_ball_run_add, xmas_ball_run_add]
  have p1 := xmas_ball_phase1 level st set c M hM h
  have p2 := xmas_ball_phase2 level _ set c M (M + 1) hM p1
  rw [hq] at p2
  have p3 := xmas_ball_phase3 level _ set c M q (by omega) p2 (q - 1) (by omega)
  have e4 : 4 * (q - (q - 1)) = 4 := by omega
  rw [e4, ← hq] at p3
  obtain ⟨a, b, d⟩ := xball_step_last _
    (xmas_ball_run level (q - 1) (xmas_ball_run level (M + 1)
      (xmas_ball_run level (M + 1) st))).2.data set c M hs p3
  exact ⟨a, b, d⟩
theorem xball_step_phase1_data (s : XBall) (d : Nat → Nat) (h : s.xball_phase = 0) :
    (xball_step s d).2
      = xball_paint d s.xball_light_set (s.xball_light_level 0) (s.xball_light_level 1)
          (s.xball_light_level 2) := by
  simp only [xball_step, if_pos h]

/-- The step after a completed cycle paints the new active set with the level 0,
so the whole frame buffer is 0. -/
theorem xball_step_after_cycle (s : XBall) (d : Nat → Nat) (set : Nat) (hs : set < 2)
    (hphase : s.xball_phase = 0) (hset : s.xball_light_set = (set + 1) % 2)
    (hlev : ∀ i : Nat, s.xball_light_level i = 0)
    (hd : ∀ x k : Nat, x < 4 → k < 3 → d (xmas_ball_sets set x + k) = 0) :
    ∀ i : Nat, i < 24 → (xball_step s d).2 i = 0 := by
  intro i hi
  rw [xball_step_phase1_data s d hphase, hset, hlev 0, hlev 1, hlev 2]
  obtain ⟨t, x, k, ht, hx, hk, rfl⟩ := xmas_ball_sets_cover i hi
  have hs' : (set + 1) % 2 < 2 := Nat.mod_lt _ (by decide)
  have hback : ((set + 1) % 2 + 1) % 2 = set := by omega
  by_cases e : t = set
  · subst e
    have := xball_paint_other d ((t + 1) % 2) 0 0 0 x k hs' hx hk
    rw [hback] at this
    rw [this]
    exact hd x k hx hk
  · have e' : t = (set + 1) % 2 := by omega
    subst e'
    obtain ⟨a0, a1, a2⟩ := xball_paint_at d ((set + 1) % 2) 0 0 0 x hs' hx
    interval_cases k
    · exact a0
    · exact a1
    · exact a2

theorem toU16_light_limit :
    toU16 (XBALL_LIGHT_LIMIT * 1) = 4095 ∧ toU16 (XBALL_LIGHT_LIMIT * (1 / 2)) = 2047 := by
  constructor
  · norm_num [toU16, truncQ, XBALL_LIGHT_LIMIT]
    rfl
  · norm_num [toU16, truncQ, XBALL_LIGHT_LIMIT]
    rfl

/-- C11, counterexample.  From the start of the first phase at program start
(set 0, colour 0, level 1.0), 9216 steps take the generator through the three
phases to the start of the first phase again, with set 1 and colour 1; there the
frame-buffer cell `data[0]`, on a channel that carried the white overlay, reads 4,
not 0. -/
theorem xmas_ball_overlay_not_zero :
    (xball_start.xball_phase = 0 ∧ xball_start.xball_light_set = 0
        ∧ xball_start.xball_light_color = 0
        ∧ xball_start.xball_light_max = toU16 (XBALL_LIGHT_LIMIT * 1))
      ∧ ((xmas_ball_run 1 9216 (xball_start, hw_start)).1.xball_phase = 0
        ∧ (xmas_ball_run 1 9216 (xball_start, hw_start)).1.xball_light_set = 1
        ∧ (xmas_ball_run 1 9216 (xball_start, hw_start)).1.xball_light_color = 1)
      ∧ xmas_ball_sets 1 0 = 0
      ∧ (xmas_ball_run 1 9216 (xball_start, hw_start)).2.data 0 = 4 := by
  have h0 : XAt (xball_start, hw_start).1 0 0 0 4095 0 0 :=
    ⟨rfl, rfl, rfl, rfl, rfl, fun _ _ _ => rfl, rfl, rfl⟩
  have hstart : xball_start.xball_phase = 0 ∧ xball_start.xball_light_set = 0
      ∧ xball_start.xball_light_color = 0
      ∧ xball_start.xball_light_max = toU16 (XBALL_LIGHT_LIMIT * 1) :=
    ⟨rfl, rfl, rfl, toU16_light_limit.1.symm⟩
  have hcell : xmas_ball_sets 1 0 = 0 := by decide
  have h04 : (0 : Nat) < 4 := by decide
  have h03 : (0 : Nat) < 3 := by decide
  have e2 : (0 + 1) % 2 = 1 := by decide
  have e3 : (0 + 1) % 3 = 1 := by decide
  have hidx : xmas_ball_sets ((0 + 1) % 2) 0 + 0 = 0 := by decide
  have hrun := xmas_ball_cycle_run 1 (xball_start, hw_start) 0 0 4095 1024 9216 (by decide)
    (by decide) (by decide) (by decide) h0
  obtain ⟨⟨a1, a2, a3, -⟩, -, d⟩ := hrun
  have hd := (d 0 0 h04 h03).2
  rw [hidx] at hd
  exact ⟨hstart, ⟨a1, a2.trans e2, a3.trans e3⟩, hcell, hd⟩

/-- C11, amended.  For either brightness level, any active set and any colour
index: from a state at the start of the first phase (all levels 0, step 1,
maximum as `init` sets it for the level), `9 * ((xball_light_max + 1) / 4)` steps
of `xmas_ball_prog` lead to a state at the start of the first phase in which
all colour levels and the white level are 0, the set has advanced by one modulo
2 and the colour by one modulo 3.  In the frame buffer the four channels of the
set that was active read 0, while the four channels that carried the white
overlay still hold the last white level written, 4; after one more step all 24
components read 0. -/
theorem xmas_ball_cycle (level : ℚ) (hl : level = 1 ∨ level = 1 / 2) (s : XBall) (hw : Hw)
    (hphase : s.xball_phase = 0) (hlev : ∀ i : Nat, i < 3 → s.xball_light_level i = 0)
    (hwhite : s.xball_white_level = 0) (hstep : s.xball_light_step = 1)
    (hmax : s.xball_light_max = toU16 (XBALL_LIGHT_LIMIT * level))
    (hset : s.xball_light_set < 2) (hcol : s.xball_light_color < 3) :
    0 < 9 * ((s.xball_light_max + 1) / 4)
      ∧ (xmas_ball_run level (9 * ((s.xball_light_max + 1) / 4)) (s, hw)).1.xball_phase = 0
      ∧ (∀ i : Nat,
          (xmas_ball_run level (9 * ((s.xball_light_max + 1) / 4)) (s, hw)).1.xball_light_level
            i = 0)
      ∧ (xmas_ball_run level (9 * ((s.xball_light_max + 1) / 4)) (s, hw)).1.xball_white_level
          = 0
      ∧ (xmas_ball_run level (9 * ((s.xball_light_max + 1) / 4)) (s, hw)).1.xball_light_set
          = (s.xball_light_set + 1) % 2
      ∧ (xmas_ball_run level (9 * ((s.xball_light_max + 1) / 4)) (s, hw)).1.xball_light_color
          = (s.xball_light_color + 1) % 3
      ∧ (∀ x k : Nat, x < 4 → k < 3 →
          (xmas_ball_run level (9 * ((s.xball_light_max + 1) / 4)) (s, hw)).2.data
              (xmas_ball_sets s.xball_light_set x + k) = 0
            ∧ (xmas_ball_run level (9 * ((s.xball_light_max + 1) / 4)) (s, hw)).2.data
              (xmas_ball_sets ((s.xball_light_set + 1) % 2) x + k) = 4)
      ∧ (∀ i : Nat, i < 24 →
          (xmas_ball_run level (9 * ((s.xball_light_max + 1) / 4) + 1) (s, hw)).2.data i
            = 0) := by
  have hM : s.xball_light_max = 4095 ∨ s.xball_light_max = 2047 := by
    rcases hl with e | e
    · left; rw [hmax, e]; exact toU16_light_limit.1
    · right; rw [hmax, e]; exact toU16_light_limit.2
  have h0 : XAt (s, hw).1 0 s.xball_light_set s.xball_light_color s.xball_light_max 0 0 :=
    ⟨hphase, rfl, rfl, rfl, hlev _ hcol, fun i hi _ => hlev i hi, hwhite, hstep⟩
  have hq : s.xball_light_max + 1 = 4 * ((s.xball_light_max + 1) / 4) := by omega
  obtain ⟨⟨a1, a2, a3, -, -, -, a7, -⟩, b, d⟩ :=
    xmas_ball_cycle_run level (s, hw) s.xball_light_set s.xball_light_color s.xball_light_max
      ((s.xball_light_max + 1) / 4) (9 * ((s.xball_light_max + 1) / 4)) hset hq (by omega) rfl
      h0
  refine ⟨by omega, a1, b, a7, a2, a3, d, ?_⟩
  rw [xmas_ball_run_data]
  exact xball_step_after_cycle _ _ s.xball_light_set hset a1 a2 b
    (fun x k hx hk => (d x k hx hk).1)

theorem xmas_ball_cycle_witness :
    ((1 : ℚ) = 1 ∨ (1 : ℚ) = 1 / 2)
      ∧ xball_start.xball_light_max = toU16 (XBALL_LIGHT_LIMIT * 1)
      ∧ (xmas_ball_run 1 (9 * ((xball_start.xball_light_max + 1) / 4))
          (xball_start, hw_start)).1.xball_light_color = (xball_start.xball_light_color + 1) % 3
      ∧ (∀ i : Nat, i < 24 →
          (xmas_ball_run 1 (9 * ((xball_start.xball_light_max + 1) / 4) + 1)
            (xball_start, hw_start)).2.data i = 0) :=
  ⟨Or.inl rfl, toU16_light_limit.1.symm,
    (xmas_ball_cycle 1 (Or.inl rfl) xball_start hw_start rfl (fun _ _ => rfl) rfl rfl
      toU16_light_limit.1.symm (by decide) (by decide)).2.2.2.2.2.1,
    (xmas_ball_cycle 1 (Or.inl rfl) xball_start hw_start rfl (fun _ _ => rfl) rfl rfl
      toU16_light_limit.1.symm (by decide) (by decide)).2.2.2.2.2.2.2⟩

/-! ## The main loop: which generator runs, and on which frame buffer -/

theorem write_data_data (hw : Hw) : (write_data hw).data = hw.data := rfl

theorem clear_lights_data (hw : Hw) (i : Nat) :
    (clear_lights hw).data i = if i ≤ NUM_BITS then 0 else hw.data i := by
  show ((List.range (NUM_BITS + 1)).foldl (fun d x => Function.update d x 0) hw.data) i = _
  have key : ∀ (n : Nat) (d : Nat → Nat),
      ((List.range n).foldl (fun d x => Function.update d x 0) d) i
        = if i < n then 0 else d i := by
    intro n
    induction n with
    | zero => intro d; simp
    | succ n ih =>
      intro d
      rw [List.range_succ, List.foldl_append, List.foldl_cons, List.foldl_nil]
      by_cases h : i = n
      · subst h; simp
      · rw [Function.update_noteq h, ih]
        have : (i < n + 1) = (i < n) := by
          apply propext; constructor <;> intro h1 <;> omega
        simp only [this]
  rw [key]
  have : (i < NUM_BITS + 1) = (i ≤ NUM_BITS) := by
    apply propext; constructor <;> intro h1 <;> omega
  simp only [this]

theorem clear_lights_zero (hw : Hw) (i : Nat) (h : i < NUM_BITS) : (clear_lights hw).data i = 0 := by
  rw [clear_lights_data, if_pos (Nat.le_of_lt h)]

theorem snapshot_zero (d : Nat → Nat) (h : ∀ i : Nat, i < NUM_BITS → d i = 0) :
    snapshot d = List.replicate NUM_BITS 0 := by
  apply List.ext_getElem
  · simp [snapshot]
  · intro n h1 h2
    simp only [snapshot, List.length_map, List.length_range] at h1
    simp [snapshot, h n h1]

/-- The switch of `main` invokes at most one generator: slot `k < 8` invokes
generator `k % 4` with the current `init_prog`, at level 1.0 for `k < 4` and 0.5
otherwise, on the current frame buffer. -/
theorem dispatch_calls (w : World) :
    (dispatch w).calls = w.calls ++
      (if w.cur_program < 8 then
        [⟨w.cur_program % 4, w.init_prog, if w.cur_program < 4 then 1 else 1 / 2,
          snapshot w.hw.data⟩]
      else []) := by
  have hc : w.cur_program = 0 ∨ w.cur_program = 1 ∨ w.cur_program = 2 ∨ w.cur_program = 3
      ∨ w.cur_program = 4 ∨ w.cur_program = 5 ∨ w.cur_program = 6 ∨ w.cur_program = 7
      ∨ 8 ≤ w.cur_program := by omega
  unfold dispatch
  rcases hc with h | h | h | h | h | h | h | h | h
  · rw [h]; norm_num [run_sun]
  · rw [h]; norm_num [run_spaceship]
  · rw [h]; norm_num [run_xmas_ball]
  · rw [h]; norm_num [run_color_cycle]
  · rw [h]; norm_num [run_sun]
  · rw [h]; norm_num [run_spaceship]
  · rw [h]; norm_num [run_xmas_ball]
  · rw [h]; norm_num [run_color_cycle]
  · have hn : ∀ k : Nat, k < 8 → (w.cur_program = k) = False :=
      fun k hk => eq_false (by omega)
    have h8 : ¬ w.cur_program < 8 := by omega
    simp [hn, h8]

/-- The private state and the globals that the switch of `main` leaves alone. -/
theorem dispatch_globals (w : World) :
    (dispatch w).cur_program = w.cur_program ∧ (dispatch w).prog_change = w.prog_change
      ∧ (dispatch w).last_state = w.last_state ∧ (dispatch w).init_prog = w.init_prog
      ∧ (dispatch w).adc_num = w.adc_num ∧ (dispatch w).pcint23 = w.pcint23 := by
  unfold dispatch
  split_ifs <;> simp [run_sun, run_spaceship, run_xmas_ball, run_color_cycle]

/-- An iteration with only the ON switch asserted. -/
theorem main_body_on (p : Pins) (w : World) (hs : p.sw_sense = false) (ho : p.sw_on = true) :
    main_body p w
      = main_show { w with
          hw := if w.last_state = 0 then clear_lights w.hw else w.hw
          last_state := 2 } := by
  unfold main_body
  simp only [hs, ho]
  by_cases h : w.last_state = 0 <;> simp [h]

/-- An iteration with the SENSE switch asserted. -/
theorem main_body_sense (p : Pins) (w : World) (hs : p.sw_sense = true) :
    main_body p w
      = if (if p.adc_done then p.adc else w.adc_num) > 260 then
          { w with
            hw := write_data (clear_lights
              (if p.sw_on = false ∧ w.last_state = 1 then w.hw
                else write_data (clear_lights
                  (if w.last_state = 0 then clear_lights w.hw else w.hw))))
            last_state := 1
            adc_num := if p.adc_done then p.adc else w.adc_num }
        else
          main_show { w with
            hw := if p.sw_on = false ∧ w.last_state = 1 then w.hw
                else write_data (clear_lights
                  (if w.last_state = 0 then clear_lights w.hw else w.hw))
            last_state := 1
            adc_num := if p.adc_done then p.adc else w.adc_num } := by
  unfold main_body
  simp only [hs]
  by_cases ho : p.sw_on = true <;> by_cases h0 : w.last_state = 0 <;>
    by_cases h1 : w.last_state = 1 <;> by_cases ha : p.adc_done = true <;>
    simp [ho, h0, h1, ha]

/-- An iteration with neither switch asserted. -/
theorem main_body_off (p : Pins) (w : World) (hs : p.sw_sense = false) (ho : p.sw_on = false) :
    main_body p w = { w with last_state := 0, init_prog := 0 } := by
  unfold main_body
  simp [hs, ho]

/-- What the block `if (prog_change)` and the re-arm leave alone. -/
theorem main_change_globals (w : World) :
    (main_rearm (main_change w)).last_state = w.last_state
      ∧ (main_rearm (main_change w)).calls = w.calls
      ∧ (main_rearm (main_change w)).cur_program = w.cur_program
      ∧ (main_rearm (main_change w)).adc_num = w.adc_num
      ∧ (main_rearm (main_change w)).day_counter = w.day_counter
      ∧ (main_rearm (main_change w)).ss = w.ss
      ∧ (main_rearm (main_change w)).xb = w.xb
      ∧ (main_rearm (main_change w)).cc = w.cc
      ∧ (main_rearm (main_change w)).init_prog = (if w.prog_change ≠ 0 then 1 else w.init_prog)
      ∧ (main_rearm (main_change w)).prog_change = 0 := by
  unfold main_rearm main_change
  by_cases h : w.prog_change = 0 <;> simp [h]

theorem main_show_calls (w : World) : (main_show w).calls = (dispatch w).calls := rfl

/-- The tail of an iteration run on an all-zero frame buffer. -/
theorem main_show_zero_frame (w : World) (hz : ∀ i : Nat, i < NUM_BITS → w.hw.data i = 0) :
    ∃ new : List Call, (main_show w).calls = w.calls ++ new ∧ new.length ≤ 1
      ∧ (∀ c ∈ new, c.frame = List.replicate NUM_BITS 0)
      ∧ (w.cur_program < 8 → new.length = 1) := by
  rw [main_show_calls, dispatch_calls]
  refine ⟨_, rfl, by split_ifs <;> simp, ?_, ?_⟩
  · intro c hc
    by_cases h8 : w.cur_program < 8
    · rw [if_pos h8, List.mem_singleton] at hc
      subst hc
      exact snapshot_zero _ hz
    · rw [if_neg h8] at hc
      simp at hc
  · intro h8
    rw [if_pos h8]; rfl

/-- C12.  In an iteration of the main loop that starts with `last_state = 0` and
has the ON or the SENSE switch asserted, at most one generator is invoked, and at
the moment it is invoked all 24 components of the frame buffer are zero; a
generator is invoked whenever the slot is one of 0..7 and the iteration is not
cut short by the too-bright test (SENSE asserted and the sample above 260). -/
theorem main_iter_off_to_on_frame (p : Pins) (w : World) (h0 : w.last_state = 0)
    (hsw : p.sw_sense = true ∨ p.sw_on = true) :
    ∃ new : List Call, (main_iter p w).calls = w.calls ++ new ∧ new.length ≤ 1
      ∧ (∀ c ∈ new, c.frame = List.replicate NUM_BITS 0)
      ∧ (w.cur_program < 8
          → (p.sw_sense = false ∨ (if p.adc_done then p.adc else w.adc_num) ≤ 260)
          → new.length = 1) := by
  obtain ⟨e1, e2, e3, e4, -⟩ := main_change_globals w
  unfold main_iter
  generalize main_rearm (main_change w) = w1 at e1 e2 e3 e4
  rw [h0] at e1
  by_cases hs : p.sw_sense = true
  · have hne : ¬ (p.sw_on = false ∧ w1.last_state = 1) := by
      rw [e1]; simp
    rw [main_body_sense p w1 hs, if_neg hne, e4]
    by_cases ha : (if p.adc_done then p.adc else w.adc_num) > 260
    · rw [if_pos ha]
      refine ⟨[], by simp [e2], by simp, by simp, ?_⟩
      intro _ h
      rcases h with h | h
      · rw [hs] at h; cases h
      · exact absurd ha (not_lt.mpr h)
    · rw [if_neg ha]
      obtain ⟨new, a1, a2, a3, a4⟩ := main_show_zero_frame
        { w1 with
          hw := write_data (clear_lights (if w1.last_state = 0 then clear_lights w1.hw else w1.hw))
          last_state := 1
          adc_num := if p.adc_done then p.adc else w.adc_num }
        (fun i hi => by
          show (write_data (clear_lights _)).data i = 0
          rw [write_data_data, clear_lights_zero _ i hi])
      refine ⟨new, ?_, a2, a3, ?_⟩
      · rw [a1]; show w1.calls ++ new = _; rw [e2]
      · intro h8 _
        exact a4 (by show w1.cur_program < 8; rw [e3]; exact h8)
  · have hs' : p.sw_sense = false := by simpa using hs
    have ho : p.sw_on = true := by
      rcases hsw with h | h
      · exact absurd h hs
      · exact h
    rw [main_body_on p w1 hs' ho, if_pos e1]
    obtain ⟨new, a1, a2, a3, a4⟩ := main_show_zero_frame
      { w1 with hw := clear_lights w1.hw, last_state := 2 }
      (fun i hi => clear_lights_zero _ i hi)
    refine ⟨new, ?_, a2, a3, ?_⟩
    · rw [a1]; show w1.calls ++ new = _; rw [e2]
    · intro h8 _
      exact a4 (by show w1.cur_program < 8; rw [e3]; exact h8)

/-- C12, at a concrete input: the first iteration at program start with the ON
switch asserted. -/
theorem main_iter_off_to_on_frame_witness :
    world_start.last_state = 0 ∧
    ∃ new : List Call,
      (main_iter ⟨false, true, false, 0⟩ world_start).calls = world_start.calls ++ new
      ∧ new.length ≤ 1
      ∧ (∀ c ∈ new, c.frame = List.replicate NUM_BITS 0)
      ∧ (world_start.cur_program < 8
          → ((⟨false, true, false, 0⟩ : Pins).sw_sense = false
              ∨ (if (⟨false, true, false, 0⟩ : Pins).adc_done then
                  (⟨false, true, false, 0⟩ : Pins).adc else world_start.adc_num) ≤ 260)
          → new.length = 1) :=
  ⟨rfl, main_iter_off_to_on_frame ⟨false, true, false, 0⟩ world_start rfl (Or.inr rfl)⟩
/-! ## The pin-change handler and its re-arming -/

theorem edge_armed (w : World) (h : w.pcint23 = true) :
    edge true w
      = { w with
          pcint23 := false
          prog_change := 1
          cur_program := (w.cur_program + 1) % NUM_PROGRAMS } := by
  simp [edge, isr, h]

theorem edge_disarmed (pind7 : Bool) (w : World) (h : w.pcint23 = false) : edge pind7 w = w := by
  simp [edge, h]

theorem main_change_pcint23 (w : World) : (main_change w).pcint23 = w.pcint23 := by
  unfold main_change
  by_cases h : w.prog_change = 0 <;> simp [h]

theorem main_change_cur_program (w : World) : (main_change w).cur_program = w.cur_program := by
  unfold main_change
  by_cases h : w.prog_change = 0 <;> simp [h]

theorem main_show_flags (w : World) :
    (main_show w).pcint23 = w.pcint23 ∧ (main_show w).prog_change = w.prog_change
      ∧ (main_show w).cur_program = w.cur_program := by
  obtain ⟨h1, h2, -, -, -, h6⟩ := dispatch_globals w
  exact ⟨h6, h2, h1⟩

theorem main_body_flags (p : Pins) (w : World) :
    (main_body p w).pcint23 = w.pcint23 ∧ (main_body p w).prog_change = w.prog_change
      ∧ (main_body p w).cur_program = w.cur_program := by
  by_cases hs : p.sw_sense = true
  · rw [main_body_sense p w hs]
    by_cases ha : (if p.adc_done then p.adc else w.adc_num) > 260
    · rw [if_pos ha]
      exact ⟨rfl, rfl, rfl⟩
    · rw [if_neg ha]
      exact main_show_flags _
  · have hs' : p.sw_sense = false := by simpa using hs
    by_cases ho : p.sw_on = true
    · rw [main_body_on p w hs' ho]
      exact main_show_flags _
    · have ho' : p.sw_on = false := by simpa using ho
      rw [main_body_off p w hs' ho']
      exact ⟨rfl, rfl, rfl⟩

/-- The block `if (prog_change)` with the flag set: the log grows by the events of
`clear_lights`, then the wait of 500 ms, then the blink. -/
theorem main_change_log (w : World) (h : w.prog_change ≠ 0) :
    ∃ l1 l2 : List Event,
      (main_change w).hw.log = w.hw.log ++ l1 ++ Event.wait_ms 500 :: l2 := by
  have key : ∀ (l A B C : List Event) (e e' : Event),
      ((((l ++ A) ++ [e]) ++ B) ++ [e']) ++ C = l ++ A ++ e :: (B ++ e' :: C) := by
    intros; simp
  unfold main_change
  rw [if_pos h]
  by_cases h3 : w.cur_program > 3
  · simp only [h3, if_true]
    exact ⟨_, _, key _ _ _ _ _ _⟩
  · simp only [h3, if_false]
    exact ⟨_, _, key _ _ _ _ _ _⟩

/-- C13, counterexample.  At program start the change block of the first
iteration runs with the handler enabled.  An edge (companion pin high) that
arrives when the block is done and before the next statement makes a change
(slot 1, flag set, handler disabled); the statement `PCMSK2 |= (1 << PCINT23)`
that follows re-arms the handler without any wait (the log does not grow), and a
second edge is counted: the slot is 2. -/
theorem main_rearm_without_debounce :
    (edge true (main_change world_start)).cur_program = 1
      ∧ (edge true (main_change world_start)).prog_change = 1
      ∧ (edge true (main_change world_start)).pcint23 = false
      ∧ (main_rearm (edge true (main_change world_start))).hw.log
          = (edge true (main_change world_start)).hw.log
      ∧ (main_rearm (edge true (main_change world_start))).pcint23 = true
      ∧ (edge true (main_rearm (edge true (main_change world_start)))).cur_program = 2 := by
  have h1 : (main_change world_start).pcint23 = true := by
    rw [main_change_pcint23]; rfl
  have h2 : (main_change world_start).cur_program = 0 := by
    rw [main_change_cur_program]; rfl
  have e := edge_armed (main_change world_start) h1
  have h3 : (main_rearm (edge true (main_change world_start))).pcint23 = true := rfl
  have e2 := edge_armed (main_rearm (edge true (main_change world_start))) h3
  refine ⟨?_, ?_, ?_, rfl, rfl, ?_⟩
  · rw [e]; show ((main_change world_start).cur_program + 1) % NUM_PROGRAMS = 1
    rw [h2]; rfl
  · rw [e]
  · rw [e]
  · rw [e2]
    show ((edge true (main_change world_start)).cur_program + 1) % NUM_PROGRAMS = 2
    rw [e]
    show (((main_change world_start).cur_program + 1) % NUM_PROGRAMS + 1) % NUM_PROGRAMS = 2
    rw [h2]; rfl

/-- C13, amended.  With the handler enabled, an edge with the companion pin high
advances `cur_program` by 1 modulo 8, sets `prog_change` and disables the
handler; a second edge that follows is ignored, and so is every edge that
arrives while the enable bit is clear.  The bit lives in the I/O register
`PCMSK2`; the change block and the rest of the loop body leave it alone, and
only the statement `PCMSK2 |= (1 << PCINT23)`, which `main` executes in every
iteration without any wait of its own, sets it.  In an iteration that finds
`prog_change` set, that statement comes after the change block, which waits
500 ms.  (What `cur_program` holds after a call of `clear_lights` is not stated:
that function stores one cell past the array `data`.) -/
theorem isr_debounce (w : World) (harm : w.pcint23 = true) :
    (edge true w).cur_program = (w.cur_program + 1) % NUM_PROGRAMS
      ∧ (edge true w).prog_change = 1
      ∧ (edge true w).pcint23 = false
      ∧ edge true (edge true w) = edge true w
      ∧ (∀ (pind7 : Bool) (v : World), v.pcint23 = false → edge pind7 v = v)
      ∧ (∀ (p : Pins) (v : World),
          (main_body p v).pcint23 = v.pcint23 ∧ (main_change v).pcint23 = v.pcint23)
      ∧ (∀ v : World, (main_rearm v).pcint23 = true ∧ (main_rearm v).hw = v.hw)
      ∧ (∀ v : World, v.prog_change ≠ 0 → ∃ l1 l2 : List Event,
          (main_rearm (main_change v)).hw.log
            = v.hw.log ++ l1 ++ Event.wait_ms 500 :: l2) := by
  have e := edge_armed w harm
  have a1 : (edge true w).cur_program = (w.cur_program + 1) % NUM_PROGRAMS := by rw [e]
  have a2 : (edge true w).prog_change = 1 := by rw [e]
  have a3 : (edge true w).pcint23 = false := by rw [e]
  refine ⟨a1, a2, a3, edge_disarmed _ _ a3, fun pind7 v hv => edge_disarmed pind7 v hv,
    fun p v => ⟨(main_body_flags p v).1, main_change_pcint23 v⟩,
    fun v => ⟨rfl, rfl⟩, fun v hv => main_change_log v hv⟩

/-- C13, at a concrete input: program start, where the handler is enabled. -/
theorem isr_debounce_witness :
    world_start.pcint23 = true
      ∧ (edge true world_start).cur_program = 1
      ∧ (edge true world_start).prog_change = 1
      ∧ (edge true world_start).pcint23 = false
      ∧ edge true (edge true world_start) = edge true world_start :=
  ⟨rfl, (isr_debounce world_start rfl).1, (isr_debounce world_start rfl).2.1,
    (isr_debounce world_start rfl).2.2.1, (isr_debounce world_start rfl).2.2.2.1⟩

/-! ## The colour-cycle generator -/

theorem color_cycle_prog_state (init : Bool) (level : ℚ) (c : Cc) (hw : Hw) :
    (color_cycle_prog init level c hw).1 = cc_next init level c := rfl

/-- The loop of `color_cycle_prog` stores the same colour into all 8 channels,
in the order blue, red, green. -/
theorem cc_paint_at (d : Nat → Nat) (r g b x : Nat) (hx : x < 8) :
    cc_paint d r g b (3 * x) = b ∧ cc_paint d r g b (3 * x + 1) = r
      ∧ cc_paint d r g b (3 * x + 2) = g := by
  interval_cases x <;>
    simp [cc_paint, List.range_succ, SET_LED, Function.update]

theorem color_cycle_prog_data (init : Bool) (level : ℚ) (c : Cc) (hw : Hw) (x : Nat)
    (hx : x < 8) :
    (color_cycle_prog init level c hw).2.data (3 * x)
        = (hsv2rgb c.hue c.sat (cc_init init level c).val).2.2
      ∧ (color_cycle_prog init level c hw).2.data (3 * x + 1)
        = (hsv2rgb c.hue c.sat (cc_init init level c).val).1
      ∧ (color_cycle_prog init level c hw).2.data (3 * x + 2)
        = (hsv2rgb c.hue c.sat (cc_init init level c).val).2.1 := by
  have e1 : (cc_init init level c).hue = c.hue := by
    unfold cc_init; split_ifs <;> rfl
  have e2 : (cc_init init level c).sat = c.sat := by
    unfold cc_init; split_ifs <;> rfl
  have h := cc_paint_at (if init then clear_lights hw else hw).data
    (hsv2rgb c.hue c.sat (cc_init init level c).val).1
    (hsv2rgb c.hue c.sat (cc_init init level c).val).2.1
    (hsv2rgb c.hue c.sat (cc_init init level c).val).2.2 x hx
  rw [← e1, ← e2] at h ⊢
  exact h

theorem toU16_4095 : toU16 4095 = 4095 := by
  norm_num [toU16, truncQ]
  rfl

theorem toU16_zero : toU16 0 = 0 := by
  norm_num [toU16, truncQ]

theorem toU16_2457 : toU16 (2457 / 100) = 24 := by
  have hf : ⌊(2457 / 100 : ℚ)⌋ = 24 := by
    rw [Int.floor_eq_iff]; norm_num
  have h0 : (0 : ℚ) ≤ 2457 / 100 := by norm_num
  simp only [toU16, truncQ, if_pos h0, hf]
  rfl

theorem hsv2rgb_red : hsv2rgb 0 1 1 = (4095, 0, 0) := by
  norm_num [hsv2rgb, truncQ, toU16_4095, toU16_zero]

theorem hsv2rgb_after_one_step : hsv2rgb (1 / 1000) 1 1 = (4095, 24, 0) := by
  have h1 : truncQ ((1 / 1000 : ℚ) * 6) = 0 := by
    norm_num [truncQ]
  simp only [hsv2rgb, h1]
  norm_num [toU16_4095, toU16_zero, toU16_2457]

/-- C14, counterexample.  From program start, one call of `color_cycle_prog`
leaves `hue = 0.001`; a call with `init = 1` and level 1.0 that follows stores
`hsv2rgb(0.001, 1.0, 1.0) = (4095, 24, 0)`: the green component `data[2]` of
channel 0 is 24, not 0. -/
theorem color_cycle_init_keeps_hue :
    (color_cycle_prog false 1 cc_start hw_start).1.hue = 1 / 1000
      ∧ (color_cycle_prog true 1 (color_cycle_prog false 1 cc_start hw_start).1
          (color_cycle_prog false 1 cc_start hw_start).2).2.data 1 = 4095
      ∧ (color_cycle_prog true 1 (color_cycle_prog false 1 cc_start hw_start).1
          (color_cycle_prog false 1 cc_start hw_start).2).2.data 2 = 24 := by
  have e : (color_cycle_prog false 1 cc_start hw_start).1
      = { hue := 1 / 1000, sat := 1, val := 1, hue_step := 1 / 1000 } := by
    rw [color_cycle_prog_state]
    norm_num [cc_next, cc_advance, cc_init, cc_start]
  obtain ⟨-, h1, h2⟩ := color_cycle_prog_data true 1
    (color_cycle_prog false 1 cc_start hw_start).1
    (color_cycle_prog false 1 cc_start hw_start).2 0 (by norm_num)
  rw [e] at h1 h2 ⊢
  have ev : (cc_init true 1 ({ hue := 1 / 1000, sat := 1, val := 1, hue_step := 1 / 1000 } : Cc)).val
      = 1 := by
    norm_num [cc_init, COLOR_CYCLE_VAL_MAX]
  rw [ev] at h1 h2
  simp only [hsv2rgb_after_one_step] at h1 h2
  exact ⟨rfl, h1, h2⟩

/-- C14, amended.  A call of `color_cycle_prog` with `init = 1` at level 1.0
does not touch `hue` or `sat`: after it every one of the 8 channels holds, in
the order blue, red, green, the colour `hsv2rgb(hue, sat, 1.0)` for the `hue` and
`sat` before the call.  When these are 0 and 1, as at program start, this is
`(4095, 0, 0)`: `data[3x] = 0`, `data[3x+1] = 4095`, `data[3x+2] = 0`. -/
theorem color_cycle_init_frame (c : Cc) (hw : Hw) (x : Nat) (hx : x < 8) :
    ((color_cycle_prog true 1 c hw).2.data (3 * x) = (hsv2rgb c.hue c.sat 1).2.2
      ∧ (color_cycle_prog true 1 c hw).2.data (3 * x + 1) = (hsv2rgb c.hue c.sat 1).1
      ∧ (color_cycle_prog true 1 c hw).2.data (3 * x + 2) = (hsv2rgb c.hue c.sat 1).2.1)
    ∧ (c.hue = 0 → c.sat = 1 →
        (color_cycle_prog true 1 c hw).2.data (3 * x) = 0
        ∧ (color_cycle_prog true 1 c hw).2.data (3 * x + 1) = 4095
        ∧ (color_cycle_prog true 1 c hw).2.data (3 * x + 2) = 0) := by
  have ev : (cc_init true 1 c).val = 1 := by
    norm_num [cc_init, COLOR_CYCLE_VAL_MAX]
  have h := color_cycle_prog_data true 1 c hw x hx
  rw [ev] at h
  refine ⟨h, ?_⟩
  intro h0 h1
  rw [h0, h1, hsv2rgb_red] at h
  exact h

/-- C14, at a concrete input: the first call at program start, channel 5. -/
theorem color_cycle_init_frame_witness :
    (5 : Nat) < 8 ∧ cc_start.hue = 0 ∧ cc_start.sat = 1
      ∧ (color_cycle_prog true 1 cc_start hw_start).2.data (3 * 5) = 0
      ∧ (color_cycle_prog true 1 cc_start hw_start).2.data (3 * 5 + 1) = 4095
      ∧ (color_cycle_prog true 1 cc_start hw_start).2.data (3 * 5 + 2) = 0 :=
  ⟨by norm_num, by norm_num [cc_start], by norm_num [cc_start],
    (color_cycle_init_frame cc_start hw_start 5 (by norm_num)).2
      (by norm_num [cc_start]) (by norm_num [cc_start])⟩

theorem cc_next_hue (init : Bool) (level : ℚ) (c : Cc) :
    (cc_next init level c).hue
        = (if c.hue + c.hue_step > 1 then c.hue + c.hue_step - 1 else c.hue + c.hue_step)
      ∧ (cc_next init level c).hue_step = c.hue_step := by
  cases init <;> norm_num [cc_next, cc_init, cc_advance]

/-! ## The main loop: the three modes -/

theorem main_change_data_zero (w : World) (h : w.prog_change ≠ 0) (i : Nat)
    (hi : i < NUM_BITS) : (main_change w).hw.data i = 0 := by
  have hc := clear_lights_zero w.hw i hi
  unfold main_change
  rw [if_pos h]
  by_cases h3 : w.cur_program > 3
  · simp only [h3, if_true]
    show Function.update (Function.update (clear_lights w.hw).data 0 0xFFF) 0 0x000 i = 0
    by_cases hi0 : i = 0
    · subst hi0; simp
    · rw [Function.update_noteq hi0, Function.update_noteq hi0]; exact hc
  · simp only [h3, if_false]
    show Function.update (Function.update (clear_lights w.hw).data 1 0xFFF) 1 0x000 i = 0
    by_cases hi0 : i = 1
    · subst hi0; simp
    · rw [Function.update_noteq hi0, Function.update_noteq hi0]; exact hc

theorem main_change_idle (w : World) (h : w.prog_change = 0) : main_change w = w := by
  unfold main_change
  simp [h]

/-- The value of `last_state` after the rest of an iteration. -/
theorem main_body_last_state (p : Pins) (w : World) :
    (main_body p w).last_state
      = if p.sw_sense = true then 1 else if p.sw_on = true then 2 else 0 := by
  by_cases hs : p.sw_sense = true
  · rw [main_body_sense p w hs, if_pos hs]
    by_cases ha : (if p.adc_done then p.adc else w.adc_num) > 260
    · rw [if_pos ha]
    · rw [if_neg ha]
      exact (dispatch_globals _).2.2.1
  · have hs' : p.sw_sense = false := by simpa using hs
    rw [if_neg hs]
    by_cases ho : p.sw_on = true
    · rw [main_body_on p w hs' ho, if_pos ho]
      exact (dispatch_globals _).2.2.1
    · have ho' : p.sw_on = false := by simpa using ho
      rw [main_body_off p w hs' ho', if_neg ho]

/-- C16, counterexample.  A state in which no change is pending, the last mode
was ON and the frame buffer holds 4095 in every component (nothing logged yet);
an iteration with neither switch asserted leaves the frame buffer as it was and
transmits nothing. -/
theorem off_mode_keeps_frame :
    (main_iter ⟨false, false, false, 0⟩
        { world_start with
          prog_change := 0, last_state := 2,
          hw := ⟨fun _ => 4095, []⟩ }).hw.data 0 = 4095
      ∧ (main_iter ⟨false, false, false, 0⟩
        { world_start with
          prog_change := 0, last_state := 2,
          hw := ⟨fun _ => 4095, []⟩ }).hw.log = []
      ∧ (main_iter ⟨false, false, false, 0⟩
        { world_start with
          prog_change := 0, last_state := 2,
          hw := ⟨fun _ => 4095, []⟩ }).last_state = 0 := by
  refine ⟨rfl, rfl, rfl⟩

/-- C16, amended.  In an iteration of the main loop in which neither switch is
asserted (each pin is read once, in the test of the `if`), the rest of the body
after the re-arm only sets `last_state` and `init_prog` to 0: no generator is
invoked, nothing is cleared and nothing is transmitted.  When no change is
pending the whole iteration changes these two variables and the enable bit and
nothing else, so the frame buffer, the log of actions and the animation state
are what they were; when a change is pending the change block has cleared the
frame buffer and blinked, and `data[0..23]` is all zero. -/
theorem off_mode_iteration (p : Pins) (w : World) (hs : p.sw_sense = false) (ho : p.sw_on = false) :
    main_body p w = { w with last_state := 0, init_prog := 0 }
      ∧ main_iter p w = { main_rearm (main_change w) with last_state := 0, init_prog := 0 }
      ∧ (main_iter p w).calls = w.calls
      ∧ (main_iter p w).last_state = 0 ∧ (main_iter p w).init_prog = 0
      ∧ (w.prog_change = 0 →
          main_iter p w = { w with pcint23 := true, last_state := 0, init_prog := 0 })
      ∧ (w.prog_change ≠ 0 → ∀ i : Nat, i < NUM_BITS → (main_iter p w).hw.data i = 0) := by
  obtain ⟨-, e2, -⟩ := main_change_globals w
  have e : main_iter p w = { main_rearm (main_change w) with last_state := 0, init_prog := 0 } :=
    main_body_off p _ hs ho
  refine ⟨main_body_off p w hs ho, e, ?_, ?_, ?_, ?_, ?_⟩
  · rw [e]; exact e2
  · rw [e]
  · rw [e]
  · intro h0
    rw [e, main_change_idle w h0]
    rfl
  · intro h0 i hi
    rw [e]
    exact main_change_data_zero w h0 i hi

/-- C16, at a concrete input: the first iteration at program start with both
switches off. -/
theorem off_mode_iteration_witness :
    (main_iter ⟨false, false, false, 0⟩ world_start).calls = world_start.calls
      ∧ (main_iter ⟨false, false, false, 0⟩ world_start).last_state = 0
      ∧ (main_iter ⟨false, false, false, 0⟩ world_start).init_prog = 0 :=
  ⟨(off_mode_iteration ⟨false, false, false, 0⟩ world_start rfl rfl).2.2.1,
    (off_mode_iteration ⟨false, false, false, 0⟩ world_start rfl rfl).2.2.2.1,
    (off_mode_iteration ⟨false, false, false, 0⟩ world_start rfl rfl).2.2.2.2.1⟩

theorem xball_step_state (s : XBall) (d d' : Nat → Nat) :
    (xball_step s d).1 = (xball_step s d').1 := by
  by_cases h0 : s.xball_phase = 0
  · simp only [xball_step, if_pos h0]
  · by_cases h1 : s.xball_phase = 1
    · simp only [xball_step, if_neg h0, if_pos h1]
    · simp only [xball_step, if_neg h0, if_neg h1, apply_ite Prod.fst]

theorem main_show_call (w : World) :
    ∃ c : Call, (main_show w).calls = w.calls ++ (if w.cur_program < 8 then [c] else [])
      ∧ call_sig c = (w.cur_program % 4, w.init_prog, if w.cur_program < 4 then 1 else 1 / 2) :=
  ⟨_, dispatch_calls w, rfl⟩

/-- The switch of `main` acts on the animation state as a function of the slot,
the init flag and the animation state alone. -/
theorem dispatch_anim (w v : World) (h1 : w.cur_program = v.cur_program)
    (h2 : w.init_prog = v.init_prog) (h3 : anim w = anim v) :
    anim (dispatch w) = anim (dispatch v) := by
  simp only [anim, Prod.mk.injEq] at h3
  obtain ⟨a1, a2, a3, a4⟩ := h3
  unfold dispatch
  rw [← h1]
  split_ifs <;>
    simp only [anim, run_sun, run_spaceship, run_xmas_ball, run_color_cycle, sun_show_prog,
      spaceship_prog, xmas_ball_prog, color_cycle_prog, a1, a2, a3, a4, h2, Prod.mk.injEq,
      true_and, and_true] <;>
    first
      | trivial
      | exact ⟨trivial, trivial, trivial, trivial⟩
      | exact xball_step_state _ _ _

theorem main_show_anim (w v : World) (h1 : w.cur_program = v.cur_program)
    (h2 : w.init_prog = v.init_prog) (h3 : anim w = anim v) :
    anim (main_show w) = anim (main_show v) :=
  dispatch_anim w v h1 h2 h3

theorem main_show_sig (w v : World) (h0 : w.calls = v.calls)
    (h1 : w.cur_program = v.cur_program) (h2 : w.init_prog = v.init_prog) :
    (main_show w).calls.map call_sig = (main_show v).calls.map call_sig := by
  rw [main_show_calls, main_show_calls, dispatch_calls, dispatch_calls, h0, h1, h2]
  by_cases h8 : v.cur_program < 8
  · simp [h8, call_sig]
  · simp [h8]

/-! ## The delays in counter ticks -/

theorem sum_map_replicate_zero (n : Nat) :
    ((List.replicate n 0).map ticks_to_overflow).sum = 256 * n := by
  induction n with
  | zero => rfl
  | succ n ih =>
    rw [List.replicate_succ, List.map_cons, List.sum_cons, ih]
    show 256 - 0 + 256 * n = 256 * (n + 1)
    omega

theorem delay_us_ticks_250 : delay_us_ticks 250 = 250 := by decide

theorem delay_ms_calls_eq (x : Nat) : delay_ms_calls x = List.replicate (4 * x) 250 := by
  induction x with
  | zero => rfl
  | succ x ih =>
    show [250, 250, 250, 250] ++ delay_ms_calls x = _
    rw [ih]
    have : 4 * (x + 1) = 4 * x + 1 + 1 + 1 + 1 := by omega
    rw [this]
    rfl

theorem delay_ms_ticks_eq (x : Nat) : delay_ms_ticks x = 1000 * x := by
  unfold delay_ms_ticks
  induction x with
  | zero => rfl
  | succ x ih =>
    show (([250, 250, 250, 250] ++ delay_ms_calls x).map delay_us_ticks).sum = _
    rw [List.map_append, List.sum_append, ih]
    simp only [List.map_cons, List.map_nil, List.sum_cons, List.sum_nil, delay_us_ticks_250]
    omega

/-- C19.  For `x >= 0`, `delay_us(x)` splits `x` as `256 * y + z` with
`y = x / 256` and `0 <= z < 256`; it waits `y` times from preload 0 to overflow
(256 ticks each) and once from the preload `(256 - z) mod 256`, in all
`256 * y + z` ticks when `z > 0` and `256 * y + 256` when `z = 0`, at least `x`.
For every `n`, `delay_ms(n)` makes exactly `4 * n` calls, all `delay_us(250)`,
and waits `1000 * n` ticks. -/
theorem delay_lower_bound (x : Int) (hx : 0 ≤ x) :
    (x = 256 * x.tdiv 256 + (x - x.tdiv 256 * 256)
      ∧ 0 ≤ x - x.tdiv 256 * 256 ∧ x - x.tdiv 256 * 256 < 256)
    ∧ delay_us x
        = List.replicate (x.tdiv 256).toNat 0
            ++ [((256 - (x - x.tdiv 256 * 256)) % 256).toNat]
    ∧ (delay_us_ticks x : Int)
        = 256 * x.tdiv 256
          + (if x - x.tdiv 256 * 256 = 0 then 256 else x - x.tdiv 256 * 256)
    ∧ x ≤ (delay_us_ticks x : Int)
    ∧ ∀ n : Nat, delay_ms_calls n = List.replicate (4 * n) 250
        ∧ (delay_ms_calls n).length = 4 * n
        ∧ delay_ms_ticks n = 1000 * n ∧ 1000 * n ≤ delay_ms_ticks n := by
  have hdiv : x.tdiv 256 = x / 256 := Int.tdiv_eq_ediv hx (by norm_num)
  have hy : 0 ≤ x / 256 := Int.ediv_nonneg hx (by norm_num)
  have hz : x - x / 256 * 256 = x % 256 := by
    have := Int.emod_add_ediv x 256
    linarith
  have hz0 : 0 ≤ x % 256 := Int.emod_nonneg x (by norm_num)
  have hz1 : x % 256 < 256 := Int.emod_lt_of_pos x (by norm_num)
  have hticks : (delay_us_ticks x : Int)
      = 256 * (x / 256) + (if x % 256 = 0 then 256 else x % 256) := by
    unfold delay_us_ticks delay_us
    simp only [hdiv, hz]
    rw [List.map_append, List.sum_append, sum_map_replicate_zero]
    simp only [List.map_cons, List.map_nil, List.sum_cons, List.sum_nil, ticks_to_overflow,
      add_zero]
    by_cases h0 : x % 256 = 0
    · rw [h0, if_pos rfl]
      have : (256 - 0 : Int) % 256 = 0 := by norm_num
      rw [this]
      push_cast
      rw [Int.toNat_of_nonneg hy]
    · rw [if_neg h0]
      have h1 : (256 - x % 256) % 256 = 256 - x % 256 := by
        apply Int.emod_eq_of_lt <;> omega
      rw [h1]
      have h2 : (256 - x % 256).toNat ≤ 256 := by omega
      push_cast [Nat.cast_sub h2]
      rw [Int.toNat_of_nonneg hy, Int.toNat_of_nonneg (by omega)]
      ring
  rw [hdiv, hz]
  refine ⟨⟨?_, hz0, hz1⟩, ?_, hticks, ?_, ?_⟩
  · have := Int.emod_add_ediv x 256
    linarith
  · unfold delay_us
    simp only [hdiv, hz]
  · rw [hticks]
    have := Int.emod_add_ediv x 256
    split_ifs <;> omega
  · intro n
    refine ⟨delay_ms_calls_eq n, ?_, delay_ms_ticks_eq n, le_of_eq (delay_ms_ticks_eq n).symm⟩
    rw [delay_ms_calls_eq, List.length_replicate]

/-- C19, at a concrete input: `delay_us(600)` waits two full periods and then
88 ticks from the preload 168. -/
theorem delay_lower_bound_witness :
    delay_us 600 = [0, 0, 168] ∧ delay_us_ticks 600 = 600 ∧ delay_ms_ticks 500 = 500000 :=
  ⟨(delay_lower_bound 600 (by decide)).2.1.trans (by decide), by decide,
    ((delay_lower_bound 600 (by decide)).2.2.2.2 500).2.2.1⟩

/-! ## The order of the colour components in the frame buffer -/

theorem hsv2rgb_into_at (d : Nat → Nat) (idx : Nat) (h s v : ℚ) :
    hsv2rgb_into d idx h s v idx = (hsv2rgb h s v).1
      ∧ hsv2rgb_into d idx h s v (idx + 1) = (hsv2rgb h s v).2.1
      ∧ hsv2rgb_into d idx h s v (idx + 2) = (hsv2rgb h s v).2.2 := by
  simp [hsv2rgb_into, Function.update]

theorem hsv2rgb_into_other (d : Nat → Nat) (idx : Nat) (h s v : ℚ) (i : Nat)
    (hi : i < idx ∨ idx + 2 < i) : hsv2rgb_into d idx h s v i = d i := by
  simp only [hsv2rgb_into]
  rw [Function.update_noteq (by omega), Function.update_noteq (by omega),
    Function.update_noteq (by omega)]

/-- The cells of the lead channel of the top ring are not written by the three
later `hsv2rgb` calls of a step. -/
theorem spaceship_cycles_apart :
    ∀ t : Nat, t < 4 → ∀ b : Nat, b < 4 → ∀ j : Nat, j < 3 →
      (spaceship_cycles 0 t + j < spaceship_cycles 0 ((t + 3) % 4)
          ∨ spaceship_cycles 0 ((t + 3) % 4) + 2 < spaceship_cycles 0 t + j)
        ∧ (spaceship_cycles 0 t + j < spaceship_cycles 1 b
          ∨ spaceship_cycles 1 b + 2 < spaceship_cycles 0 t + j)
        ∧ (spaceship_cycles 0 t + j < spaceship_cycles 1 ((b + 3) % 4)
          ∨ spaceship_cycles 1 ((b + 3) % 4) + 2 < spaceship_cycles 0 t + j) := by
  decide

/-- After a call of `spaceship_prog` the three cells of the lead channel of the
top ring hold the red, green and blue component, in this order. -/
theorem spaceship_prog_lead_cells (init : Bool) (level : ℚ) (s : Ss) (hw : Hw)
    (ht : s.top_cycle < 4) (hb : s.bot_cycle < 4) :
    (spaceship_prog init level s hw).2.data (spaceship_cycles 0 s.top_cycle)
        = (hsv2rgb (ss_top (ss_init init level s)).ss_hue
            ((ss_top (ss_init init level s)).ss_color 0 s.top_cycle SAT)
            ((ss_top (ss_init init level s)).ss_color 0 s.top_cycle VAL)).1
      ∧ (spaceship_prog init level s hw).2.data (spaceship_cycles 0 s.top_cycle + 1)
        = (hsv2rgb (ss_top (ss_init init level s)).ss_hue
            ((ss_top (ss_init init level s)).ss_color 0 s.top_cycle SAT)
            ((ss_top (ss_init init level s)).ss_color 0 s.top_cycle VAL)).2.1
      ∧ (spaceship_prog init level s hw).2.data (spaceship_cycles 0 s.top_cycle + 2)
        = (hsv2rgb (ss_top (ss_init init level s)).ss_hue
            ((ss_top (ss_init init level s)).ss_color 0 s.top_cycle SAT)
            ((ss_top (ss_init init level s)).ss_color 0 s.top_cycle VAL)).2.2 := by
  have e1 : (ss_top (ss_init init level s)).top_cycle = s.top_cycle := by
    rw [(ss_top_fields _).1, (ss_init_fields init level s).1]
  have e2 : (ss_bot (ss_top (ss_init init level s))).bot_cycle = s.bot_cycle := by
    rw [(ss_bot_fields _).2.1, (ss_top_fields _).2.1, (ss_init_fields init level s).2.1]
  have k0 := spaceship_cycles_apart s.top_cycle ht s.bot_cycle hb 0 (by norm_num)
  have k1 := spaceship_cycles_apart s.top_cycle ht s.bot_cycle hb 1 (by norm_num)
  have k2 := spaceship_cycles_apart s.top_cycle ht s.bot_cycle hb 2 (by norm_num)
  rw [Nat.add_zero] at k0
  have hat := hsv2rgb_into_at (if init then clear_lights hw else hw).data
    (spaceship_cycles 0 s.top_cycle) (ss_top (ss_init init level s)).ss_hue
    ((ss_top (ss_init init level s)).ss_color 0 s.top_cycle SAT)
    ((ss_top (ss_init init level s)).ss_color 0 s.top_cycle VAL)
  refine ⟨?_, ?_, ?_⟩
  · show ss_paint_bot (ss_bot (ss_top (ss_init init level s)))
      (ss_paint_top (ss_top (ss_init init level s)) (if init then clear_lights hw else hw).data)
      (spaceship_cycles 0 s.top_cycle) = _
    unfold ss_paint_bot ss_paint_top
    simp only [e1, e2]
    rw [hsv2rgb_into_other _ _ _ _ _ _ k0.2.2, hsv2rgb_into_other _ _ _ _ _ _ k0.2.1,
      hsv2rgb_into_other _ _ _ _ _ _ k0.1]
    exact hat.1
  · show ss_paint_bot (ss_bot (ss_top (ss_init init level s)))
      (ss_paint_top (ss_top (ss_init init level s)) (if init then clear_lights hw else hw).data)
      (spaceship_cycles 0 s.top_cycle + 1) = _
    unfold ss_paint_bot ss_paint_top
    simp only [e1, e2]
    rw [hsv2rgb_into_other _ _ _ _ _ _ k1.2.2, hsv2rgb_into_other _ _ _ _ _ _ k1.2.1,
      hsv2rgb_into_other _ _ _ _ _ _ k1.1]
    exact hat.2.1
  · show ss_paint_bot (ss_bot (ss_top (ss_init init level s)))
      (ss_paint_top (ss_top (ss_init init level s)) (if init then clear_lights hw else hw).data)
      (spaceship_cycles 0 s.top_cycle + 2) = _
    unfold ss_paint_bot ss_paint_top
    simp only [e1, e2]
    rw [hsv2rgb_into_other _ _ _ _ _ _ k2.2.2, hsv2rgb_into_other _ _ _ _ _ _ k2.2.1,
      hsv2rgb_into_other _ _ _ _ _ _ k2.1]
    exact hat.2.2

theorem toU16_1638 : toU16 (819 / 50) = 16 := by
  have hf : ⌊(819 / 50 : ℚ)⌋ = 16 := by
    rw [Int.floor_eq_iff]; norm_num
  have h0 : (0 : ℚ) ≤ 819 / 50 := by norm_num
  simp only [toU16, truncQ, if_pos h0, hf]
  rfl

theorem hsv2rgb_first_lead : hsv2rgb 1 1 (4 / 1000) = (16, 0, 0) := by
  have h1 : truncQ ((1 : ℚ) * 6) = 6 := by
    norm_num [truncQ]
  have h2 : (6 : Int).tmod 6 = 0 := by decide
  simp only [hsv2rgb, h1, h2]
  norm_num [toU16_zero, toU16_1638]

/-- C18.  The first call of `spaceship_prog` at program start (`init = 1`, level
1.0): the lead channel of the top ring is channel 5, its colour is
`hsv2rgb(1.0, 1.0, 0.004) = (r, g, b) = (16, 0, 0)`, and after the call
`data[15] = 16`, `data[16] = 0`, `data[17] = 0`: the cell of the blue component
holds `r` and the cell of the red component holds `g`. -/
theorem spaceship_stores_rgb_order :
    spaceship_cycles 0 ss_start.top_cycle = 3 * 5
      ∧ (ss_top (ss_init true 1 ss_start)).ss_hue = 1
      ∧ (ss_top (ss_init true 1 ss_start)).ss_color 0 ss_start.top_cycle SAT = 1
      ∧ (ss_top (ss_init true 1 ss_start)).ss_color 0 ss_start.top_cycle VAL = 4 / 1000
      ∧ hsv2rgb 1 1 (4 / 1000) = (16, 0, 0)
      ∧ (spaceship_prog true 1 ss_start hw_start).2.data (3 * 5) = 16
      ∧ (spaceship_prog true 1 ss_start hw_start).2.data (3 * 5 + 1) = 0
      ∧ (spaceship_prog true 1 ss_start hw_start).2.data (3 * 5 + 2) = 0 := by
  have a1 : spaceship_cycles 0 ss_start.top_cycle = 3 * 5 := by decide
  have a2 : (ss_top (ss_init true 1 ss_start)).ss_hue = 1 := by
    norm_num [ss_top, ss_init, ss_start, set_color, VAL, SS_VAL_MAX]
  have a3 : (ss_top (ss_init true 1 ss_start)).ss_color 0 ss_start.top_cycle SAT = 1 := by
    norm_num [ss_top, ss_init, ss_start, set_color, VAL, SAT, SS_VAL_MAX]
  have a4 : (ss_top (ss_init true 1 ss_start)).ss_color 0 ss_start.top_cycle VAL = 4 / 1000 := by
    norm_num [ss_top, ss_init, ss_start, set_color, VAL, SS_VAL_MAX]
  obtain ⟨h1, h2, h3⟩ := spaceship_prog_lead_cells true 1 ss_start hw_start
    (by decide) (by decide)
  rw [a1, a2, a3, a4, hsv2rgb_first_lead] at h1 h2 h3
  exact ⟨a1, a2, a3, a4, hsv2rgb_first_lead, h1, h2, h3⟩
/-! ## What a call with `init = 1` does -/

/-- C17, counterexample.  After one call of `sun_show_prog` from program start
`day_counter` is 1; a call with `init = 1` from that state leaves
`day_counter = 2`, while the same call from the program-start state leaves
`day_counter = 1`. -/
theorem sun_init_keeps_counter :
    (sun_show_prog false 1 0 hw_start).1 = 1
      ∧ (sun_show_prog true 1 (sun_show_prog false 1 0 hw_start).1
          (sun_show_prog false 1 0 hw_start).2).1 = 2
      ∧ (sun_show_prog true 1 0 hw_start).1 = 1 :=
  ⟨rfl, rfl, rfl⟩

/-- C17, amended.  For each of the four generators and each level, a call with
`init = 1` clears the lights and sets only the variables that depend on the
level (none for the sun cycle; `ss_val` and `ss_delay` for the spaceship;
`xball_light_max` and `xball_delay` for the ornament; `val` for the colour
cycle); every other private variable keeps its value.  The call is the call
with `init = 0` from the prior state with these variables set, on the cleared
frame buffer. -/
theorem generator_init_effect (level : ℚ) (dc : Nat) (s : Ss) (x : XBall) (c : Cc) (hw : Hw) :
    sun_show_prog true level dc hw = sun_show_prog false level dc (clear_lights hw)
      ∧ spaceship_prog true level s hw
          = spaceship_prog false level
              { s with ss_val := SS_VAL_MAX * level, ss_delay := truncQ (SS_DELAY_MAX / level) }
              (clear_lights hw)
      ∧ xmas_ball_prog true level x hw
          = xmas_ball_prog false level
              { x with
                xball_light_max := toU16 (XBALL_LIGHT_LIMIT * level)
                xball_delay := truncQ (XBALL_DELAY_LIMIT / level) }
              (clear_lights hw)
      ∧ color_cycle_prog true level c hw
          = color_cycle_prog false level { c with val := COLOR_CYCLE_VAL_MAX * level }
              (clear_lights hw)
      ∧ (sun_show_prog true level dc hw).1 = (dc + 1) % DAY_FRAMES
      ∧ (color_cycle_prog true level c hw).1.hue = (cc_advance c).hue :=
  ⟨rfl, rfl, rfl, rfl, rfl, rfl⟩

/-! ## The program slot -/

theorem isr_fields (pind7 : Bool) (w : World) :
    (isr pind7 w).pcint23 = false
      ∧ (isr pind7 w).cur_program
          = (if pind7 then (w.cur_program + 1) % NUM_PROGRAMS else w.cur_program)
      ∧ (isr pind7 w).prog_change = (if pind7 then 1 else w.prog_change) := by
  cases pind7 <;> simp [isr]

theorem edge_cur_program (pind7 : Bool) (w : World) (h : w.cur_program < 8) :
    (edge pind7 w).cur_program < 8 := by
  unfold edge
  by_cases ha : w.pcint23 = true
  · rw [if_pos ha, (isr_fields pind7 w).2.1]
    cases pind7
    · simpa using h
    · simp only [if_true, NUM_PROGRAMS]
      exact Nat.mod_lt _ (by norm_num)
  · rw [if_neg ha]; exact h

/-- The slot is one of 0..7 in every state of the program. -/
theorem reach_cur_program (w : World) (h : WorldReach w) : w.cur_program < 8 := by
  induction h with
  | start => decide
  | change w _ ih => rw [main_change_cur_program]; exact ih
  | rearm w _ ih => exact ih
  | body p w _ ih => rw [(main_body_flags p w).2.2]; exact ih
  | edge pind7 w _ ih => exact edge_cur_program pind7 w ih

/-- The switch of `main` for a slot in 0..7: generator `k mod 4`, at level 1.0
for `k < 4` and 0.5 otherwise. -/
theorem dispatch_eq (w : World) (h : w.cur_program < 8) :
    dispatch w
      = (if w.cur_program % 4 = 0 then run_sun (if w.cur_program < 4 then 1 else 1 / 2) w
        else if w.cur_program % 4 = 1 then
          run_spaceship (if w.cur_program < 4 then 1 else 1 / 2) w
        else if w.cur_program % 4 = 2 then
          run_xmas_ball (if w.cur_program < 4 then 1 else 1 / 2) w
        else run_color_cycle (if w.cur_program < 4 then 1 else 1 / 2) w) := by
  have e1 : (1.0 : ℚ) = 1 := by norm_num
  have e2 : (0.5 : ℚ) = 1 / 2 := by norm_num
  unfold dispatch
  rw [e1, e2]
  generalize w.cur_program = k at h
  interval_cases k <;> simp

/-- C22.  The handler `ISR(PCINT2_vect)` always clears its enable bit; with the
companion pin high it makes `cur_program` `(cur_program + 1) mod 8` (a different
value) and `prog_change` 1, with the pin low it leaves both as they are.  In
every state of the program `cur_program` is in 0..7, and the switch of `main`
invokes exactly one generator: slot `k` runs generator `k mod 4` (0 sun, 1
spaceship, 2 ornament, 3 colour cycle) at level 1.0 for `k < 4` and 0.5 for
`k >= 4`. -/
theorem isr_slot_range (w : World) (h : WorldReach w) :
    (∀ (pind7 : Bool) (v : World), (isr pind7 v).pcint23 = false)
      ∧ (∀ v : World, (isr true v).cur_program = (v.cur_program + 1) % 8
          ∧ (isr true v).cur_program ≠ v.cur_program ∧ (isr true v).prog_change = 1)
      ∧ (∀ v : World, (isr false v).cur_program = v.cur_program
          ∧ (isr false v).prog_change = v.prog_change)
      ∧ w.cur_program < 8
      ∧ dispatch w
          = (if w.cur_program % 4 = 0 then run_sun (if w.cur_program < 4 then 1 else 1 / 2) w
            else if w.cur_program % 4 = 1 then
              run_spaceship (if w.cur_program < 4 then 1 else 1 / 2) w
            else if w.cur_program % 4 = 2 then
              run_xmas_ball (if w.cur_program < 4 then 1 else 1 / 2) w
            else run_color_cycle (if w.cur_program < 4 then 1 else 1 / 2) w)
      ∧ (∃ c : Call, (dispatch w).calls = w.calls ++ [c]
          ∧ call_sig c = (w.cur_program % 4, w.init_prog, if w.cur_program < 4 then 1 else 1 / 2)) := by
  have h8 := reach_cur_program w h
  refine ⟨fun pind7 v => (isr_fields pind7 v).1, ?_, ?_, h8, dispatch_eq w h8, ?_⟩
  · intro v
    obtain ⟨-, a, b⟩ := isr_fields true v
    simp only [if_true, NUM_PROGRAMS] at a b
    refine ⟨a, ?_, b⟩
    rw [a]; omega
  · intro v
    obtain ⟨-, a, b⟩ := isr_fields false v
    exact ⟨by simpa using a, by simpa using b⟩
  · exact ⟨⟨w.cur_program % 4, w.init_prog, if w.cur_program < 4 then 1 else 1 / 2,
      snapshot w.hw.data⟩, by rw [dispatch_calls, if_pos h8], rfl⟩

/-- C22, at a concrete input: the state after the first edge at program start,
slot 1, where the switch runs the spaceship generator at level 1.0. -/
theorem isr_slot_range_witness :
    (edge true world_start).cur_program < 8
      ∧ dispatch (edge true world_start) = run_spaceship 1 (edge true world_start) :=
  ⟨(isr_slot_range (edge true world_start) (WorldReach.edge true _ WorldReach.start)).2.2.2.1,
    (isr_slot_range (edge true world_start)
      (WorldReach.edge true _ WorldReach.start)).2.2.2.2.1.trans (by
        have e : (edge true world_start).cur_program = 1 := rfl
        rw [e]; simp)⟩

/-! ## The sun generator and the level -/

/-- C25.  `sun_show_prog` does not use its `level` argument: for every
`day_counter`, frame buffer and `init`, two calls that differ only in the level
write the same frame buffer, transmit the same frames, wait the same 20 ms and
leave the same `day_counter`.  In `main`, slot 0 (level 1.0) and slot 4 (level
0.5) have the same effect on the hardware and on the animation state. -/
theorem sun_ignores_level (init : Bool) (l1 l2 : ℚ) (dc : Nat) (hw : Hw) :
    sun_show_prog init l1 dc hw = sun_show_prog init l2 dc hw
      ∧ (∃ l : List Event, (sun_show_prog init l1 dc hw).2.log = l ++ [Event.wait_ms 20])
      ∧ ∀ w : World,
          (dispatch { w with cur_program := 0 }).hw = (dispatch { w with cur_program := 4 }).hw
          ∧ anim (dispatch { w with cur_program := 0 })
              = anim (dispatch { w with cur_program := 4 })
          ∧ (dispatch { w with cur_program := 0 }).calls.map call_sig
              = w.calls.map call_sig ++ [(0, w.init_prog, 1)]
          ∧ (dispatch { w with cur_program := 4 }).calls.map call_sig
              = w.calls.map call_sig ++ [(0, w.init_prog, 1 / 2)] := by
  refine ⟨rfl, ⟨_, rfl⟩, ?_⟩
  intro w
  refine ⟨rfl, rfl, ?_, ?_⟩
  · rw [dispatch_calls]
    simp [call_sig]
  · rw [dispatch_calls]
    simp [call_sig]

/-! ## The hues of the built-in day cycle -/

/-- Every hue anchor of the table `sun_bands` is below `0.16` or above `0.5`. -/
theorem sun_bands_hue_side :
    ∀ band : Nat, band < 4 → ∀ hour : Nat, hour < 10 →
      (0 ≤ sun_bands band hour 0 ∧ sun_bands band hour 0 < 4 / 25)
        ∨ (1 / 2 < sun_bands band hour 0 ∧ sun_bands band hour 0 ≤ 1) := by
  intro band hb hour hh
  interval_cases band <;> interval_cases hour <;>
    simp only [sun_bands, sun_bands_rows, List.getD_cons_succ, List.getD_cons_zero] <;>
    norm_num

/-- Between two anchors that are each below `0.16` or above `0.5` the
interpolated hue stays in `[0, 0.16)` or in `(0.5, 1]`. -/
theorem sun_hue_side (h1 h2 p : ℚ)
    (a1 : (0 ≤ h1 ∧ h1 < 4 / 25) ∨ (1 / 2 < h1 ∧ h1 ≤ 1))
    (a2 : (0 ≤ h2 ∧ h2 < 4 / 25) ∨ (1 / 2 < h2 ∧ h2 ≤ 1))
    (hp : 0 ≤ p ∧ p ≤ 1) :
    (0 ≤ sun_hue h1 h2 p ∧ sun_hue h1 h2 p < 4 / 25)
      ∨ (1 / 2 < sun_hue h1 h2 p ∧ sun_hue h1 h2 p ≤ 1) := by
  obtain ⟨hp0, hp1⟩ := hp
  have hq : 0 ≤ 1 - p := by linarith
  have e16 : (0.16 : ℚ) = 4 / 25 := by norm_num
  have e05 : (0.5 : ℚ) = 1 / 2 := by norm_num
  have e10 : (1.0 : ℚ) = 1 := by norm_num
  have e00 : (0.0 : ℚ) = 0 := by norm_num
  unfold sun_hue
  rw [e16, e05, e10, e00]
  rcases a1 with ⟨l1, u1⟩ | ⟨l1, u1⟩ <;> rcases a2 with ⟨l2, u2⟩ | ⟨l2, u2⟩
  · have g1 : ¬ (h2 < h1 ∧ h2 < 4 / 25 ∧ h1 > 1 / 2) := fun h => by linarith [h.2.2]
    have g2 : ¬ (h1 < h2 ∧ h2 > 1 / 2 ∧ h1 < 4 / 25) := fun h => by linarith [h.2.1]
    rw [if_neg g1, if_neg g2]
    left
    have e : h1 + (h2 - h1) * p = (1 - p) * h1 + p * h2 := by ring
    rw [e]
    constructor
    · have := mul_nonneg hq l1
      have := mul_nonneg hp0 l2
      linarith
    · have : (1 - p) * h1 ≤ (1 - p) * h1 + 0 := by linarith
      nlinarith [mul_nonneg hq (by linarith : 0 ≤ 4 / 25 - h1),
        mul_nonneg hp0 (by linarith : 0 ≤ 4 / 25 - h2),
        mul_nonneg hq (by linarith : (0 : ℚ) ≤ 4 / 25 - h1), hp0, hq, l1, l2]
  · have g1 : ¬ (h2 < h1 ∧ h2 < 4 / 25 ∧ h1 > 1 / 2) := fun h => by linarith [h.2.2]
    have g2 : h1 < h2 ∧ h2 > 1 / 2 ∧ h1 < 4 / 25 := ⟨by linarith, l2, u1⟩
    rw [if_neg g1, if_pos g2]
    simp only
    have hd : 0 ≤ (h1 + 1 - h2) * p := mul_nonneg (by linarith) hp0
    have hd1 : (h1 + 1 - h2) * p ≤ h1 + 1 - h2 := by
      have := mul_nonneg (by linarith : 0 ≤ h1 + 1 - h2) hq
      nlinarith
    have e : h1 + (h2 - (h1 + 1)) * p = h1 - (h1 + 1 - h2) * p := by ring
    rw [e]
    by_cases hneg : h1 - (h1 + 1 - h2) * p < 0
    · rw [if_pos hneg]
      right
      constructor <;> linarith
    · rw [if_neg hneg]
      left
      constructor <;> linarith
  · have g1 : h2 < h1 ∧ h2 < 4 / 25 ∧ h1 > 1 / 2 := ⟨by linarith, u2, l1⟩
    rw [if_pos g1]
    simp only
    have hd : 0 ≤ (h2 + 1 - h1) * p := mul_nonneg (by linarith) hp0
    have hd1 : (h2 + 1 - h1) * p ≤ h2 + 1 - h1 := by
      have := mul_nonneg (by linarith : 0 ≤ h2 + 1 - h1) hq
      nlinarith
    by_cases hbig : h1 + (h2 + 1 - h1) * p > 1
    · rw [if_pos hbig]
      left
      constructor <;> linarith
    · rw [if_neg hbig]
      right
      constructor <;> linarith
  · have g1 : ¬ (h2 < h1 ∧ h2 < 4 / 25 ∧ h1 > 1 / 2) := fun h => by linarith [h.2.1]
    have g2 : ¬ (h1 < h2 ∧ h2 > 1 / 2 ∧ h1 < 4 / 25) := fun h => by linarith [h.2.2]
    rw [if_neg g1, if_neg g2]
    right
    have e : h1 + (h2 - h1) * p = (1 - p) * h1 + p * h2 := by ring
    rw [e]
    constructor
    · nlinarith [mul_nonneg hq (by linarith : 0 ≤ h1 - 1 / 2),
        mul_nonneg hp0 (by linarith : 0 ≤ h2 - 1 / 2), mul_pos_iff.mpr
          (Or.inl ⟨(by linarith : (0 : ℚ) < h1 - 1 / 2), (by linarith : (0 : ℚ) < h2 - 1 / 2)⟩)]
    · nlinarith [mul_nonneg hq (by linarith : 0 ≤ 1 - h1),
        mul_nonneg hp0 (by linarith : 0 ≤ 1 - h2)]

/-- C24.  For the built-in table `sun_bands`, every band 0..3 and every
`day_counter` below 5000: the hue that `sun_show_prog` interpolates between the
anchors of the current segment and the next one (segment 0 after segment 9) is
in `[0,1]` and not in the green band `(60/360, 180/360)`; it is below `0.16` or
above `0.5`. -/
theorem sun_day_avoids_green (band : Nat) (hb : band < 4) (dc : Nat) (hdc : dc < 5000) :
    (0 ≤ sun_hue (sun_bands band (sun_start_hour dc).toNat 0)
          (sun_bands band (sun_end_hour dc).toNat 0) (sun_progress dc)
      ∧ sun_hue (sun_bands band (sun_start_hour dc).toNat 0)
          (sun_bands band (sun_end_hour dc).toNat 0) (sun_progress dc) ≤ 1)
    ∧ ¬ ((60 : ℚ) / 360 < sun_hue (sun_bands band (sun_start_hour dc).toNat 0)
          (sun_bands band (sun_end_hour dc).toNat 0) (sun_progress dc)
        ∧ sun_hue (sun_bands band (sun_start_hour dc).toNat 0)
          (sun_bands band (sun_end_hour dc).toNat 0) (sun_progress dc) < 180 / 360)
    ∧ (sun_end_hour dc).toNat = ((sun_start_hour dc).toNat + 1) % 10
    ∧ (sun_start_hour dc).toNat < 10 := by
  obtain ⟨e1, h10, e2, -, p0, p1⟩ := sun_hours dc hdc
  have s1 : (sun_start_hour dc).toNat = dc / 500 := by rw [e1]; rfl
  have s2 : (sun_end_hour dc).toNat = (dc / 500 + 1) % 10 := by rw [e2]; rfl
  have hside := sun_hue_side _ _ (sun_progress dc)
    (sun_bands_hue_side band hb (sun_start_hour dc).toNat (by rw [s1]; exact h10))
    (sun_bands_hue_side band hb (sun_end_hour dc).toNat
      (by rw [s2]; exact Nat.mod_lt _ (by norm_num)))
    ⟨p0, le_of_lt p1⟩
  refine ⟨?_, ?_, by rw [s2, s1], by rw [s1]; exact h10⟩
  · rcases hside with ⟨a, b⟩ | ⟨a, b⟩
    · exact ⟨a, by linarith⟩
    · exact ⟨by linarith, b⟩
  · rintro ⟨c, d⟩
    rcases hside with ⟨a, b⟩ | ⟨a, b⟩
    · norm_num at c; linarith
    · norm_num at d; linarith

/-- C24, at a concrete input: band 2 at `day_counter = 4250`, half-way from
segment 8 (hue 48/360) to segment 9 (hue 10/360). -/
theorem sun_day_avoids_green_witness :
    ¬ ((60 : ℚ) / 360 < sun_hue (sun_bands 2 (sun_start_hour 4250).toNat 0)
          (sun_bands 2 (sun_end_hour 4250).toNat 0) (sun_progress 4250)
        ∧ sun_hue (sun_bands 2 (sun_start_hour 4250).toNat 0)
          (sun_bands 2 (sun_end_hour 4250).toNat 0) (sun_progress 4250) < 180 / 360) :=
  (sun_day_avoids_green 2 (by norm_num) 4250 (by norm_num)).2.1

/-! ## The indices used on the frame buffer -/

theorem write_words_checked_in_range (data : Nat → Nat) :
    ∀ x : Nat, x < NUM_BITS → write_words_checked data x = some (write_words data x) := by
  intro x
  induction x with
  | zero => intro _; rfl
  | succ x ih =>
    intro hx
    have h1 : data_get data (x + 1) = some (data (x + 1)) := by
      unfold data_get; rw [if_pos hx]
    show (data_get data (x + 1)).bind _ = _
    rw [h1, Option.some_bind, ih (by omega)]
    rfl

theorem clear_loop_checked_in_range (data : Nat → Nat) :
    ∀ bound : Nat, bound < NUM_BITS →
      clear_loop_checked data bound
        = some ((List.range (bound + 1)).foldl (fun d x => Function.update d x 0) data) := by
  intro bound
  induction bound with
  | zero => intro _; rfl
  | succ b ih =>
    intro hb
    have h0 := ih (by omega)
    unfold clear_loop_checked at h0 ⊢
    rw [List.range_succ, List.foldlM_append, h0, List.foldl_append]
    show (List.foldlM (fun d x => data_set d x 0) _ [b + 1]) = _
    rw [List.foldlM_cons]
    unfold data_set
    rw [if_pos hb]
    rfl

/-- C23.  With the indices checked against `uint16_t data[NUM_BITS]`, the loop of
`clear_lights` (`x = 0 .. NUM_BITS`) and the loop of `write_data`
(`x = NUM_BITS .. 0`) both fail for every content of the frame buffer: each uses
the index 24.  Run to 23 instead, both succeed and agree with the unchecked
loops.  In the unchecked model `clear_lights` stores 0 into the cell after the
array.  The tables that the four generators index `data` with stay within the
array: every base index plus 2 is at most 23. -/
theorem frame_buffer_index_24 (data : Nat → Nat) (hw : Hw) :
    clear_loop_checked data NUM_BITS = none
      ∧ write_words_checked data NUM_BITS = none
      ∧ clear_loop_checked data (NUM_BITS - 1)
          = some ((List.range NUM_BITS).foldl (fun d x => Function.update d x 0) data)
      ∧ write_words_checked data (NUM_BITS - 1) = some (write_words data (NUM_BITS - 1))
      ∧ (clear_lights hw).data NUM_BITS = 0
      ∧ (∀ set : Nat, set < 2 → ∀ x : Nat, x < 4 → xmas_ball_sets set x + 2 < NUM_BITS)
      ∧ (∀ band : Nat, band < 4 → ∀ k : Nat, k < 2 → sun_rings band k + 2 < NUM_BITS)
      ∧ (∀ ring : Nat, ring < 2 → ∀ pos : Nat, pos < 4 →
          spaceship_cycles ring pos + 2 < NUM_BITS)
      ∧ (∀ led : Nat, led ≤ 7 → led * 3 + 2 < NUM_BITS) := by
  have h23 : NUM_BITS - 1 < NUM_BITS := by decide
  refine ⟨?_, ?_, clear_loop_checked_in_range data _ h23,
    write_words_checked_in_range data _ h23, ?_, by decide, by decide, by decide, ?_⟩
  · have h0 := clear_loop_checked_in_range data (NUM_BITS - 1) h23
    unfold clear_loop_checked at h0 ⊢
    rw [List.range_succ, List.foldlM_append]
    have e : NUM_BITS - 1 + 1 = NUM_BITS := by decide
    rw [e] at h0
    rw [h0]
    rfl
  · show (data_get data 24).bind _ = none
    rfl
  · rw [clear_lights_data, if_pos (le_refl _)]
  · intro led h
    unfold NUM_BITS
    omega

/-! ## The initialize flag -/

/-- The value of `init_prog` after an iteration of `main`: it stays set only
when the too-bright test cuts the iteration short. -/
theorem main_iter_init_prog (p : Pins) (w : World) :
    (main_iter p w).init_prog
      = (if p.sw_sense = true ∧ (if p.adc_done then p.adc else w.adc_num) > 260 then
          (if w.prog_change ≠ 0 then 1 else w.init_prog)
        else 0) := by
  obtain ⟨-, -, -, e4, -, -, -, -, e9, -⟩ := main_change_globals w
  unfold main_iter
  by_cases hs : p.sw_sense = true
  · have hb := main_body_sense p (main_rearm (main_change w)) hs
    rw [e4] at hb
    by_cases ha : (if p.adc_done then p.adc else w.adc_num) > 260
    · have hc : p.sw_sense = true ∧ (if p.adc_done then p.adc else w.adc_num) > 260 :=
        ⟨hs, ha⟩
      rw [if_pos ha] at hb
      rw [if_pos hc, hb]
      exact e9
    · have hc : ¬ (p.sw_sense = true ∧ (if p.adc_done then p.adc else w.adc_num) > 260) :=
        fun h => ha h.2
      rw [if_neg ha] at hb
      rw [if_neg hc, hb]
      rfl
  · have hs' : p.sw_sense = false := by simpa using hs
    have hc : ¬ (p.sw_sense = true ∧ (if p.adc_done then p.adc else w.adc_num) > 260) :=
      fun h => hs h.1
    rw [if_neg hc]
    by_cases ho : p.sw_on = true
    · rw [main_body_on p _ hs' ho]; rfl
    · rw [main_body_off p _ hs' (by simpa using ho)]

/-- An iteration with a switch asserted and no too-bright cut invokes the
generator of the slot once; `init` is 1 when a change was pending and the old
`init_prog` otherwise. -/
theorem main_iter_call (p : Pins) (w : World) (h8 : w.cur_program < 8)
    (hp : (p.sw_sense = true ∧ (if p.adc_done then p.adc else w.adc_num) ≤ 260)
      ∨ (p.sw_sense = false ∧ p.sw_on = true)) :
    (main_iter p w).calls.map call_sig
      = w.calls.map call_sig
        ++ [(w.cur_program % 4, (if w.prog_change ≠ 0 then 1 else w.init_prog),
            if w.cur_program < 4 then 1 else 1 / 2)] := by
  obtain ⟨-, e2, e3, e4, -, -, -, -, e9, -⟩ := main_change_globals w
  unfold main_iter
  rcases hp with ⟨hs, ha⟩ | ⟨hs, ho⟩
  · have hb := main_body_sense p (main_rearm (main_change w)) hs
    rw [e4, if_neg (not_lt.mpr ha)] at hb
    rw [hb, main_show_calls, dispatch_calls]
    simp only [e2, e3, e9, if_pos h8, List.map_append, List.map_cons, List.map_nil, call_sig]
  · rw [main_body_on p _ hs ho, main_show_calls, dispatch_calls]
    simp only [e2, e3, e9, if_pos h8, List.map_append, List.map_cons, List.map_nil, call_sig]

/-- An iteration with both switches off, on the state. -/
theorem off_mode_step (p : Pins) (w : World) (hs : p.sw_sense = false) (ho : p.sw_on = false) :
    main_iter p w = { main_rearm (main_change w) with last_state := 0, init_prog := 0 }
      ∧ (main_iter p w).calls = w.calls
      ∧ anim (main_iter p w) = anim w
      ∧ (main_iter p w).last_state = 0 := by
  obtain ⟨-, e2, -, -, e5, e6, e7, e8, -, -⟩ := main_change_globals w
  have e : main_iter p w = { main_rearm (main_change w) with last_state := 0, init_prog := 0 } :=
    main_body_off p _ hs ho
  refine ⟨e, ?_, ?_, ?_⟩
  · rw [e]; exact e2
  · rw [e]
    show ((main_rearm (main_change w)).day_counter, (main_rearm (main_change w)).ss,
      (main_rearm (main_change w)).xb, (main_rearm (main_change w)).cc) = _
    rw [e5, e6, e7, e8]; rfl
  · rw [e]

/-- The scenario `off_presses`: each press advances the slot, no generator is
invoked, and every iteration leaves `init_prog = 0` with the handler re-armed. -/
theorem off_presses_state (n : Nat) :
    (off_presses n).cur_program = n % 8 ∧ (off_presses n).init_prog = 0
      ∧ (off_presses n).prog_change = 0 ∧ (off_presses n).pcint23 = true
      ∧ (off_presses n).calls = [] ∧ (off_presses n).last_state = 0
      ∧ anim (off_presses n) = anim world_start := by
  induction n with
  | zero =>
    obtain ⟨a1, a2, a3, a4⟩ := off_mode_step ⟨false, false, false, 0⟩ world_start rfl rfl
    obtain ⟨-, -, e3, -, -, -, -, -, -, e10⟩ := main_change_globals world_start
    have e : off_presses 0 = main_iter ⟨false, false, false, 0⟩ world_start := rfl
    rw [e]
    refine ⟨?_, ?_, ?_, ?_, a2, a4, a3⟩
    · rw [a1]; exact e3
    · rw [a1]
    · rw [a1]; exact e10
    · rw [a1]; rfl
  | succ n ih =>
    obtain ⟨i1, -, -, i4, i5, -, i7⟩ := ih
    have ee := edge_armed (off_presses n) i4
    obtain ⟨a1, a2, a3, a4⟩ :=
      off_mode_step ⟨false, false, false, 0⟩ (edge true (off_presses n)) rfl rfl
    obtain ⟨-, -, e3, -, -, -, -, -, -, e10⟩ := main_change_globals (edge true (off_presses n))
    have e : off_presses (n + 1)
        = main_iter ⟨false, false, false, 0⟩ (edge true (off_presses n)) := rfl
    rw [e]
    refine ⟨?_, ?_, ?_, ?_, ?_, a4, ?_⟩
    · rw [a1]
      show (main_rearm (main_change (edge true (off_presses n)))).cur_program = _
      rw [e3, ee]
      show ((off_presses n).cur_program + 1) % NUM_PROGRAMS = _
      rw [i1]
      unfold NUM_PROGRAMS
      omega
    · rw [a1]
    · rw [a1]; exact e10
    · rw [a1]; rfl
    · rw [a2, ee]; exact i5
    · rw [a3, ee]; exact i7

theorem ss_next_ss_val (init : Bool) (level : ℚ) (s : Ss) :
    (ss_next init level s).ss_val
      = (if (if init then SS_VAL_MAX * level else s.ss_val) + s.ss_val_step > 1 then 1
        else if (if init then SS_VAL_MAX * level else s.ss_val) + s.ss_val_step < 0 then 0
        else (if init then SS_VAL_MAX * level else s.ss_val) + s.ss_val_step) := by
  obtain ⟨-, -, -, -, -, -, i7, i8⟩ := ss_init_fields init level s
  obtain ⟨-, -, -, t4, -, t6, -, -⟩ := ss_top_fields (ss_init init level s)
  obtain ⟨-, -, -, b4, -, b6, -⟩ := ss_bot_fields (ss_top (ss_init init level s))
  obtain ⟨-, -, -, -, -, u6, -, u8⟩ := ss_hues_fields (ss_bot (ss_top (ss_init init level s)))
  obtain ⟨-, -, -, -, -, a6, -⟩ := ss_advance_fields
    (ss_vals (ss_hues (ss_bot (ss_top (ss_init init level s)))))
  have hv : (ss_hues (ss_bot (ss_top (ss_init init level s)))).ss_val
      = (if init then SS_VAL_MAX * level else s.ss_val) := by
    rw [u6, b4, t4, i8]
  have hs : (ss_hues (ss_bot (ss_top (ss_init init level s)))).ss_val_step = s.ss_val_step := by
    rw [u8, b6, t6, i7]
  unfold ss_next
  rw [a6]
  generalize ss_hues (ss_bot (ss_top (ss_init init level s))) = y at hv hs
  have e10 : (1.0 : ℚ) = 1 := by norm_num
  have e00 : (0.0 : ℚ) = 0 := by norm_num
  simp only [ss_vals, e10, e00, hv, hs]
  split_ifs <;> rfl

/-- What the ON iteration after the scenario `off_presses n` invokes. -/
theorem on_after_off_presses (n : Nat) :
    (main_iter ⟨false, true, false, 0⟩ (off_presses n)).calls.map call_sig
      = [(n % 8 % 4, 0, if n % 8 < 4 then 1 else 1 / 2)] := by
  obtain ⟨i1, i2, i3, -, i5, -⟩ := off_presses_state n
  have h8 : (off_presses n).cur_program < 8 := by rw [i1]; exact Nat.mod_lt _ (by norm_num)
  rw [main_iter_call _ _ h8 (Or.inr ⟨rfl, rfl⟩), i1, i2, i3, i5]
  rfl

/-- C21.  The code departs from the claim when the iteration that handles the
change runs with both switches off.  At program start a change is pending; the
first iteration, with the switches off, handles it and ends with
`init_prog = 0` without invoking a generator, and the first invocation, in the
next iteration with the ON switch asserted, is `sun_show_prog(0, 1.0)`.  After
five presses made with the switches off the slot is 5, and the first invocation
is `spaceship_prog(0, 0.5)`: the ceiling `ss_val` is then 1 after the call, where
the call with `init = 1` leaves `0.5004`. -/
theorem init_flag_lost_in_off :
    (world_start.prog_change = 1
      ∧ (off_presses 0).init_prog = 0 ∧ (off_presses 0).calls = []
      ∧ (main_iter ⟨false, true, false, 0⟩ (off_presses 0)).calls.map call_sig = [(0, 0, 1)])
    ∧ ((off_presses 5).cur_program = 5 ∧ (off_presses 5).prog_change = 0
      ∧ (off_presses 5).init_prog = 0 ∧ (off_presses 5).calls = []
      ∧ (main_iter ⟨false, true, false, 0⟩ (off_presses 5)).calls.map call_sig
          = [(1, 0, 1 / 2)]
      ∧ (main_iter ⟨false, true, false, 0⟩ (off_presses 5)).ss.ss_val = 1
      ∧ (ss_next true (1 / 2) ss_start).ss_val = 5004 / 10000) := by
  obtain ⟨-, z2, -, -, z5, -⟩ := off_presses_state 0
  obtain ⟨i1, i2, i3, -, i5, -, i7⟩ := off_presses_state 5
  have hz := on_after_off_presses 0
  have h5 := on_after_off_presses 5
  norm_num at hz h5
  refine ⟨⟨rfl, z2, z5, hz⟩, i1, i3, i2, i5, h5, ?_, ?_⟩
  · obtain ⟨-, -, e3, -, -, e6, -, -, e9, -⟩ := main_change_globals (off_presses 5)
    rw [if_neg (by rw [i3]; simp), i2] at e9
    rw [i1] at e3
    have hss : (off_presses 5).ss = ss_start := by
      have := i7
      simp only [anim, Prod.mk.injEq] at this
      exact this.2.1
    rw [hss] at e6
    unfold main_iter
    rw [main_body_on _ _ rfl rfl]
    generalize main_rearm (main_change (off_presses 5)) = v at e3 e6 e9
    show (dispatch _).ss.ss_val = 1
    rw [dispatch_eq _ (by show v.cur_program < 8; rw [e3]; norm_num)]
    dsimp only
    rw [e3]
    norm_num
    show (ss_next (decide (v.init_prog ≠ 0)) (1 / 2) v.ss).ss_val = 1
    rw [e9, e6, ss_next_ss_val]
    norm_num [ss_start, SS_VAL_MAX]
  · rw [ss_next_ss_val]
    norm_num [ss_start, SS_VAL_MAX]

/-! ## The spaceship generator: ranges of values and hues -/

/-- Every component that `hsv2rgb` writes is at most 4095 when the saturation and
the value are in `[0,1]` and the hue is not negative. -/
theorem hsv2rgb_le_4095 (h s v : ℚ) (hh : 0 ≤ h) (hs : 0 ≤ s ∧ s ≤ 1) (hv : 0 ≤ v ∧ v ≤ 1) :
    (hsv2rgb h s v).1 ≤ 4095 ∧ (hsv2rgb h s v).2.1 ≤ 4095 ∧ (hsv2rgb h s v).2.2 ≤ 4095 := by
  obtain ⟨hp0, hpq, hpt, hqv, htv⟩ := hsv_sector_bounds h s v hs hv
  have hcases := hsv_six_sector_cases h s v
  simp only at hcases hp0 hpq hpt hqv htv
  have B : ∀ x : ℚ, 0 ≤ x → x ≤ 1 → toU16 (4095 * x) ≤ 4095 := by
    intro x h0 h1
    obtain ⟨e, b⟩ := toU16_of_range (show (0 : ℚ) ≤ 4095 * x by positivity)
      (show (4095 : ℚ) * x ≤ 4095 by linarith)
    rw [e]; exact b
  have hv1 := hv.2
  have Bv := B v hv.1 hv1
  have Bp := B _ hp0 (by linarith)
  have Bq := B _ (by linarith) (by linarith : v * (1 - (6 * h - ⌊6 * h⌋) * s) ≤ 1)
  have Bt := B _ (by linarith) (by linarith : v * (1 - (1 - (6 * h - ⌊6 * h⌋)) * s) ≤ 1)
  rw [hsv2rgb_eq_six_sector h s v hh]
  rcases hcases with e | e | e | e | e | e <;> rw [e] <;> exact ⟨by assumption, by assumption, by assumption⟩

theorem set_color_grid (c : Nat → Nat → Nat → ℚ) (ring pos : Nat) (x : ℚ) (hc : ValGrid c)
    (hx : ∃ k : Nat, k ≤ 250 ∧ x = (k : ℚ) * 0.004) : ValGrid (set_color c ring pos VAL x) := by
  refine ⟨?_, ?_⟩
  · intro a b
    unfold set_color
    by_cases h : a = ring ∧ b = pos ∧ VAL = VAL
    · rw [if_pos h]; exact hx
    · rw [if_neg h]; exact hc.1 a b
  · intro a b ha
    unfold set_color
    have h : ¬ (a = ring ∧ b = pos ∧ SAT = VAL) := fun h => by
      have := h.2.2
      simp [SAT, VAL] at this
    rw [if_neg h]; exact hc.2 a b ha

theorem grid_le_one (c : Nat → Nat → Nat → ℚ) (hc : ValGrid c) (ring pos : Nat) :
    0 ≤ c ring pos VAL ∧ c ring pos VAL ≤ 1 := by
  obtain ⟨k, hk, e⟩ := hc.1 ring pos
  have hk' : (k : ℚ) ≤ 250 := by exact_mod_cast hk
  have hk0 : (0 : ℚ) ≤ k := Nat.cast_nonneg k
  rw [e]
  constructor
  · positivity
  · norm_num
    linarith

theorem grid_succ (x lim : ℚ) (hx : ∃ k : Nat, k ≤ 250 ∧ x = (k : ℚ) * 0.004) (h : ¬ x ≥ lim)
    (hl : lim ≤ 1) : ∃ k : Nat, k ≤ 250 ∧ x + 0.004 = (k : ℚ) * 0.004 := by
  obtain ⟨k, hk, e⟩ := hx
  refine ⟨k + 1, ?_, ?_⟩
  · by_contra hcon
    have hk2 : k = 250 := by omega
    subst hk2
    rw [e] at h
    norm_num at h
    linarith
  · rw [e]; push_cast; ring

theorem grid_pred (x : ℚ) (hx : ∃ k : Nat, k ≤ 250 ∧ x = (k : ℚ) * 0.004) (h : x - 0.004 > 0) :
    ∃ k : Nat, k ≤ 250 ∧ x - 0.004 = (k : ℚ) * 0.004 := by
  obtain ⟨k, hk, e⟩ := hx
  cases k with
  | zero =>
    rw [e] at h
    norm_num at h
  | succ n =>
    refine ⟨n, by omega, ?_⟩
    rw [e]; push_cast; ring

theorem grid_zero : ∃ k : Nat, k ≤ 250 ∧ (0.0 : ℚ) = (k : ℚ) * 0.004 :=
  ⟨0, by norm_num, by norm_num⟩

theorem ss_top_grid (s : Ss) (hc : ValGrid s.ss_color) (hv : s.ss_val ≤ 1) :
    ValGrid (ss_top s).ss_color := by
  by_cases hit : s.ss_color 0 s.top_cycle VAL ≥ s.ss_val
  · simp only [ss_top, if_pos hit]
    exact set_color_grid _ _ _ _ hc grid_zero
  · have g1 : ValGrid (set_color s.ss_color 0 s.top_cycle VAL
        (s.ss_color 0 s.top_cycle VAL + 0.004)) :=
      set_color_grid _ _ _ _ hc (grid_succ _ _ (hc.1 0 s.top_cycle) hit hv)
    have hno : ¬ (set_color s.ss_color 0 s.top_cycle VAL
        (s.ss_color 0 s.top_cycle VAL + 0.004) 0 s.top_cycle VAL > 0xFFF) := by
      have := (grid_le_one _ g1 0 s.top_cycle).2
      intro hgt
      norm_num at hgt
      linarith
    simp only [ss_top, if_neg hit, if_neg hno]
    split_ifs with hp
    · exact set_color_grid _ _ _ _ g1 (grid_pred _ (g1.1 0 _) hp)
    · exact set_color_grid _ _ _ _ g1 grid_zero

theorem ss_bot_grid (s : Ss) (hc : ValGrid s.ss_color) (hv : s.ss_val_bot ≤ 1) :
    ValGrid (ss_bot s).ss_color := by
  by_cases hit : s.ss_color 1 s.bot_cycle VAL ≥ s.ss_val_bot
  · simp only [ss_bot, if_pos hit]
    exact set_color_grid _ _ _ _ hc grid_zero
  · have g1 : ValGrid (set_color s.ss_color 1 s.bot_cycle VAL
        (s.ss_color 1 s.bot_cycle VAL + 0.004)) :=
      set_color_grid _ _ _ _ hc (grid_succ _ _ (hc.1 1 s.bot_cycle) hit hv)
    have hno : ¬ (set_color s.ss_color 1 s.bot_cycle VAL
        (s.ss_color 1 s.bot_cycle VAL + 0.004) 0 s.top_cycle VAL > 0xFFF) := by
      have := (grid_le_one _ g1 0 s.top_cycle).2
      intro hgt
      norm_num at hgt
      linarith
    simp only [ss_bot, if_neg hit, if_neg hno]
    split_ifs with hp
    · exact set_color_grid _ _ _ _ g1 (grid_pred _ (g1.1 1 _) hp)
    · exact set_color_grid _ _ _ _ g1 grid_zero

theorem ss_hue_kept (init : Bool) (level : ℚ) (s : Ss) :
    ((ss_init init level s).ss_hue = s.ss_hue ∧ (ss_init init level s).ss_hue_bot = s.ss_hue_bot)
      ∧ ((ss_top s).ss_hue = s.ss_hue ∧ (ss_top s).ss_hue_bot = s.ss_hue_bot)
      ∧ ((ss_bot s).ss_hue = s.ss_hue ∧ (ss_bot s).ss_hue_bot = s.ss_hue_bot)
      ∧ ((ss_vals s).ss_hue = s.ss_hue ∧ (ss_vals s).ss_hue_bot = s.ss_hue_bot)
      ∧ ((ss_advance s).ss_hue = s.ss_hue ∧ (ss_advance s).ss_hue_bot = s.ss_hue_bot) := by
  refine ⟨?_, ?_, ?_, ?_, ?_⟩
  · cases init <;> simp [ss_init]
  · simp only [ss_top]; split_ifs <;> exact ⟨rfl, rfl⟩
  · simp only [ss_bot]; split_ifs <;> exact ⟨rfl, rfl⟩
  · simp only [ss_vals]; split_ifs <;> exact ⟨rfl, rfl⟩
  · simp only [ss_advance]; split_ifs <;> exact ⟨rfl, rfl⟩

theorem ss_color_kept (s : Ss) :
    (ss_vals s).ss_color = s.ss_color ∧ (ss_advance s).ss_color = s.ss_color := by
  refine ⟨?_, ?_⟩
  · simp only [ss_vals]; split_ifs <;> rfl
  · simp only [ss_advance]; split_ifs <;> rfl

theorem ss_hues_range (s : Ss) (h0 : 0 ≤ s.ss_hue) :
    (0 ≤ (ss_hues s).ss_hue ∧ (ss_hues s).ss_hue ≤ 1)
      ∧ (0 ≤ (ss_hues s).ss_hue_bot ∧ (ss_hues s).ss_hue_bot ≤ 1)
      ∧ ((ss_hues s).ss_hue_bot = (ss_hues s).ss_hue + 0.5
          ∨ (ss_hues s).ss_hue_bot = (ss_hues s).ss_hue + 0.5 - 1) := by
  have key : ∀ x : ℚ, 0 ≤ x → x ≤ 1 →
      (0 ≤ (if x + 0.5 > 1 then x + 0.5 - 1 else x + 0.5)
        ∧ (if x + 0.5 > 1 then x + 0.5 - 1 else x + 0.5) ≤ 1)
      ∧ ((if x + 0.5 > 1 then x + 0.5 - 1 else x + 0.5) = x + 0.5
        ∨ (if x + 0.5 > 1 then x + 0.5 - 1 else x + 0.5) = x + 0.5 - 1) := by
    intro x hx0 hx1
    by_cases c : x + 0.5 > 1
    · rw [if_pos c]
      norm_num at c ⊢
      constructor <;> linarith
    · rw [if_neg c]
      norm_num at c ⊢
      constructor <;> linarith
  have hue : 0 ≤ (if s.ss_hue + 0.0004 > 1.0 then (0.0 : ℚ) else s.ss_hue + 0.0004)
      ∧ (if s.ss_hue + 0.0004 > 1.0 then (0.0 : ℚ) else s.ss_hue + 0.0004) ≤ 1 := by
    by_cases c : s.ss_hue + 0.0004 > 1.0
    · rw [if_pos c]; norm_num
    · rw [if_neg c]
      norm_num at c ⊢
      constructor <;> linarith
  obtain ⟨k1, k2⟩ := key _ hue.1 hue.2
  simp only [ss_hues]
  exact ⟨hue, k1, k2⟩

theorem ss_vals_unit (s : Ss) :
    (0 ≤ (ss_vals s).ss_val ∧ (ss_vals s).ss_val ≤ 1)
      ∧ (ss_vals s).ss_val_bot = 1 - (ss_vals s).ss_val := by
  simp only [ss_vals]
  split_ifs with c1 c2
  · norm_num
  · norm_num
  · norm_num at c1 c2 ⊢
    constructor <;> linarith

theorem ss_start_range : SsRange ss_start := by
  refine ⟨⟨?_, ?_⟩, ?_, ?_, ?_, ?_, ?_⟩
  · intro ring pos
    refine ⟨0, by norm_num, ?_⟩
    have hr : ring = 0 ∨ ring = 1 ∨ 2 ≤ ring := by omega
    rcases hr with h | h | h
    · subst h; norm_num [ss_start, VAL]
    · subst h; norm_num [ss_start, VAL]
    · obtain ⟨m, rfl⟩ : ∃ m, ring = m + 2 := ⟨ring - 2, by omega⟩
      norm_num [ss_start, VAL]
  · intro ring pos hr
    interval_cases ring <;> norm_num [ss_start, SAT]
  · norm_num [ss_start]
  · norm_num [ss_start]
  · norm_num [ss_start, SS_VAL_MAX]
  · norm_num [ss_start]
  · right; norm_num [ss_start, SS_VAL_MAX]

/-- One call of `spaceship_prog` with a level in `(0,1]` keeps the ranges. -/
theorem ss_next_range (init : Bool) (level : ℚ) (s : Ss) (hl : 0 < level ∧ level ≤ 1)
    (h : SsRange s) : SsRange (ss_next init level s) := by
  obtain ⟨hg, hv, hvb, hh, hhb, -⟩ := h
  obtain ⟨-, -, -, -, i5, i6, -, i8⟩ := ss_init_fields init level s
  obtain ⟨ki, kt, kb, kv, ka⟩ := ss_hue_kept init level s
  have hvi : (ss_init init level s).ss_val ≤ 1 := by
    rw [i8]
    cases init
    · simpa using hv.2
    · simp only [if_true, SS_VAL_MAX]
      norm_num
      exact hl.2
  have g1 : ValGrid (ss_top (ss_init init level s)).ss_color :=
    ss_top_grid _ (by rw [i5]; exact hg) hvi
  have hvb1 : (ss_top (ss_init init level s)).ss_val_bot ≤ 1 := by
    rw [(ss_top_fields _).2.2.2.2.1, i6, hvb]
    linarith [hv.1]
  have g2 : ValGrid (ss_bot (ss_top (ss_init init level s))).ss_color :=
    ss_bot_grid _ g1 hvb1
  have hue0 : 0 ≤ (ss_bot (ss_top (ss_init init level s))).ss_hue := by
    rw [(ss_hue_kept init level (ss_top (ss_init init level s))).2.2.1.1,
      (ss_hue_kept init level (ss_init init level s)).2.1.1, ki.1]
    exact hh.1
  obtain ⟨r1, r2, r3⟩ := ss_hues_range (ss_bot (ss_top (ss_init init level s))) hue0
  obtain ⟨u1, u2⟩ := ss_vals_unit (ss_hues (ss_bot (ss_top (ss_init init level s))))
  obtain ⟨-, -, -, -, -, a6, a7, -⟩ := ss_advance_fields
    (ss_vals (ss_hues (ss_bot (ss_top (ss_init init level s)))))
  obtain ⟨-, -, -, hvk, hak⟩ := ss_hue_kept init level
    (ss_vals (ss_hues (ss_bot (ss_top (ss_init init level s)))))
  obtain ⟨-, -, -, hvk2, -⟩ := ss_hue_kept init level
    (ss_hues (ss_bot (ss_top (ss_init init level s))))
  have hcol : (ss_next init level s).ss_color
      = (ss_bot (ss_top (ss_init init level s))).ss_color := by
    unfold ss_next
    rw [(ss_color_kept _).2, (ss_color_kept _).1]
    rfl
  unfold SsRange
  rw [hcol]
  unfold ss_next
  rw [a6, a7, hak.1, hak.2, hvk2.1, hvk2.2]
  exact ⟨g2, u1, u2, r1, r2, r3⟩

theorem ss_run_range (cs : List (Bool × ℚ)) :
    ∀ s : Ss, SsRange s → (∀ c ∈ cs, 0 < c.2 ∧ c.2 ≤ 1) → SsRange (ss_run s cs) := by
  induction cs with
  | nil => intro s h _; exact h
  | cons c cs ih =>
    intro s h hc
    show SsRange (ss_run (ss_next c.1 c.2 s) cs)
    exact ih _ (ss_next_range c.1 c.2 s (hc c (List.mem_cons_self _ _)) h)
      (fun d hd => hc d (List.mem_cons_of_mem _ hd))

/-- The frame buffer after a call of `spaceship_prog`: the four `hsv2rgb` calls
store their results at their cells, in order. -/
theorem spaceship_prog_paint (init : Bool) (level : ℚ) (s : Ss) (hw : Hw) :
    (spaceship_prog init level s hw).2.data
      = ((ss_hsv_cells init level s).zip (ss_hsv_calls init level s)).foldl
          (fun d c => hsv2rgb_into d c.1 c.2.1 c.2.2.1 c.2.2.2)
          (if init then clear_lights hw else hw).data := rfl

/-- Inside a call: the tables after the top block and after the bottom block. -/
theorem ss_mid_grid (init : Bool) (level : ℚ) (s : Ss) (hl : 0 < level ∧ level ≤ 1)
    (h : SsRange s) :
    ValGrid (ss_top (ss_init init level s)).ss_color
      ∧ ValGrid (ss_bot (ss_top (ss_init init level s))).ss_color
      ∧ (ss_top (ss_init init level s)).ss_hue = s.ss_hue
      ∧ (ss_bot (ss_top (ss_init init level s))).ss_hue_bot = s.ss_hue_bot := by
  obtain ⟨hg, hv, hvb, -⟩ := h
  obtain ⟨-, -, -, -, i5, i6, -, i8⟩ := ss_init_fields init level s
  obtain ⟨ki, -⟩ := ss_hue_kept init level s
  have hvi : (ss_init init level s).ss_val ≤ 1 := by
    rw [i8]
    cases init
    · simpa using hv.2
    · simp only [if_true, SS_VAL_MAX]
      norm_num
      exact hl.2
  have g1 : ValGrid (ss_top (ss_init init level s)).ss_color :=
    ss_top_grid _ (by rw [i5]; exact hg) hvi
  have hvb1 : (ss_top (ss_init init level s)).ss_val_bot ≤ 1 := by
    rw [(ss_top_fields _).2.2.2.2.1, i6, hvb]
    linarith [hv.1]
  refine ⟨g1, ss_bot_grid _ g1 hvb1, ?_, ?_⟩
  · rw [(ss_hue_kept init level (ss_init init level s)).2.1.1, ki.1]
  · rw [(ss_hue_kept init level (ss_top (ss_init init level s))).2.2.1.2,
      (ss_hue_kept init level (ss_init init level s)).2.1.2, ki.2]

/-- C26.  In every state reached from program start by calls of `spaceship_prog`
with levels in `(0,1]` (any `init`): every value `ss_color[ring][pos][VAL]` is a
multiple of 0.004 in `[0,1]`, `ss_val` is in `[0,1]` and
`ss_val_bot = 1 - ss_val`, `ss_hue` and `ss_hue_bot` are in `[0,1]` and
`ss_hue_bot` is `ss_hue + 0.5` or `ss_hue + 0.5 - 1`.  In the next call (any
`init`, level in `(0,1]`) each of the four `hsv2rgb` calls receives `h`, `s`, `v`
in `[0,1]` and writes components of at most 4095. -/
theorem spaceship_ranges (cs : List (Bool × ℚ)) (hcs : ∀ c ∈ cs, 0 < c.2 ∧ c.2 ≤ 1)
    (init : Bool) (level : ℚ) (hl : 0 < level ∧ level ≤ 1) :
    SsRange (ss_run ss_start cs)
      ∧ (∀ ring pos : Nat, ∃ k : Nat, k ≤ 250
          ∧ (ss_run ss_start cs).ss_color ring pos VAL = (k : ℚ) * 0.004
          ∧ 0 ≤ (ss_run ss_start cs).ss_color ring pos VAL
          ∧ (ss_run ss_start cs).ss_color ring pos VAL ≤ 1)
      ∧ (0 ≤ (ss_run ss_start cs).ss_val_bot ∧ (ss_run ss_start cs).ss_val_bot ≤ 1)
      ∧ (∀ hw : Hw, (spaceship_prog init level (ss_run ss_start cs) hw).2.data
          = ((ss_hsv_cells init level (ss_run ss_start cs)).zip
              (ss_hsv_calls init level (ss_run ss_start cs))).foldl
              (fun d c => hsv2rgb_into d c.1 c.2.1 c.2.2.1 c.2.2.2)
              (if init then clear_lights hw else hw).data)
      ∧ ∀ a ∈ ss_hsv_calls init level (ss_run ss_start cs),
          (0 ≤ a.1 ∧ a.1 ≤ 1) ∧ (0 ≤ a.2.1 ∧ a.2.1 ≤ 1) ∧ (0 ≤ a.2.2 ∧ a.2.2 ≤ 1)
            ∧ (hsv2rgb a.1 a.2.1 a.2.2).1 ≤ 4095 ∧ (hsv2rgb a.1 a.2.1 a.2.2).2.1 ≤ 4095
            ∧ (hsv2rgb a.1 a.2.1 a.2.2).2.2 ≤ 4095 := by
  have hR := ss_run_range cs ss_start ss_start_range hcs
  obtain ⟨g1, g2, e1, e2⟩ := ss_mid_grid init level (ss_run ss_start cs) hl hR
  generalize ss_run ss_start cs = s at hR g1 g2 e1 e2 ⊢
  obtain ⟨hg, hv, hvb, hh, hhb, hrel⟩ := hR
  have fin : ∀ h s v : ℚ, (0 ≤ h ∧ h ≤ 1) → s = 1 → (0 ≤ v ∧ v ≤ 1) →
      (0 ≤ h ∧ h ≤ 1) ∧ (0 ≤ s ∧ s ≤ 1) ∧ (0 ≤ v ∧ v ≤ 1)
        ∧ (hsv2rgb h s v).1 ≤ 4095 ∧ (hsv2rgb h s v).2.1 ≤ 4095
        ∧ (hsv2rgb h s v).2.2 ≤ 4095 := by
    intro h s v a1 a2 a3
    have hs : 0 ≤ s ∧ s ≤ 1 := by rw [a2]; norm_num
    exact ⟨a1, hs, a3, hsv2rgb_le_4095 h s v a1.1 hs a3⟩
  refine ⟨⟨hg, hv, hvb, hh, hhb, hrel⟩, ?_, ?_, fun hw => spaceship_prog_paint init level s hw, ?_⟩
  · intro ring pos
    obtain ⟨k, hk, e⟩ := hg.1 ring pos
    obtain ⟨b0, b1⟩ := grid_le_one _ hg ring pos
    exact ⟨k, hk, e, b0, b1⟩
  · rw [hvb]
    constructor <;> linarith [hv.1, hv.2]
  · intro a ha
    simp only [ss_hsv_calls, List.mem_cons, List.mem_singleton, List.not_mem_nil, or_false] at ha
    rcases ha with rfl | rfl | rfl | rfl
    · exact fin _ _ _ (by rw [e1]; exact hh) (g1.2 0 _ (by norm_num)) (grid_le_one _ g1 0 _)
    · exact fin _ _ _ (by rw [e1]; exact hh) (g1.2 0 _ (by norm_num)) (grid_le_one _ g1 0 _)
    · exact fin _ _ _ (by rw [e2]; exact hhb) (g2.2 1 _ (by norm_num)) (grid_le_one _ g2 1 _)
    · exact fin _ _ _ (by rw [e2]; exact hhb) (g2.2 1 _ (by norm_num)) (grid_le_one _ g2 1 _)

/-- C26, at a concrete input: after a call with `init = 1` and a call with
`init = 0`, both at level 0.5. -/
theorem spaceship_ranges_witness :
    (∀ c ∈ [(true, (1 / 2 : ℚ)), (false, (1 / 2 : ℚ))], 0 < c.2 ∧ c.2 ≤ 1)
      ∧ SsRange (ss_run ss_start [(true, 1 / 2), (false, 1 / 2)]) :=
  ⟨by intro c hc; simp at hc; rcases hc with rfl | rfl <;> norm_num,
    (spaceship_ranges [(true, 1 / 2), (false, 1 / 2)]
      (by intro c hc; simp at hc; rcases hc with rfl | rfl <;> norm_num)
      false (1 / 2) (by norm_num)).1⟩

/-! ## The too-bright path of SENSE mode -/

end Solarium
